import Mathlib

/-!
# demo-gin: the `Auth` middleware, the handlers and the test helpers

A shallow embedding of

* `internal/middleware/auth.go` (the `Auth` gin middleware),
* `tests/helpers/jwt.go` (the `JWTHelper` issuing and validating tokens),
* `internal/handlers/auth.go` (`Register`, `Login`), `post.go` (`List`,
  `Create`) and `user.go` (`List`), and
* `tests/fixtures/factory.go` (the fixtures that hash and store a password),

together with the part of the gin request pipeline (`Context.Next`,
`Context.Abort`, `Context.JSON`, `Context.Set`, `Context.Get`,
`Context.ShouldBindJSON`, `Context.DefaultQuery`) and of the Go libraries
(`strings.Split`, `strconv.Atoi`, `encoding/base64`, `crypto/hmac`, `bcrypt`)
that they call.

Go `string` values are modelled by Lean `String` (so: Go strings holding valid
UTF-8), Go `int` by `Int` (with explicit 64-bit wrap-around where arithmetic
can overflow), instants by their nanoseconds since the Unix epoch. The
primitives the JWT package takes from elsewhere (base64url, `encoding/json`,
HMAC) are a parameter, `JWTLib`; what is assumed of them is `JWTLib.Lawful`,
and `refLib` and `refBase64Lib` are instances that satisfy it.
-/

namespace DemoGin

/-! ## Go standard library: `strings.Split` -/

/-- Pieces of a character sequence between the occurrences of `sep`; the
character-level content of `strings.Split(s, sep)` for a one-character
separator. The result always has one more element than there are
separators, so the empty input yields one empty piece. -/
def splitChars (sep : Char) : List Char → List (List Char)
  | [] => [[]]
  | c :: cs =>
    if c = sep then [] :: splitChars sep cs
    else
      match splitChars sep cs with
      | [] => [[c]]
      | p :: ps => (c :: p) :: ps

/-- Go `strings.Split(s, sep)` where `sep` is a string of one character (both
call sites, `" "` in the middleware and `"."` in the token parser, are). -/
def strings.Split (s : String) (sep : Char) : List String :=
  (splitChars sep s.data).map String.mk

/-! ## gin: values, request, response writer, context -/

/-- The `interface{}` values stored in `gin.H` bodies and in `Context.Keys`;
`obj` is a nested `gin.H`, `arr` a slice. -/
inductive Value where
  | str (s : String)
  | int (i : Int)
  | bool (b : Bool)
  | null
  | obj (fields : List (String × Value))
  | arr (items : List Value)
  deriving Repr

mutual
/-- Equality of values is decidable. -/
def Value.decEq : (a b : Value) → Decidable (a = b)
  | Value.str s, Value.str t =>
    if h : s = t then isTrue (by rw [h]) else isFalse (fun e => h (by cases e; rfl))
  | Value.int s, Value.int t =>
    if h : s = t then isTrue (by rw [h]) else isFalse (fun e => h (by cases e; rfl))
  | Value.bool s, Value.bool t =>
    if h : s = t then isTrue (by rw [h]) else isFalse (fun e => h (by cases e; rfl))
  | Value.null, Value.null => isTrue rfl
  | Value.obj f, Value.obj g =>
    match Value.decEqFields f g with
    | isTrue h => isTrue (by rw [h])
    | isFalse h => isFalse (fun e => h (by cases e; rfl))
  | Value.arr f, Value.arr g =>
    match Value.decEqItems f g with
    | isTrue h => isTrue (by rw [h])
    | isFalse h => isFalse (fun e => h (by cases e; rfl))
  | Value.str _, Value.arr _ => isFalse (fun e => by cases e)
  | Value.int _, Value.arr _ => isFalse (fun e => by cases e)
  | Value.bool _, Value.arr _ => isFalse (fun e => by cases e)
  | Value.null, Value.arr _ => isFalse (fun e => by cases e)
  | Value.obj _, Value.arr _ => isFalse (fun e => by cases e)
  | Value.arr _, Value.str _ => isFalse (fun e => by cases e)
  | Value.arr _, Value.int _ => isFalse (fun e => by cases e)
  | Value.arr _, Value.bool _ => isFalse (fun e => by cases e)
  | Value.arr _, Value.null => isFalse (fun e => by cases e)
  | Value.arr _, Value.obj _ => isFalse (fun e => by cases e)
  | Value.str _, Value.int _ => isFalse (fun e => by cases e)
  | Value.str _, Value.bool _ => isFalse (fun e => by cases e)
  | Value.str _, Value.null => isFalse (fun e => by cases e)
  | Value.str _, Value.obj _ => isFalse (fun e => by cases e)
  | Value.int _, Value.str _ => isFalse (fun e => by cases e)
  | Value.int _, Value.bool _ => isFalse (fun e => by cases e)
  | Value.int _, Value.null => isFalse (fun e => by cases e)
  | Value.int _, Value.obj _ => isFalse (fun e => by cases e)
  | Value.bool _, Value.str _ => isFalse (fun e => by cases e)
  | Value.bool _, Value.int _ => isFalse (fun e => by cases e)
  | Value.bool _, Value.null => isFalse (fun e => by cases e)
  | Value.bool _, Value.obj _ => isFalse (fun e => by cases e)
  | Value.null, Value.str _ => isFalse (fun e => by cases e)
  | Value.null, Value.int _ => isFalse (fun e => by cases e)
  | Value.null, Value.bool _ => isFalse (fun e => by cases e)
  | Value.null, Value.obj _ => isFalse (fun e => by cases e)
  | Value.obj _, Value.str _ => isFalse (fun e => by cases e)
  | Value.obj _, Value.int _ => isFalse (fun e => by cases e)
  | Value.obj _, Value.bool _ => isFalse (fun e => by cases e)
  | Value.obj _, Value.null => isFalse (fun e => by cases e)
/-- Equality of the fields of a nested `gin.H` is decidable. -/
def Value.decEqFields : (a b : List (String × Value)) → Decidable (a = b)
  | [], [] => isTrue rfl
  | [], _ :: _ => isFalse (fun e => by cases e)
  | _ :: _, [] => isFalse (fun e => by cases e)
  | (k, v) :: f, (l, w) :: g =>
    if hk : k = l then
      match Value.decEq v w with
      | isTrue hv =>
        match Value.decEqFields f g with
        | isTrue hf => isTrue (by rw [hk, hv, hf])
        | isFalse hf => isFalse (fun e => hf (by cases e; rfl))
      | isFalse hv => isFalse (fun e => hv (by cases e; rfl))
    else isFalse (fun e => hk (by cases e; rfl))
/-- Equality of the items of a slice of values is decidable. -/
def Value.decEqItems : (a b : List Value) → Decidable (a = b)
  | [], [] => isTrue rfl
  | [], _ :: _ => isFalse (fun e => by cases e)
  | _ :: _, [] => isFalse (fun e => by cases e)
  | v :: f, w :: g =>
    match Value.decEq v w with
    | isTrue hv =>
      match Value.decEqItems f g with
      | isTrue hf => isTrue (by rw [hv, hf])
      | isFalse hf => isFalse (fun e => hf (by cases e; rfl))
    | isFalse hv => isFalse (fun e => hv (by cases e; rfl))
end

instance instDecidableEqValue : DecidableEq Value := Value.decEq

/-- Go `gin.H`: a JSON object given by its fields. -/
abbrev H := List (String × Value)

/-- Go `http.Header`, restricted to one value per (canonical) name. -/
abbrev Header := List (String × String)

/-- Go `http.Header.Get`: the value stored under `key`, or `""` when the
header is absent. -/
def Header.Get (h : Header) (key : String) : String :=
  (h.lookup key).getD ""

/-- The value of a field of a JSON object in a request body, as far as
decoding into a Go `string` tells values apart: `null`, a string, or any
other value (number, boolean, array, object). -/
inductive FieldValue where
  | null
  | string (s : String)
  | other
  deriving DecidableEq, Repr

/-- The request body as the `encoding/json` decoder reads it: no JSON value
at all (a syntax error, or nothing to read), `null`, an object given by
its fields in the order they are written, or a JSON value of another
kind. -/
inductive Body where
  | notJSON
  | null
  | object (fields : List (String × FieldValue))
  | other
  deriving DecidableEq, Repr

/-- The inbound `http.Request`, reduced to its headers, its body and the
parsed query of its URL (`url.Values`: the pairs of key and value in the
order they are written). -/
structure Request where
  Header : Header
  Body : Body := Body.notJSON
  Query : List (String × String) := []
  deriving DecidableEq, Repr

/-- Go `http.StatusUnauthorized`. -/
def StatusUnauthorized : Int := 401

/-- Go `http.StatusOK`. -/
def StatusOK : Int := 200

/-- gin `responseWriter`: the status to send, whether the header has been
written, and the JSON documents written to the body so far. -/
structure ResponseWriter where
  status : Int
  written : Bool
  body : List H
  deriving DecidableEq, Repr

/-- gin `responseWriter.reset`: status `defaultStatus` (200), nothing
written. -/
def ResponseWriter.reset : ResponseWriter :=
  { status := 200, written := false, body := [] }

/-- gin `responseWriter.WriteHeader`: the status changes only while nothing
has been written; once the header is out a different code is ignored. -/
def ResponseWriter.WriteHeader (w : ResponseWriter) (code : Int) : ResponseWriter :=
  if 0 < code ∧ w.status ≠ code then
    if w.written then w else { w with status := code }
  else w

/-- gin `responseWriter.Write` of one rendered JSON document: the header
goes out first (`WriteHeaderNow`), then the document is appended. -/
def ResponseWriter.Write (w : ResponseWriter) (doc : H) : ResponseWriter :=
  { w with written := true, body := w.body ++ [doc] }

/-- gin `responseWriter.WriteHeaderNow`. -/
def ResponseWriter.WriteHeaderNow (w : ResponseWriter) : ResponseWriter :=
  { w with written := true }

/-- gin `abortIndex` (`math.MaxInt8 >> 1`). -/
def abortIndex : Int := 63

/-- gin `Context`: the request, the request-scoped `Keys` map, the position
`index` in the handler chain and the response writer. The handler chain
itself is passed alongside (see `runChain`). -/
structure Context where
  Request : Request
  Keys : List (String × Value)
  index : Int
  Writer : ResponseWriter
  deriving DecidableEq, Repr

/-- gin `Context.GetHeader`. -/
def Context.GetHeader (c : Context) (key : String) : String :=
  c.Request.Header.Get key

/-- gin `Context.Set`: store `value` under `key` in `Keys`, replacing an
earlier entry. -/
def Context.Set (c : Context) (key : String) (value : Value) : Context :=
  { c with Keys := (key, value) :: c.Keys.filter (fun kv => kv.1 ≠ key) }

/-- gin `Context.Get`: the value under `key` and whether it exists, as an
`Option`. -/
def Context.Get (c : Context) (key : String) : Option Value :=
  c.Keys.lookup key

/-- gin `Context.Abort`: no pending handler is called any more. -/
def Context.Abort (c : Context) : Context :=
  { c with index := abortIndex }

/-- gin `Context.IsAborted`. -/
def Context.IsAborted (c : Context) : Bool :=
  decide (abortIndex ≤ c.index)

/-- gin `bodyAllowedForStatus`. -/
def bodyAllowedForStatus (status : Int) : Bool :=
  if 100 ≤ status ∧ status ≤ 199 then false
  else if status = 204 then false
  else if status = 304 then false
  else true

/-- gin `Context.JSON(code, obj)`: set the status, then render `obj` into
the body (no body for the statuses that forbid one). -/
def Context.JSON (c : Context) (code : Int) (obj : H) : Context :=
  let w := c.Writer.WriteHeader code
  if bodyAllowedForStatus code then { c with Writer := w.Write obj }
  else { c with Writer := w.WriteHeaderNow }

/-- A gin `HandlerFunc`. Its first argument is what `c.Next()` does when
the handler calls it (run the pending handlers of the chain); a handler
that never calls `c.Next()` ignores it. -/
abbrev HandlerFunc := (Context → Context) → Context → Context

/-- The statement `c.index++` of gin `Context.Next`. -/
def Context.incr (c : Context) : Context :=
  { c with index := c.index + 1 }

/-- The loop of gin `Context.Next`:
`for c.index < len(handlers) { handlers[c.index](c); c.index++ }`.
`fuel` bounds the number of handler invocations still allowed (nested
`c.Next()` calls included). -/
def runChain (handlers : List HandlerFunc) : Nat → Context → Context
  | 0, c => c
  | fuel + 1, c =>
    if c.index < handlers.length then
      match handlers.get? c.index.toNat with
      | some h => runChain handlers fuel (h (fun c2 => runChain handlers fuel c2.incr) c).incr
      | none => c
    else c

/-- gin `Context.Next`: `c.index++` followed by the loop. -/
def Context.Next (handlers : List HandlerFunc) (fuel : Nat) (c : Context) : Context :=
  runChain handlers fuel c.incr

/-- The context gin hands to the chain for a new request (`Context.reset`):
no keys, `index = -1`, a reset writer. -/
def newContext (req : Request) : Context :=
  { Request := req, Keys := [], index := -1, Writer := ResponseWriter.reset }

/-- gin `Engine.handleHTTPRequest` for a matched route with handler chain
`handlers`: run the chain from the start, then flush the header. -/
def ServeHTTP (handlers : List HandlerFunc) (fuel : Nat) (req : Request) : Context :=
  let c := Context.Next handlers fuel (newContext req)
  { c with Writer := c.Writer.WriteHeaderNow }

/-! ## `internal/middleware/auth.go` -/

/-- The middleware `Auth()` of `internal/middleware/auth.go`. -/
def Auth : HandlerFunc := fun next c =>
  let authHeader := c.GetHeader "Authorization"
  if authHeader = "" then
    (c.JSON StatusUnauthorized [("error", Value.str "Authorization header required")]).Abort
  else
    let bearerToken := strings.Split authHeader ' '
    if bearerToken.length ≠ 2 ∨ bearerToken.getD 0 "" ≠ "Bearer" then
      (c.JSON StatusUnauthorized [("error", Value.str "Invalid authorization header format")]).Abort
    else
      let token := bearerToken.getD 1 ""
      if token = "" then
        (c.JSON StatusUnauthorized [("error", Value.str "Invalid token")]).Abort
      else
        next (c.Set "userID" (Value.int 1))

/-- A request carrying `Authorization: value` (what the test client sends
when its token is set). -/
def requestWithAuthorization (value : String) : Request :=
  { Header := [("Authorization", value)] }

/-- The response gin has written when `Auth` rejects: status 401, a body
of the single document `{"error": msg}`. -/
def unauthorized (msg : String) : ResponseWriter :=
  { status := 401, written := true, body := [[("error", Value.str msg)]] }

/-- The context gin is left with when `Auth`, first in the chain, has
rejected the request `req` with message `msg`: nothing in `Keys`, the
index past `abortIndex`, the 401 response written. It does not depend
on the handlers registered behind `Auth`. -/
def rejectedContext (req : Request) (msg : String) : Context :=
  { Request := req, Keys := [], index := abortIndex + 1, Writer := unauthorized msg }

/-- Go `http.StatusInternalServerError`. -/
def StatusInternalServerError : Int := 500

/-- The handler behind `Auth` on `/api/profile` in
`tests/integration/middleware_auth_test.go`: it answers 500 when the
context has no `userID` and otherwise 200 with the `userID` it read (the
fields of the `gin.H` in the order `encoding/json` writes a map). -/
def profileHandler : HandlerFunc := fun _ c =>
  match c.Get "userID" with
  | none => c.JSON StatusInternalServerError [("error", Value.str "User ID not found")]
  | some userID =>
    c.JSON StatusOK [("message", Value.str "Access granted"), ("user_id", userID)]

/-- The handler behind `Auth` on `/api/user-context` in the same test: it
reports whether `userID` exists and its value (`nil` when absent). -/
def userContextHandler : HandlerFunc := fun _ c =>
  match c.Get "userID" with
  | none => c.JSON StatusOK [("user_id", Value.null), ("user_id_exists", Value.bool false)]
  | some userID =>
    c.JSON StatusOK [("user_id", userID), ("user_id_exists", Value.bool true)]

/-- Acceptance of a request by `Auth`: run on the fresh context of the request
with a `Next` that has nothing to run, it leaves the context un-aborted. -/
def Accepts (req : Request) : Bool :=
  !(Auth (fun c => c) (newContext req)).IsAborted

/-- The context the handler right behind `Auth` is called with when `Auth`,
first in the chain, lets the request through: `userID` attached, nothing
written, position 1. -/
def passedContext (req : Request) : Context :=
  { Request := req, Keys := [("userID", Value.int 1)], index := 1,
    Writer := ResponseWriter.reset }

/-- Outcome `Authenticated` of a run of `Auth` on the context `c`: the
identity is attached and control passes to `Next`, whatever `Next` does. -/
def Authenticated (c : Context) : Prop :=
  ∀ next : Context → Context, Auth next c = next (c.Set "userID" (Value.int 1))

/-- Outcome `Rejected` of a run of `Auth` on the context `c`: whatever
`Next` would do, the run ends with `c.JSON(401, {"error": msg})` followed
by `c.Abort()`, for one message `msg`. -/
def Rejected (c : Context) : Prop :=
  ∃ msg : String, ∀ next : Context → Context, Auth next c =
    (c.JSON StatusUnauthorized [("error", Value.str msg)]).Abort

/-! ## Go `time` -/

/-- Go `time.Time`, as an instant: nanoseconds since the Unix epoch. -/
abbrev Time := Int

/-- Go `time.Duration`: a signed 64-bit count of nanoseconds. -/
abbrev Duration := Int

/-- Go `time.Second`. -/
def Second : Duration := 1000000000

/-- Go `time.Hour`. -/
def Hour : Duration := 3600000000000

/-- The value a Go signed 64-bit integer holds when the exact result of an
arithmetic operation is `x` (two's complement wrap-around). -/
def wrapInt64 (x : Int) : Int := (x + 2 ^ 63) % 2 ^ 64 - 2 ^ 63

/-- Go `Time.Add` (clock readings are far from the limits of `time.Time`,
where `Add` saturates). -/
def Time.Add (t : Time) (d : Duration) : Time := t + d

/-- Go `Time.Before`. -/
def Time.Before (t u : Time) : Bool := decide (t < u)

/-! ## golang-jwt/jwt/v5, as used by `tests/helpers/jwt.go` -/

/-- Go `[]byte`. -/
abbrev Bytes := List UInt8

/-- Go `[]byte(s)`: the UTF-8 bytes of the string. -/
def bytesOf (s : String) : Bytes := s.data.flatMap String.utf8EncodeChar

/-- jwt `NumericDate`: a wrapped `time.Time`. -/
structure NumericDate where
  Time : Time
  deriving DecidableEq, Repr

/-- jwt `NewNumericDate(t)`: `t.Truncate(TimePrecision)` with the default
`TimePrecision = time.Second`, so the instant is rounded down to a whole
second. -/
def NewNumericDate (t : Time) : NumericDate := { Time := t - t % Second }

/-- jwt `RegisteredClaims`. -/
structure RegisteredClaims where
  Issuer : String
  Subject : String
  Audience : List String
  ExpiresAt : Option NumericDate
  NotBefore : Option NumericDate
  IssuedAt : Option NumericDate
  ID : String
  deriving DecidableEq, Repr

/-- The struct `Claims` of `tests/helpers/jwt.go`. -/
structure Claims where
  UserID : Int
  Username : String
  Email : String
  RegisteredClaims : RegisteredClaims
  deriving DecidableEq, Repr

/-- The struct `JWTHelper` of `tests/helpers/jwt.go`. -/
structure JWTHelper where
  Secret : Bytes
  Issuer : String
  Expire : Duration
  deriving DecidableEq, Repr

/-- The hash functions of the HMAC signing methods. -/
inductive Hash where
  | SHA256
  | SHA384
  | SHA512
  deriving DecidableEq, Repr

/-- jwt `SigningMethod`: the HMAC family (`*SigningMethodHMAC`) and the
other registered methods, kept by name. -/
inductive SigningMethod where
  | HMAC (hash : Hash)
  | other (alg : String)
  deriving DecidableEq, Repr

/-- jwt `SigningMethodHS256`. -/
def SigningMethodHS256 : SigningMethod := SigningMethod.HMAC Hash.SHA256

/-- jwt `SigningMethod.Alg`. -/
def SigningMethod.Alg : SigningMethod → String
  | SigningMethod.HMAC Hash.SHA256 => "HS256"
  | SigningMethod.HMAC Hash.SHA384 => "HS384"
  | SigningMethod.HMAC Hash.SHA512 => "HS512"
  | SigningMethod.other alg => alg

/-- jwt `GetSigningMethod`: the method registered under `alg`, if any. -/
def GetSigningMethod (alg : String) : Option SigningMethod :=
  if alg = "HS256" then some (SigningMethod.HMAC Hash.SHA256)
  else if alg = "HS384" then some (SigningMethod.HMAC Hash.SHA384)
  else if alg = "HS512" then some (SigningMethod.HMAC Hash.SHA512)
  else if alg ∈ ["RS256", "RS384", "RS512", "ES256", "ES384", "ES512",
      "PS256", "PS384", "PS512", "EdDSA", "none"] then some (SigningMethod.other alg)
  else none

/-- jwt `Token`. -/
structure Token where
  Raw : String
  Method : SigningMethod
  Header : H
  Claims : Claims
  Signature : Bytes
  Valid : Bool
  deriving DecidableEq, Repr

/-- The sentinel errors a claims validation can join. -/
inductive ClaimError where
  | Expired
  | NotValidYet
  deriving DecidableEq, Repr

/-- The errors of `Parser.ParseWithClaims` (`ErrTokenMalformed`,
`ErrTokenUnverifiable`, `ErrTokenSignatureInvalid`, `ErrTokenInvalidClaims`
with the joined causes) and the helper's own `"invalid token"`. -/
inductive TokenError where
  | Malformed
  | Unverifiable
  | SignatureInvalid
  | InvalidClaims (causes : List ClaimError)
  | InvalidToken
  deriving DecidableEq, Repr

/-- The primitives `golang-jwt` takes from other packages: base64url
without padding (`Token.EncodeSegment`, `Parser.DecodeSegment`),
`encoding/json` on the token header and on `Claims`, and `crypto/hmac`
(`hmac.New(hash, key)`, `Write(message)`, `Sum(nil)`). -/
structure JWTLib where
  EncodeSegment : Bytes → String
  DecodeSegment : String → Option Bytes
  MarshalHeader : H → Bytes
  UnmarshalHeader : Bytes → Option H
  MarshalClaims : Claims → Bytes
  UnmarshalClaims : Bytes → Option Claims
  HMAC : Hash → Bytes → String → Bytes

/-- The header `jwt.NewWithClaims` gives a token: `typ` is `JWT`, `alg` is
the method's name (keys in the order `encoding/json` writes a map). -/
def jwtHeader (alg : String) : H :=
  [("alg", Value.str alg), ("typ", Value.str "JWT")]

/-- jwt `NewWithClaims`. -/
def NewWithClaims (method : SigningMethod) (claims : Claims) : Token :=
  { Raw := "", Method := method, Header := jwtHeader method.Alg, Claims := claims,
    Signature := [], Valid := false }

/-- jwt `Token.SigningString`: the encoded header, a dot, the encoded
claims. -/
def Token.SigningString (lib : JWTLib) (t : Token) : String :=
  lib.EncodeSegment (lib.MarshalHeader t.Header) ++ "." ++
    lib.EncodeSegment (lib.MarshalClaims t.Claims)

/-- jwt `SigningMethod.Sign` with a `[]byte` key: the HMAC of the signing
string; the methods outside the HMAC family do not take such a key. -/
def SigningMethod.Sign (lib : JWTLib) (m : SigningMethod) (signingString : String)
    (key : Bytes) : Option Bytes :=
  match m with
  | SigningMethod.HMAC hash => some (lib.HMAC hash key signingString)
  | SigningMethod.other _ => none

/-- jwt `SigningMethod.Verify` with a `[]byte` key: recompute the HMAC and
compare (`hmac.Equal`). -/
def SigningMethod.Verify (lib : JWTLib) (m : SigningMethod) (signingString : String)
    (sig : Bytes) (key : Bytes) : Bool :=
  match m with
  | SigningMethod.HMAC hash => decide (sig = lib.HMAC hash key signingString)
  | SigningMethod.other _ => false

/-- jwt `Token.SignedString`: signing string, a dot, the encoded
signature. -/
def Token.SignedString (lib : JWTLib) (t : Token) (key : Bytes) : Option String :=
  match t.Method.Sign lib (t.SigningString lib) key with
  | some sig => some (t.SigningString lib ++ "." ++ lib.EncodeSegment sig)
  | none => none

/-- jwt `Validator.Validate` with the default options (no leeway, `iat`,
audience, issuer and subject not checked): `exp`, when present, must be
after `now`; `nbf`, when present, must not be after `now`. The failures
are joined. -/
def Validate (claims : Claims) (now : Time) : List ClaimError :=
  (match claims.RegisteredClaims.ExpiresAt with
    | some exp => if Time.Before now exp.Time then [] else [ClaimError.Expired]
    | none => []) ++
  (match claims.RegisteredClaims.NotBefore with
    | some nbf => if Time.Before now nbf.Time then [ClaimError.NotValidYet] else []
    | none => [])

/-- jwt `Parser.ParseUnverified`: split into three segments, decode
header and claims, look the signing method up. Returns the token and the
segments. -/
def ParseUnverified (lib : JWTLib) (tokenString : String) :
    Except TokenError (Token × List String) :=
  let parts := strings.Split tokenString '.'
  if parts.length ≠ 3 then Except.error TokenError.Malformed
  else
    match lib.DecodeSegment (parts.getD 0 "") with
    | none => Except.error TokenError.Malformed
    | some headerBytes =>
      match lib.UnmarshalHeader headerBytes with
      | none => Except.error TokenError.Malformed
      | some header =>
        match lib.DecodeSegment (parts.getD 1 "") with
        | none => Except.error TokenError.Malformed
        | some claimBytes =>
          match lib.UnmarshalClaims claimBytes with
          | none => Except.error TokenError.Malformed
          | some claims =>
            match header.lookup "alg" with
            | some (Value.str method) =>
              match GetSigningMethod method with
              | some m =>
                Except.ok ({ Raw := tokenString, Method := m, Header := header,
                             Claims := claims, Signature := [], Valid := false }, parts)
              | none => Except.error TokenError.Unverifiable
            | _ => Except.error TokenError.Unverifiable

/-- jwt `Parser.ParseWithClaims` with the default parser: parse, decode the
signature, ask `keyFunc` for the key, verify the signature over the first
two segments, validate the claims at the clock reading `now`. -/
def ParseWithClaims (lib : JWTLib) (now : Time) (tokenString : String)
    (keyFunc : Token → Option Bytes) : Except TokenError Token :=
  match ParseUnverified lib tokenString with
  | Except.error e => Except.error e
  | Except.ok (token, parts) =>
    match lib.DecodeSegment (parts.getD 2 "") with
    | none => Except.error TokenError.Malformed
    | some sig =>
      let text := parts.getD 0 "" ++ "." ++ parts.getD 1 ""
      match keyFunc token with
      | none => Except.error TokenError.Unverifiable
      | some key =>
        if token.Method.Verify lib text sig key = false then
          Except.error TokenError.SignatureInvalid
        else
          match Validate token.Claims now with
          | [] => Except.ok { token with Signature := sig, Valid := true }
          | e :: es => Except.error (TokenError.InvalidClaims (e :: es))

/-! ## `tests/helpers/jwt.go` -/

/-- The constructor `NewJWTHelper(secret, expireHours)`; the product
`time.Duration(expireHours) * time.Hour` is a 64-bit multiplication. -/
def NewJWTHelper (secret : String) (expireHours : Int) : JWTHelper :=
  { Secret := bytesOf secret,
    Issuer := "demo-gin-test",
    Expire := wrapInt64 (expireHours * Hour) }

/-- Go `fmt.Sprintf("%d", n)`. -/
def formatInt (n : Int) : String := toString n

/-- The method `JWTHelper.GenerateTestToken`. `nowExp` and `nowIat` are
the readings of the two `time.Now()` calls, in the order they are made.
The result is `none` when `SignedString` returns an error. -/
def JWTHelper.GenerateTestToken (lib : JWTLib) (j : JWTHelper) (nowExp nowIat : Time)
    (userID : Int) (username email : String) : Option String :=
  let claims : Claims :=
    { UserID := userID,
      Username := username,
      Email := email,
      RegisteredClaims :=
        { Issuer := j.Issuer,
          Subject := formatInt userID,
          Audience := [],
          ExpiresAt := some (NewNumericDate (Time.Add nowExp j.Expire)),
          NotBefore := none,
          IssuedAt := some (NewNumericDate nowIat),
          ID := "" } }
  let token := NewWithClaims SigningMethodHS256 claims
  token.SignedString lib j.Secret

/-- The method `JWTHelper.ValidateTestToken`, run at the clock reading
`now`. -/
def JWTHelper.ValidateTestToken (lib : JWTLib) (j : JWTHelper) (now : Time)
    (tokenString : String) : Except TokenError Claims :=
  match ParseWithClaims lib now tokenString (fun token =>
      match token.Method with
      | SigningMethod.HMAC _ => some j.Secret
      | SigningMethod.other _ => none) with
  | Except.error err => Except.error err
  | Except.ok token =>
    if token.Valid then Except.ok token.Claims
    else Except.error TokenError.InvalidToken

/-- The claims `GenerateTestToken` signs (the composite literal of the
method, named for the statements below). -/
def generatedClaims (j : JWTHelper) (nowExp nowIat : Time) (userID : Int)
    (username email : String) : Claims :=
  { UserID := userID,
    Username := username,
    Email := email,
    RegisteredClaims :=
      { Issuer := j.Issuer,
        Subject := formatInt userID,
        Audience := [],
        ExpiresAt := some (NewNumericDate (Time.Add nowExp j.Expire)),
        NotBefore := none,
        IssuedAt := some (NewNumericDate nowIat),
        ID := "" } }

/-- The wire form of a token with claims `c`, signed with the HMAC method
of `hash` under `key`: what `SignedString` returns for it (see
`signedString_hmac`). -/
def wireToken (lib : JWTLib) (hash : Hash) (key : Bytes) (c : Claims) : String :=
  lib.EncodeSegment (lib.MarshalHeader (jwtHeader (SigningMethod.HMAC hash).Alg)) ++ "." ++
    lib.EncodeSegment (lib.MarshalClaims c) ++ "." ++
    lib.EncodeSegment (lib.HMAC hash key
      (lib.EncodeSegment (lib.MarshalHeader (jwtHeader (SigningMethod.HMAC hash).Alg)) ++ "." ++
        lib.EncodeSegment (lib.MarshalClaims c)))

/-! ## What the library primitives are assumed to satisfy -/

/-- The characters of the base64url alphabet. -/
def isBase64URL (c : Char) : Bool :=
  c.isAlphanum || c == '-' || c == '_'

/-- An instant within the range of Go `Time.UnixNano` (a signed 64-bit
count of nanoseconds: the years 1678 to 2262). -/
def Time.IsUnixNano (t : Time) : Prop := -(2 ^ 63) ≤ t ∧ t < 2 ^ 63

/-- A value of Go `int` (64 bits). -/
def IsGoInt (n : Int) : Prop := -(2 ^ 63) ≤ n ∧ n < 2 ^ 63

/-- A `NumericDate` the JSON form holds exactly: a whole number of seconds
(that is what `MarshalJSON` writes) which `UnmarshalJSON` reads back
through a `float64` without rounding. -/
def NumericDate.JSONExact (d : NumericDate) : Prop :=
  d.Time % Second = 0 ∧ -(2 ^ 53 * Second) ≤ d.Time ∧ d.Time ≤ 2 ^ 53 * Second

/-- Claims the JSON form holds exactly: the user id is a Go `int` and every
date present is `JSONExact`. -/
def Claims.JSONExact (c : Claims) : Prop :=
  IsGoInt c.UserID ∧
  (∀ d, c.RegisteredClaims.ExpiresAt = some d → d.JSONExact) ∧
  (∀ d, c.RegisteredClaims.NotBefore = some d → d.JSONExact) ∧
  (∀ d, c.RegisteredClaims.IssuedAt = some d → d.JSONExact)

/-- The properties of base64url and `encoding/json` the development relies
on: decoding undoes encoding, an encoded segment consists of base64url
characters, the token header and exact claims survive the JSON round
trip. Nothing is assumed of the HMAC beyond its being a function. -/
structure JWTLib.Lawful (lib : JWTLib) : Prop where
  decode_encode : ∀ b, lib.DecodeSegment (lib.EncodeSegment b) = some b
  encode_alphabet : ∀ b c, c ∈ (lib.EncodeSegment b).data → isBase64URL c = true
  header_roundtrip : ∀ alg,
    lib.UnmarshalHeader (lib.MarshalHeader (jwtHeader alg)) = some (jwtHeader alg)
  claims_roundtrip : ∀ c : Claims, c.JSONExact →
    lib.UnmarshalClaims (lib.MarshalClaims c) = some c

/-! ## A reference instance of the library primitives

A small instance satisfying `JWTLib.Lawful`, used to instantiate the
statements at concrete inputs. Values are numbered through `Encodable` and
written in unary. -/

/-- Numbering of bytes. -/
instance instEncodableUInt8 : Encodable UInt8 :=
  Encodable.ofLeftInverse (fun b => b.toBitVec.toFin) (fun f => UInt8.mk (BitVec.ofFin f))
    (fun _ => rfl)

/-- Numbering of characters. -/
instance instEncodableChar : Encodable Char :=
  Encodable.ofLeftInverse Char.toNat Char.ofNat Char.ofNat_toNat

/-- Numbering of strings. -/
instance instEncodableString : Encodable String :=
  Encodable.ofLeftInverse String.data String.mk (fun _ => rfl)

/-- Numbering of dates. -/
instance instEncodableNumericDate : Encodable NumericDate :=
  Encodable.ofLeftInverse NumericDate.Time NumericDate.mk (fun _ => rfl)

/-- Numbering of registered claims. -/
instance instEncodableRegisteredClaims : Encodable RegisteredClaims :=
  Encodable.ofLeftInverse
    (fun r => (r.Issuer, r.Subject, r.Audience, r.ExpiresAt, r.NotBefore, r.IssuedAt, r.ID))
    (fun p => { Issuer := p.1, Subject := p.2.1, Audience := p.2.2.1, ExpiresAt := p.2.2.2.1,
                NotBefore := p.2.2.2.2.1, IssuedAt := p.2.2.2.2.2.1, ID := p.2.2.2.2.2.2 })
    (fun _ => rfl)

/-- Numbering of claims. -/
instance instEncodableClaims : Encodable Claims :=
  Encodable.ofLeftInverse
    (fun c => (c.UserID, c.Username, c.Email, c.RegisteredClaims))
    (fun p => { UserID := p.1, Username := p.2.1, Email := p.2.2.1,
                RegisteredClaims := p.2.2.2 })
    (fun _ => rfl)

/-- Reference `EncodeSegment`: the number of the bytes, in unary `A`s. -/
@[irreducible]
def refEncodeSegment (b : Bytes) : String :=
  String.mk (List.replicate (Encodable.encode b) 'A')

/-- Reference `DecodeSegment`. -/
@[irreducible]
def refDecodeSegment (s : String) : Option Bytes :=
  if s.data.all (fun c => c == 'A') then Encodable.decode s.data.length else none

/-- Reference JSON form of a token header: the number of its `alg`, plus
one, in unary. -/
@[irreducible]
def refMarshalHeader (h : H) : Bytes :=
  match h.lookup "alg" with
  | some (Value.str alg) => List.replicate (Encodable.encode alg + 1) 0
  | _ => []

/-- Reference header parser. -/
@[irreducible]
def refUnmarshalHeader (b : Bytes) : Option H :=
  match b.length with
  | 0 => none
  | n + 1 => (Encodable.decode n : Option String).map jwtHeader

/-- Reference JSON form of claims: their number in unary. -/
@[irreducible]
def refMarshalClaims (c : Claims) : Bytes :=
  List.replicate (Encodable.encode c) 0

/-- Reference claims parser. -/
@[irreducible]
def refUnmarshalClaims (b : Bytes) : Option Claims :=
  Encodable.decode b.length

/-- Reference MAC: a tag for the hash, then the key, then the message. -/
@[irreducible]
def refHMAC (hash : Hash) (key : Bytes) (message : String) : Bytes :=
  (match hash with
    | Hash.SHA256 => (0 : UInt8)
    | Hash.SHA384 => 1
    | Hash.SHA512 => 2) :: key ++ bytesOf message

/-- The reference instance. -/
def refLib : JWTLib where
  EncodeSegment := refEncodeSegment
  DecodeSegment := refDecodeSegment
  MarshalHeader := refMarshalHeader
  UnmarshalHeader := refUnmarshalHeader
  MarshalClaims := refMarshalClaims
  UnmarshalClaims := refUnmarshalClaims
  HMAC := refHMAC

/-! ## `tests/helpers/jwt.go`, continued: the expired token -/

/-- The method `JWTHelper.GenerateExpiredToken`. `nowExp` and `nowIat` are
the readings of the two `time.Now()` calls, in the order they are made:
the expiry is one hour before the first, the issue time two hours before
the second. The result is `none` when `SignedString` returns an error. -/
def JWTHelper.GenerateExpiredToken (lib : JWTLib) (j : JWTHelper) (nowExp nowIat : Time)
    (userID : Int) (username email : String) : Option String :=
  let claims : Claims :=
    { UserID := userID,
      Username := username,
      Email := email,
      RegisteredClaims :=
        { Issuer := j.Issuer,
          Subject := formatInt userID,
          Audience := [],
          ExpiresAt := some (NewNumericDate (Time.Add nowExp (-Hour))),
          NotBefore := none,
          IssuedAt := some (NewNumericDate (Time.Add nowIat (-2 * Hour))),
          ID := "" } }
  let token := NewWithClaims SigningMethodHS256 claims
  token.SignedString lib j.Secret

/-- The claims `GenerateExpiredToken` signs (the composite literal of the
method, named for the statements below). -/
def expiredClaims (j : JWTHelper) (nowExp nowIat : Time) (userID : Int)
    (username email : String) : Claims :=
  { UserID := userID,
    Username := username,
    Email := email,
    RegisteredClaims :=
      { Issuer := j.Issuer,
        Subject := formatInt userID,
        Audience := [],
        ExpiresAt := some (NewNumericDate (Time.Add nowExp (-Hour))),
        NotBefore := none,
        IssuedAt := some (NewNumericDate (Time.Add nowIat (-2 * Hour))),
        ID := "" } }

/-! ## `ValidateTestToken` on the memory it works on -/

/-- The memory a call `j.ValidateTestToken(tokenString)` works on: the
`JWTHelper` object behind the pointer receiver `j`, the string variable
`tokenString` of the caller, and the `Claims` objects allocated so far. A
`*Claims` is an index into `claims`. An object holds `none` when a failed
parse has left it: what the decoder had written into it by then is not
modelled, and no pointer to it is handed out. The `jwt.Token` the parser
allocates is not kept: it is dropped when the method returns. -/
structure HelperMemory where
  helper : JWTHelper
  tokenString : String
  claims : List (Option Claims)
  deriving DecidableEq, Repr

/-- The call `j.ValidateTestToken(tokenString)` as a step on that memory,
run at the clock reading `now`. The method receives the value of the
caller's `tokenString`. The expression `&Claims{}` allocates the next
`Claims` object; the key function, when the parser calls it, reads
`j.Secret` from the helper object; the parser decodes the claims into the
new object, which `token.Claims` then points to; the method returns that
pointer when the parse succeeded and `token.Valid` is set, the error
otherwise. The result is the returned pointer or error together with the
memory after the call. -/
def HelperMemory.ValidateTestToken (lib : JWTLib) (m : HelperMemory) (now : Time) :
    Except TokenError Nat × HelperMemory :=
  let tokenString := m.tokenString
  let claims := m.claims.length
  match ParseWithClaims lib now tokenString (fun token =>
      match token.Method with
      | SigningMethod.HMAC _ => some m.helper.Secret
      | SigningMethod.other _ => none) with
  | Except.error err => (Except.error err, { m with claims := m.claims ++ [none] })
  | Except.ok token =>
    if token.Valid then
      (Except.ok claims, { m with claims := m.claims ++ [some token.Claims] })
    else
      (Except.error TokenError.InvalidToken,
        { m with claims := m.claims ++ [some token.Claims] })

/-- The block size in bytes of the hash function (`sha256.BlockSize` is 64,
`sha512.BlockSize`, which SHA-384 shares, is 128). -/
def Hash.BlockSize : Hash → Nat
  | Hash.SHA256 => 64
  | Hash.SHA384 => 128
  | Hash.SHA512 => 128

/-- The key block of Go `hmac.New(h, key)`: a key longer than the block is
replaced by its hash, and the key is copied into a block of zero bytes. -/
def hmacKeyBlock (sum : Hash → Bytes → Bytes) (hash : Hash) (key : Bytes) : Bytes :=
  let key1 := if hash.BlockSize < key.length then sum hash key else key
  (key1 ++ List.replicate (hash.BlockSize - key1.length) 0).take hash.BlockSize

/-- Go `hmac.New(h, key)`, `Write(message)`, `Sum(nil)` over the hash
function `sum`: the hash of the key block xor `0x5c` followed by the hash
of the key block xor `0x36` followed by the message. -/
def hmacSum (sum : Hash → Bytes → Bytes) (hash : Hash) (key : Bytes) (message : String) :
    Bytes :=
  sum hash ((hmacKeyBlock sum hash key).map (fun b => b ^^^ 0x5c) ++
    sum hash ((hmacKeyBlock sum hash key).map (fun b => b ^^^ 0x36) ++ bytesOf message))

/-- The MAC of the library is the HMAC construction of `crypto/hmac` over
some hash function. -/
def JWTLib.StandardHMAC (lib : JWTLib) : Prop :=
  ∃ sum : Hash → Bytes → Bytes, ∀ hash key message,
    lib.HMAC hash key message = hmacSum sum hash key message

/-- Reference hash function: a tag for the hash, then the data. -/
@[irreducible]
def refSum (hash : Hash) (data : Bytes) : Bytes :=
  (match hash with
    | Hash.SHA256 => (0 : UInt8)
    | Hash.SHA384 => 1
    | Hash.SHA512 => 2) :: data

/-- The reference instance with the HMAC construction of `crypto/hmac`
over the reference hash function as its MAC. -/
def refHMACLib : JWTLib where
  EncodeSegment := refEncodeSegment
  DecodeSegment := refDecodeSegment
  MarshalHeader := refMarshalHeader
  UnmarshalHeader := refUnmarshalHeader
  MarshalClaims := refMarshalClaims
  UnmarshalClaims := refUnmarshalClaims
  HMAC := hmacSum refSum

/-- The first segment of every token the helper issues: the encoded HS256
header. -/
def headerSegment (lib : JWTLib) : String :=
  lib.EncodeSegment (lib.MarshalHeader (jwtHeader "HS256"))

/-- The second segment of a token with claims `c`: the encoded claims. -/
def claimsSegment (lib : JWTLib) (c : Claims) : String :=
  lib.EncodeSegment (lib.MarshalClaims c)

/-! ## Go `encoding/base64`: `RawURLEncoding` -/

/-- The alphabet of `base64.URLEncoding`. -/
def base64URLAlphabet : List Char :=
  "ABCDEFGHIJKLMNOPQRSTUVWXYZabcdefghijklmnopqrstuvwxyz0123456789-_".data

/-- The character that stands for a 6-bit value. -/
def base64URLChar (n : Nat) : Char := base64URLAlphabet.getD n 'A'

/-- The 6-bit value of a character of the alphabet. -/
def base64URLValue (c : Char) : Option Nat :=
  if base64URLAlphabet.indexOf c < 64 then some (base64URLAlphabet.indexOf c) else none

/-- The 6-bit groups `Encoding.Encode` makes of the bytes when there is no
padding: three bytes give four groups; a rest of two bytes gives three
groups and a rest of one byte two, the bits that are left over being zero. -/
def base64Sextets : Bytes → List Nat
  | a :: b :: c :: rest =>
    a.toNat / 4 :: (a.toNat % 4 * 16 + b.toNat / 16) :: (b.toNat % 16 * 4 + c.toNat / 64) ::
      c.toNat % 64 :: base64Sextets rest
  | [a, b] => [a.toNat / 4, a.toNat % 4 * 16 + b.toNat / 16, b.toNat % 16 * 4]
  | [a] => [a.toNat / 4, a.toNat % 4 * 16]
  | [] => []

/-- The bytes the decoder makes of 6-bit groups when it is not strict: four
groups give three bytes; at the end three groups give two bytes and two
groups one byte, the bits that are left over being dropped without a
check; one group alone is an error. -/
def base64Bytes : List Nat → Option Bytes
  | w :: x :: y :: z :: rest =>
    (base64Bytes rest).map (fun t =>
      UInt8.ofNat (w * 4 + x / 16) :: UInt8.ofNat (x % 16 * 16 + y / 4) ::
        UInt8.ofNat (y % 4 * 64 + z) :: t)
  | [w, x, y] => some [UInt8.ofNat (w * 4 + x / 16), UInt8.ofNat (x % 16 * 16 + y / 4)]
  | [w, x] => some [UInt8.ofNat (w * 4 + x / 16)]
  | [_] => none
  | [] => some []

/-- The 6-bit values of the characters; `none` when a character is not in
the alphabet. -/
def base64Values : List Char → Option (List Nat)
  | [] => some []
  | c :: cs =>
    match base64URLValue c with
    | none => none
    | some v => (base64Values cs).map (fun vs => v :: vs)

/-- Go `base64.RawURLEncoding.EncodeToString`. -/
@[irreducible]
def base64RawURLEncode (b : Bytes) : String :=
  String.mk ((base64Sextets b).map base64URLChar)

/-- Go `base64.RawURLEncoding.DecodeString`, the decoder of
`Parser.DecodeSegment` with the default parser (not strict): carriage
returns and line feeds are skipped, every other character must be in the
alphabet. -/
@[irreducible]
def base64RawURLDecode (s : String) : Option Bytes :=
  (base64Values (s.data.filter (fun c => c != '\r' && c != '\n'))).bind base64Bytes

/-- The size in bytes of the hash (`sha256.Size`, `sha512.Size384`,
`sha512.Size`), which is the size of the MAC. -/
def Hash.Size : Hash → Nat
  | Hash.SHA256 => 32
  | Hash.SHA384 => 48
  | Hash.SHA512 => 64

/-- Reference MAC of the size of the hash: the reference MAC, cut or
filled with zero bytes to that size. -/
@[irreducible]
def refSizedHMAC (hash : Hash) (key : Bytes) (message : String) : Bytes :=
  (refHMAC hash key message ++ List.replicate hash.Size 0).take hash.Size

/-- The reference instance with base64url as `encoding/base64` has it and
MACs of the size of the hash. -/
def refBase64Lib : JWTLib where
  EncodeSegment := base64RawURLEncode
  DecodeSegment := base64RawURLDecode
  MarshalHeader := refMarshalHeader
  UnmarshalHeader := refUnmarshalHeader
  MarshalClaims := refMarshalClaims
  UnmarshalClaims := refUnmarshalClaims
  HMAC := refSizedHMAC

/-! ## gin binding: `ShouldBindJSON` -/

/-- The errors `Context.ShouldBindJSON` returns: the decoder found no JSON
value (`json.SyntaxError`, `io.EOF`), a JSON value did not fit the Go type
of the field it was meant for (`json.UnmarshalTypeError`; the field is `""`
when the body itself is not an object), or the decoded struct failed its
`binding` tags (`validator.ValidationErrors`, one failed tag per field, in
the order of the struct's fields). -/
inductive BindError where
  | Syntax
  | UnmarshalType (field : String)
  | Validation (failed : List (String × String))
  deriving DecidableEq, Repr

/-- The primitives the binding takes from other packages: the
case-insensitive comparison `encoding/json` matches object keys with, the
`email` check of `go-playground/validator`, and the text `err.Error()` of a
binding error. -/
structure BindingLib where
  EqualFold : String → String → Bool
  IsEmail : String → Bool
  ErrorText : BindError → String

/-- The struct field an object key is decoded into: the field whose JSON
name is the key, or else the first field whose name matches it without
regard to case (`names` are the JSON names in the order of the struct's
fields). -/
def fieldFor (lib : BindingLib) (names : List String) (key : String) : Option String :=
  match names.find? (fun n => n = key) with
  | some n => some n
  | none => names.find? (fun n => lib.EqualFold n key)

/-- Go `json.Unmarshal` of the fields of an object into a struct whose
fields, named `names`, are all strings: the fields are taken in the order
they are written; a key that matches no field is skipped, `null` leaves
the field as it is, a string is stored (a later one replaces an earlier),
and any other value is a type error, of which the first is kept while
decoding goes on. The result is the strings stored, latest first, and the
error kept. -/
def unmarshalFields (lib : BindingLib) (names : List String) :
    List (String × FieldValue) → List (String × String) → Option BindError →
    List (String × String) × Option BindError
  | [], stored, err => (stored, err)
  | (key, value) :: rest, stored, err =>
    match fieldFor lib names key with
    | none => unmarshalFields lib names rest stored err
    | some name =>
      match value with
      | FieldValue.null => unmarshalFields lib names rest stored err
      | FieldValue.string s => unmarshalFields lib names rest ((name, s) :: stored) err
      | FieldValue.other =>
        unmarshalFields lib names rest stored
          (match err with
            | some e => some e
            | none => some (BindError.UnmarshalType name))

/-- Go `json.Decoder.Decode` of a request body into a struct of string
fields named `names`: the strings stored in the fields that were set
(latest first), or the error. -/
def decodeBody (lib : BindingLib) (names : List String) (body : Body) :
    Except BindError (List (String × String)) :=
  match body with
  | Body.notJSON => Except.error BindError.Syntax
  | Body.null => Except.ok []
  | Body.other => Except.error (BindError.UnmarshalType "")
  | Body.object fields =>
    match unmarshalFields lib names fields [] none with
    | (stored, none) => Except.ok stored
    | (_, some e) => Except.error e

/-! ## `internal/handlers/auth.go` -/

/-- Go `http.StatusBadRequest`. -/
def StatusBadRequest : Int := 400

/-- Go `http.StatusCreated`. -/
def StatusCreated : Int := 201

/-- A row of the table `users`. -/
structure UserRow where
  Username : String
  Email : String
  Password : String
  deriving DecidableEq, Repr

/-- The database handle `*sql.DB`, reduced to the rows of the table
`users`. -/
abbrev DB := List UserRow

/-- The struct `AuthHandler`; the handle `db` may be `nil`. -/
structure AuthHandler where
  db : Option DB
  deriving DecidableEq, Repr

/-- The constructor `NewAuthHandler`. -/
def NewAuthHandler (db : Option DB) : AuthHandler := { db := db }

/-- The struct `RegisterRequest`. -/
structure RegisterRequest where
  Email : String
  Username : String
  Password : String
  FullName : String
  deriving DecidableEq, Repr

/-- The struct `LoginRequest`. -/
structure LoginRequest where
  Username : String
  Password : String
  deriving DecidableEq, Repr

/-- The decoding step of `ShouldBindJSON(&req)` for a `RegisterRequest`: the
JSON names are those of the `json` tags; a field that was not set keeps
the zero value `""`. -/
def decodeRegisterRequest (lib : BindingLib) (body : Body) : Except BindError RegisterRequest :=
  match decodeBody lib ["email", "username", "password", "full_name"] body with
  | Except.error e => Except.error e
  | Except.ok stored =>
    Except.ok { Email := (stored.lookup "email").getD "",
                Username := (stored.lookup "username").getD "",
                Password := (stored.lookup "password").getD "",
                FullName := (stored.lookup "full_name").getD "" }

/-- The decoding step of `ShouldBindJSON(&req)` for a `LoginRequest`. -/
def decodeLoginRequest (lib : BindingLib) (body : Body) : Except BindError LoginRequest :=
  match decodeBody lib ["username", "password"] body with
  | Except.error e => Except.error e
  | Except.ok stored =>
    Except.ok { Username := (stored.lookup "username").getD "",
                Password := (stored.lookup "password").getD "" }

/-- The `binding` tags of `RegisterRequest`, checked by the validator: for
each field the first tag that fails, in the order of the tags
(`required,email`; `required,min=3,max=30`; `required,min=8`; none for
`FullName`). The lengths of `min` and `max` count characters. -/
def RegisterRequest.failedTags (lib : BindingLib) (req : RegisterRequest) :
    List (String × String) :=
  (if req.Email = "" then [("Email", "required")]
    else if lib.IsEmail req.Email = false then [("Email", "email")]
    else []) ++
  (if req.Username = "" then [("Username", "required")]
    else if req.Username.length < 3 then [("Username", "min")]
    else if 30 < req.Username.length then [("Username", "max")]
    else []) ++
  (if req.Password = "" then [("Password", "required")]
    else if req.Password.length < 8 then [("Password", "min")]
    else [])

/-- The `binding` tags of `LoginRequest` (`required` on both fields). -/
def LoginRequest.failedTags (req : LoginRequest) : List (String × String) :=
  (if req.Username = "" then [("Username", "required")] else []) ++
  (if req.Password = "" then [("Password", "required")] else [])

/-- gin `Context.ShouldBindJSON(&req)` for a `RegisterRequest`: decode the
body, then validate the `binding` tags. -/
def Context.ShouldBindJSONRegister (lib : BindingLib) (c : Context) :
    Except BindError RegisterRequest :=
  match decodeRegisterRequest lib c.Request.Body with
  | Except.error e => Except.error e
  | Except.ok req =>
    match req.failedTags lib with
    | [] => Except.ok req
    | f :: fs => Except.error (BindError.Validation (f :: fs))

/-- gin `Context.ShouldBindJSON(&req)` for a `LoginRequest`. -/
def Context.ShouldBindJSONLogin (lib : BindingLib) (c : Context) :
    Except BindError LoginRequest :=
  match decodeLoginRequest lib c.Request.Body with
  | Except.error e => Except.error e
  | Except.ok req =>
    match req.failedTags with
    | [] => Except.ok req
    | f :: fs => Except.error (BindError.Validation (f :: fs))

/-- The handler `AuthHandler.Register` (the fields of each `gin.H` in the
order `encoding/json` writes a map). -/
def AuthHandler.Register (lib : BindingLib) (_h : AuthHandler) : HandlerFunc := fun _ c =>
  match c.ShouldBindJSONRegister lib with
  | Except.error err => c.JSON StatusBadRequest [("error", Value.str (lib.ErrorText err))]
  | Except.ok req =>
    c.JSON StatusCreated
      [("message", Value.str "User registered successfully"),
       ("user", Value.obj [("email", Value.str req.Email),
                           ("username", Value.str req.Username)])]

/-- The handler `AuthHandler.Login`. -/
def AuthHandler.Login (lib : BindingLib) (_h : AuthHandler) : HandlerFunc := fun _ c =>
  match c.ShouldBindJSONLogin lib with
  | Except.error err => c.JSON StatusBadRequest [("error", Value.str (lib.ErrorText err))]
  | Except.ok req =>
    c.JSON StatusOK
      [("access_token", Value.str "mock_jwt_token"),
       ("expires_in", Value.int 3600),
       ("token_type", Value.str "Bearer"),
       ("user", Value.obj [("username", Value.str req.Username)])]

/-- A request with the JSON object `fields` as its body (what the test
client's `Post` sends for a map). -/
def requestWithObject (fields : List (String × FieldValue)) : Request :=
  { Header := [("Content-Type", "application/json")], Body := Body.object fields }

/-- A reference instance of the binding primitives: keys are compared in
lower case, an email is a string with characters before and after an
`@`, and the error text is a fixed word per kind of error. -/
def refBinding : BindingLib where
  EqualFold := fun a b => a.data.map Char.toLower == b.data.map Char.toLower
  IsEmail := fun s =>
    match s.data.span (fun ch => ch != '@') with
    | (_ :: _, '@' :: _ :: _) => true
    | _ => false
  ErrorText := fun e =>
    match e with
    | BindError.Syntax => "invalid character"
    | BindError.UnmarshalType _ => "json: cannot unmarshal"
    | BindError.Validation _ => "Field validation failed"

/-! ## Go `strconv.Atoi` -/

/-- The field `Err` of a `*strconv.NumError`: `ErrSyntax` or `ErrRange`. -/
inductive strconv.NumError where
  | ErrSyntax
  | ErrRange
  deriving DecidableEq, Repr

/-- The loop of `strconv.ParseUint(s, 10, 64)` over the bytes of `s`, with
`n` the value so far: a byte that is not a decimal digit ends it with 0
and `ErrSyntax`; a digit that would take the value past `1<<64 - 1` ends
it, before the bytes that follow are looked at, with `1<<64 - 1` and
`ErrRange` (`1844674407370955162` is the `cutoff`, `maxUint64/10 + 1`). -/
def parseUintLoop : List Char → Nat → Nat × Option strconv.NumError
  | [], n => (n, none)
  | c :: cs, n =>
    if c.isDigit = false then (0, some strconv.NumError.ErrSyntax)
    else if 1844674407370955162 ≤ n then
      (18446744073709551615, some strconv.NumError.ErrRange)
    else if 18446744073709551615 < n * 10 + (c.toNat - 48) then
      (18446744073709551615, some strconv.NumError.ErrRange)
    else parseUintLoop cs (n * 10 + (c.toNat - 48))

/-- Go `strconv.ParseUint(s, 10, 64)`: the value and the error. -/
def strconv.ParseUint (s : List Char) : Nat × Option strconv.NumError :=
  if s = [] then (0, some strconv.NumError.ErrSyntax) else parseUintLoop s 0

/-- Go `strconv.ParseInt(s, 10, 0)` on a platform whose `int` has 64 bits:
the sign is taken off, the rest goes through `ParseUint`, a syntax error
gives 0 and a value out of range gives the nearest `int64`, each with its
error. -/
def strconv.ParseInt (s : List Char) : Int × Option strconv.NumError :=
  if s = [] then (0, some strconv.NumError.ErrSyntax)
  else
    let neg := decide (s.head? = some '-')
    let s1 := if s.head? = some '+' ∨ s.head? = some '-' then s.tail else s
    match strconv.ParseUint s1 with
    | (_, some strconv.NumError.ErrSyntax) => (0, some strconv.NumError.ErrSyntax)
    | (un, _) =>
      if neg = false ∧ 9223372036854775808 ≤ un then
        (9223372036854775807, some strconv.NumError.ErrRange)
      else if neg = true ∧ 9223372036854775808 < un then
        (-9223372036854775808, some strconv.NumError.ErrRange)
      else (if neg = true then -(un : Int) else (un : Int), none)

/-- Go `strconv.Atoi(s)`: the value and the error. It is
`ParseInt(s, 10, 0)`; the fast path `Atoi` takes for a string of fewer than
19 bytes returns what `ParseInt` returns for it. -/
def strconv.Atoi (s : List Char) : Int × Option strconv.NumError :=
  strconv.ParseInt s

/-! ## `golang.org/x/crypto/bcrypt`, as used by `tests/fixtures/factory.go`

A hash is a slice of ASCII bytes; it is written here as a list of
characters, so that `string(hashedPassword)` is `String.mk`. -/

/-- The errors of the package, and the failure to read the salt from
`rand.Reader`. -/
inductive BcryptError where
  | ErrMismatchedHashAndPassword
  | ErrHashTooShort
  | ErrPasswordTooLong
  | InvalidHashPrefixError
  | HashVersionTooNewError
  | InvalidCostError
  | CorruptInputError
  | NumError
  | EntropyError
  deriving DecidableEq, Repr

/-- The primitives below `bcrypt`: the package's own base64 (`base64Encode`,
`base64Decode`), and the Blowfish part of `bcrypt`, that is
`expensiveBlowfishSetup` on the key followed by the 64 encryptions of the
magic text, as a function `Eksblowfish cost csalt stream` of the cost, the
decoded salt and the bytes of the key that the key schedule reads.
`LimitsPassword` tells whether `GenerateFromPassword` has the length check
of the later versions of the package (earlier ones have none). -/
structure BcryptLib where
  base64Encode : Bytes → List Char
  base64Decode : List Char → Option Bytes
  Eksblowfish : Nat → Bytes → Bytes → Bytes
  LimitsPassword : Bool

/-- Constant `MinCost`. -/
def MinCost : Int := 4

/-- Constant `MaxCost`. -/
def MaxCost : Int := 31

/-- Constant `DefaultCost`. -/
def DefaultCost : Int := 10

/-- Constant `majorVersion`. -/
def majorVersion : Char := '2'

/-- Constant `minorVersion`. -/
def minorVersion : Char := 'a'

/-- Constant `maxSaltSize`. -/
def maxSaltSize : Nat := 16

/-- Constant `maxCryptedHashSize`. -/
def maxCryptedHashSize : Nat := 23

/-- Constant `encodedSaltSize`. -/
def encodedSaltSize : Nat := 22

/-- Constant `encodedHashSize`. -/
def encodedHashSize : Nat := 31

/-- Constant `minHashSize`. -/
def minHashSize : Nat := 59

/-- The struct `hashed`; a `minor` of `'\x00'` stands for no minor version. -/
structure hashed where
  hash : List Char
  salt : List Char
  cost : Int
  major : Char
  minor : Char
  deriving DecidableEq, Repr

/-- The bytes of the key that the Blowfish key schedule reads: `ExpandKey`
and `expandKeyWithSalt` take 18 words of 4 bytes from the key, starting
again at its first byte when they reach its end. -/
def keyStream (key : Bytes) : Bytes :=
  (List.range 72).map (fun i => key.getD (i % key.length) 0)

/-- The function `bcrypt(password, cost, salt)`: the salt is decoded, the
key is the password followed by a NUL byte, and 23 of the 24 bytes of the
ciphertext are encoded. -/
def bcrypt (lib : BcryptLib) (password : Bytes) (cost : Int) (salt : List Char) :
    Except BcryptError (List Char) :=
  match lib.base64Decode salt with
  | none => Except.error BcryptError.CorruptInputError
  | some csalt =>
    Except.ok (lib.base64Encode
      ((lib.Eksblowfish cost.toNat csalt (keyStream (password ++ [0]))).take maxCryptedHashSize))

/-- The function `checkCost`. -/
def checkCost (cost : Int) : Bool := decide (MinCost ≤ cost ∧ cost ≤ MaxCost)

/-- What `copy` leaves in a zeroed slot of `n` bytes. -/
def fit (n : Nat) (l : List Char) : List Char :=
  (l ++ List.replicate n '\x00').take n

/-- Go `fmt.Sprintf("%02d", cost)` for a cost from 0 to 99. -/
def formatCost (cost : Int) : List Char :=
  [Char.ofNat (48 + cost.toNat / 10 % 10), Char.ofNat (48 + cost.toNat % 10)]

/-- The method `hashed.Hash`: `$`, the version, `$`, the cost in two digits,
`$`, the encoded salt in 22 bytes and the encoded hash in 31. -/
def hashed.Hash (p : hashed) : List Char :=
  ['$', p.major] ++ (if p.minor ≠ '\x00' then [p.minor] else []) ++ ['$'] ++
    formatCost p.cost ++ ['$'] ++ fit encodedSaltSize p.salt ++ fit encodedHashSize p.hash

/-- The function `newFromPassword`; `entropy` is what `io.ReadFull` gets
from `rand.Reader` for the salt, `none` when the read fails. -/
def newFromPassword (lib : BcryptLib) (password : Bytes) (cost : Int)
    (entropy : Option Bytes) : Except BcryptError hashed :=
  let cost := if cost < MinCost then DefaultCost else cost
  if checkCost cost = false then Except.error BcryptError.InvalidCostError
  else
    match entropy with
    | none => Except.error BcryptError.EntropyError
    | some unencodedSalt =>
      let salt := lib.base64Encode unencodedSalt
      match bcrypt lib password cost salt with
      | Except.error e => Except.error e
      | Except.ok hash =>
        Except.ok { hash := hash, salt := salt, cost := cost,
                    major := majorVersion, minor := minorVersion }

/-- The function `GenerateFromPassword`. -/
def GenerateFromPassword (lib : BcryptLib) (password : Bytes) (cost : Int)
    (entropy : Option Bytes) : Except BcryptError (List Char) :=
  if lib.LimitsPassword = true ∧ 72 < password.length then
    Except.error BcryptError.ErrPasswordTooLong
  else
    match newFromPassword lib password cost entropy with
    | Except.error e => Except.error e
    | Except.ok p => Except.ok p.Hash

/-- The function `newFromHash` (`decodeVersion` and `decodeCost` inlined). -/
def newFromHash (hashedSecret : List Char) : Except BcryptError hashed :=
  if hashedSecret.length < minHashSize then Except.error BcryptError.ErrHashTooShort
  else
    match hashedSecret with
    | c0 :: c1 :: c2 :: rest =>
      if c0 ≠ '$' then Except.error BcryptError.InvalidHashPrefixError
      else if majorVersion < c1 then Except.error BcryptError.HashVersionTooNewError
      else
        let minor := if c2 ≠ '$' then c2 else '\x00'
        let afterVersion := if c2 ≠ '$' then rest.drop 1 else rest
        match strconv.Atoi (afterVersion.take 2) with
        | (_, some _) => Except.error BcryptError.NumError
        | (cost, none) =>
          if checkCost cost = false then Except.error BcryptError.InvalidCostError
          else
            let afterCost := afterVersion.drop 3
            Except.ok { hash := afterCost.drop encodedSaltSize,
                        salt := afterCost.take encodedSaltSize,
                        cost := cost, major := c1, minor := minor }
    | _ => Except.error BcryptError.ErrHashTooShort

/-- The function `CompareHashAndPassword`; `Except.ok ()` is the `nil`
error. -/
def CompareHashAndPassword (lib : BcryptLib) (hashedPassword : List Char) (password : Bytes) :
    Except BcryptError Unit :=
  match newFromHash hashedPassword with
  | Except.error e => Except.error e
  | Except.ok p =>
    match bcrypt lib password p.cost p.salt with
    | Except.error e => Except.error e
    | Except.ok otherHash =>
      let otherP : hashed := { hash := otherHash, salt := p.salt, cost := p.cost,
                               major := p.major, minor := p.minor }
      if p.Hash = otherP.Hash then Except.ok ()
      else Except.error BcryptError.ErrMismatchedHashAndPassword

/-- What the primitives of `bcrypt` are assumed to satisfy: a salt of 16
bytes is encoded in 22 characters and decoded back, 23 bytes are encoded in
31 characters, and the ciphertext has the 24 bytes of the magic text. -/
structure BcryptLib.Lawful (lib : BcryptLib) : Prop where
  salt_decode : ∀ b : Bytes, b.length = maxSaltSize →
    lib.base64Decode (lib.base64Encode b) = some b
  salt_length : ∀ b : Bytes, b.length = maxSaltSize →
    (lib.base64Encode b).length = encodedSaltSize
  hash_length : ∀ b : Bytes, b.length = maxCryptedHashSize →
    (lib.base64Encode b).length = encodedHashSize
  cipher_length : ∀ (cost : Nat) (csalt stream : Bytes),
    (lib.Eksblowfish cost csalt stream).length = 24

/-- The hash `GenerateFromPassword` makes of `password` at `DefaultCost`
with the salt bytes `s`. -/
def generatedHash (lib : BcryptLib) (password : Bytes) (s : Bytes) : List Char :=
  hashed.Hash
    { hash := lib.base64Encode
        ((lib.Eksblowfish 10 s (keyStream (password ++ [0]))).take maxCryptedHashSize),
      salt := lib.base64Encode s, cost := DefaultCost,
      major := majorVersion, minor := minorVersion }

/-! ## `tests/fixtures/factory.go` -/

/-- The struct `User` of the fixtures, without the fields the database
assigns (`ID`, `CreatedAt`, `UpdatedAt`). -/
structure User where
  Username : String
  Email : String
  Password : String
  deriving DecidableEq, Repr

/-- The errors a fixture returns: the one of `GenerateFromPassword`, or the
one of the `INSERT`. -/
inductive FixtureError where
  | Hash (e : BcryptError)
  | Insert
  deriving DecidableEq, Repr

/-- The statement `INSERT INTO users (username, email, password, ...)` run
by `db.QueryRow(...).Scan(...)`: the database refuses the row (`refuses`
stands for its constraints and its availability) or appends it. -/
def insertUser (refuses : DB → UserRow → Bool) (db : DB) (username email password : String) :
    Option DB :=
  if refuses db { Username := username, Email := email, Password := password } = true then none
  else some (db ++ [{ Username := username, Email := email, Password := password }])

/-- The function `CreateTestUserWithData`: the user and the error it
returns, and the table afterwards. -/
def CreateTestUserWithData (lib : BcryptLib) (entropy : Option Bytes)
    (refuses : DB → UserRow → Bool) (db : DB) (username email password : String) :
    (Option User × Option FixtureError) × DB :=
  match GenerateFromPassword lib (bytesOf password) DefaultCost entropy with
  | Except.error err => ((none, some (FixtureError.Hash err)), db)
  | Except.ok hashedPassword =>
    let user : User := { Username := username, Email := email, Password := password }
    match insertUser refuses db username email (String.mk hashedPassword) with
    | none => ((some user, some FixtureError.Insert), db)
    | some db2 => ((some user, none), db2)

/-- The function `GenerateRandomUsername`; `n` is `rand.Intn(1000000)`. -/
def GenerateRandomUsername (n : Nat) : String := "user_" ++ toString n

/-- The function `GenerateRandomEmail`; `n` is `rand.Intn(1000000)`. -/
def GenerateRandomEmail (n : Nat) : String := "user" ++ toString n ++ "@test.com"

/-- The function `CreateTestUser`; `n1` and `n2` are the two random numbers
it draws for the username and the email. -/
def CreateTestUser (lib : BcryptLib) (entropy : Option Bytes)
    (refuses : DB → UserRow → Bool) (db : DB) (n1 n2 : Nat) :
    (Option User × Option FixtureError) × DB :=
  let username := GenerateRandomUsername n1
  let email := GenerateRandomEmail n2
  let password := "Test123456!"
  match GenerateFromPassword lib (bytesOf password) DefaultCost entropy with
  | Except.error err => ((none, some (FixtureError.Hash err)), db)
  | Except.ok hashedPassword =>
    match insertUser refuses db username email (String.mk hashedPassword) with
    | none => ((none, some FixtureError.Insert), db)
    | some db2 =>
      ((some { Username := username, Email := email, Password := password }, none), db2)

/-- A reference instance of the primitives of `bcrypt`: one character per
byte, filled with `.` to the length of the package's base64, and a
ciphertext that mixes cost, salt and key stream byte by byte. -/
def refBcryptEncode (b : Bytes) : List Char :=
  b.map (fun x => Char.ofNat x.toNat) ++ List.replicate ((4 * b.length + 2) / 3 - b.length) '.'

/-- The decoder of the reference instance. -/
def refBcryptDecode (s : List Char) : Option Bytes :=
  some ((s.take (s.length * 3 / 4)).map (fun c => UInt8.ofNat c.toNat))

/-- The ciphertext of the reference instance. -/
def refEksblowfish (cost : Nat) (csalt stream : Bytes) : Bytes :=
  (List.range 24).map (fun i =>
    UInt8.ofNat (cost + (csalt.getD (i % 16) 0).toNat + (stream.getD i 0).toNat +
      (stream.getD (i + 24) 0).toNat + (stream.getD (i + 48) 0).toNat))

/-- The reference instance, with the length check of `GenerateFromPassword`. -/
def refBcrypt : BcryptLib where
  base64Encode := refBcryptEncode
  base64Decode := refBcryptDecode
  Eksblowfish := refEksblowfish
  LimitsPassword := true

/-! ## `tests/helpers/jwt.go`, continued: the token signed with another key -/

/-- The method `JWTHelper.GetTokenWithInvalidSignature`: the claims of
`GenerateTestToken`, signed with the bytes of `"wrong-secret"` in place of
the helper's secret. `nowExp` and `nowIat` are the readings of the two
`time.Now()` calls. -/
def JWTHelper.GetTokenWithInvalidSignature (lib : JWTLib) (j : JWTHelper)
    (nowExp nowIat : Time) (userID : Int) (username email : String) : Option String :=
  let claims : Claims :=
    { UserID := userID,
      Username := username,
      Email := email,
      RegisteredClaims :=
        { Issuer := j.Issuer,
          Subject := formatInt userID,
          Audience := [],
          ExpiresAt := some (NewNumericDate (Time.Add nowExp j.Expire)),
          NotBefore := none,
          IssuedAt := some (NewNumericDate nowIat),
          ID := "" } }
  let token := NewWithClaims SigningMethodHS256 claims
  token.SignedString lib (bytesOf "wrong-secret")

/-! ## `internal/handlers/post.go`: `Create` -/

/-- The struct `PostHandler`; the handle `db` may be `nil`. -/
structure PostHandler where
  db : Option DB
  deriving DecidableEq, Repr

/-- The constructor `NewPostHandler`. -/
def NewPostHandler (db : Option DB) : PostHandler := { db := db }

/-- The struct `CreatePostRequest`. -/
structure CreatePostRequest where
  Title : String
  Content : String
  Status : String
  deriving DecidableEq, Repr

/-- The decoding step of `ShouldBindJSON(&req)` for a `CreatePostRequest`. -/
def decodeCreatePostRequest (lib : BindingLib) (body : Body) :
    Except BindError CreatePostRequest :=
  match decodeBody lib ["title", "content", "status"] body with
  | Except.error e => Except.error e
  | Except.ok stored =>
    Except.ok { Title := (stored.lookup "title").getD "",
                Content := (stored.lookup "content").getD "",
                Status := (stored.lookup "status").getD "" }

/-- The `binding` tags of `CreatePostRequest` (`required,min=1,max=255` on
`Title`, `required` on `Content`, none on `Status`): for each field the
first tag that fails. -/
def CreatePostRequest.failedTags (req : CreatePostRequest) : List (String × String) :=
  (if req.Title = "" then [("Title", "required")]
    else if req.Title.length < 1 then [("Title", "min")]
    else if 255 < req.Title.length then [("Title", "max")]
    else []) ++
  (if req.Content = "" then [("Content", "required")] else [])

/-- gin `Context.ShouldBindJSON(&req)` for a `CreatePostRequest`. -/
def Context.ShouldBindJSONCreatePost (lib : BindingLib) (c : Context) :
    Except BindError CreatePostRequest :=
  match decodeCreatePostRequest lib c.Request.Body with
  | Except.error e => Except.error e
  | Except.ok req =>
    match req.failedTags with
    | [] => Except.ok req
    | f :: fs => Except.error (BindError.Validation (f :: fs))

/-- The handler `PostHandler.Create` (the fields of each `gin.H` in the
order `encoding/json` writes a map). -/
def PostHandler.Create (lib : BindingLib) (_h : PostHandler) : HandlerFunc := fun _ c =>
  match c.ShouldBindJSONCreatePost lib with
  | Except.error err => c.JSON StatusBadRequest [("error", Value.str (lib.ErrorText err))]
  | Except.ok req =>
    match c.Get "userID" with
    | none => c.JSON StatusUnauthorized [("error", Value.str "User not authenticated")]
    | some userID =>
      let req : CreatePostRequest :=
        if req.Status = "" then { req with Status := "draft" } else req
      c.JSON StatusCreated
        [("data", Value.obj [("content", Value.str req.Content),
                             ("id", Value.int 1),
                             ("status", Value.str req.Status),
                             ("title", Value.str req.Title),
                             ("user_id", userID)]),
         ("message", Value.str "Post created successfully")]

/-! ## The list handlers of `internal/handlers/post.go` and `user.go` -/

/-- gin `Context.DefaultQuery(key, defaultValue)`: the first value of the
key in the URL query when the key is there (an empty value included), and
the default otherwise. -/
def Context.DefaultQuery (c : Context) (key defaultValue : String) : String :=
  match c.Request.Query.lookup key with
  | some value => value
  | none => defaultValue

/-- The `pagination` object both list handlers build (the same literal in
each), its fields in the order `encoding/json` writes a map. -/
def paginationObject (page limit offset : Int) : Value :=
  Value.obj [("limit", Value.int limit), ("offset", Value.int offset),
             ("page", Value.int page), ("total", Value.int 2),
             ("total_pages", Value.int 1)]

/-- The document `PostHandler.List` answers with. -/
def postsDocument (page limit offset : Int) : H :=
  [("pagination", paginationObject page limit offset),
   ("posts", Value.arr
     [Value.obj [("content", Value.str "This is the first post"),
                 ("id", Value.int 1),
                 ("published_at", Value.str "2024-01-01T00:00:00Z"),
                 ("status", Value.str "published"),
                 ("title", Value.str "First Post"),
                 ("user_id", Value.int 1)],
      Value.obj [("content", Value.str "This is the second post"),
                 ("id", Value.int 2),
                 ("published_at", Value.str "2024-01-02T00:00:00Z"),
                 ("status", Value.str "published"),
                 ("title", Value.str "Second Post"),
                 ("user_id", Value.int 2)]])]

/-- The handler `PostHandler.List`. `page` and `limit` are Go `int`s of 64
bits; the product that gives `offset` wraps around. -/
def PostHandler.List (_h : PostHandler) : HandlerFunc := fun _ c =>
  let page := (strconv.Atoi (c.DefaultQuery "page" "1").data).1
  let limit := (strconv.Atoi (c.DefaultQuery "limit" "10").data).1
  let page := if page < 1 then 1 else page
  let limit := if limit < 1 ∨ 100 < limit then 10 else limit
  let offset := wrapInt64 (wrapInt64 (page - 1) * limit)
  c.JSON StatusOK (postsDocument page limit offset)

/-- The struct `UserHandler`; the handle `db` may be `nil`. -/
structure UserHandler where
  db : Option DB
  deriving DecidableEq, Repr

/-- The constructor `NewUserHandler`. -/
def NewUserHandler (db : Option DB) : UserHandler := { db := db }

/-- The document `UserHandler.List` answers with. -/
def usersDocument (page limit offset : Int) : H :=
  [("pagination", paginationObject page limit offset),
   ("users", Value.arr
     [Value.obj [("email", Value.str "user1@example.com"),
                 ("id", Value.int 1),
                 ("username", Value.str "user1")],
      Value.obj [("email", Value.str "user2@example.com"),
                 ("id", Value.int 2),
                 ("username", Value.str "user2")]])]

/-- The handler `UserHandler.List`. -/
def UserHandler.List (_h : UserHandler) : HandlerFunc := fun _ c =>
  let page := (strconv.Atoi (c.DefaultQuery "page" "1").data).1
  let limit := (strconv.Atoi (c.DefaultQuery "limit" "10").data).1
  let page := if page < 1 then 1 else page
  let limit := if limit < 1 ∨ 100 < limit then 10 else limit
  let offset := wrapInt64 (wrapInt64 (page - 1) * limit)
  c.JSON StatusOK (usersDocument page limit offset)

/-- A `GET` request with the URL query `query`. -/
def requestWithQuery (query : List (String × String)) : Request :=
  { Header := [], Query := query }

/-- The decimal value of a run of digit characters read after the value
`n`. -/
def decimalValue (ds : List Char) (n : Nat) : Nat :=
  ds.foldl (fun m c => m * 10 + (c.toNat - 48)) n

/-! ## Lemmas: the response writer and the chain -/

theorem json_abort_of_unwritten (c : Context) (doc : H) (hw : c.Writer.written = false) :
    (c.JSON StatusUnauthorized doc).Abort =
      { c with index := abortIndex,
               Writer := { status := 401, written := true, body := c.Writer.body ++ [doc] } } := by
  obtain ⟨req, keys, idx, ⟨st, wr, body⟩⟩ := c
  simp only at hw
  subst hw
  by_cases hst : st = 401
  · subst hst
    simp [Context.JSON, Context.Abort, ResponseWriter.WriteHeader, ResponseWriter.Write,
      bodyAllowedForStatus, StatusUnauthorized]
  · simp [Context.JSON, Context.Abort, ResponseWriter.WriteHeader, ResponseWriter.Write,
      bodyAllowedForStatus, StatusUnauthorized, hst]

/-- The loop of `Next` calls no handler once the index is past the end of
the chain. -/
theorem runChain_past_end (handlers : List HandlerFunc) (fuel : Nat) (c : Context)
    (hc : (handlers.length : Int) ≤ c.index) :
    runChain handlers fuel c = c := by
  cases fuel with
  | zero => rfl
  | succ n =>
    have : ¬ c.index < (handlers.length : Int) := by omega
    simp [runChain, this]

/-- Once the index is at or past `abortIndex`, the loop of `Next` calls no
handler (gin keeps every chain shorter than `abortIndex`). -/
theorem runChain_aborted (handlers : List HandlerFunc) (fuel : Nat) (c : Context)
    (hlen : (handlers.length : Int) < abortIndex) (hc : abortIndex ≤ c.index) :
    runChain handlers fuel c = c :=
  runChain_past_end handlers fuel c (by omega)

/-- One turn of the loop of `Next`. -/
theorem runChain_step (handlers : List HandlerFunc) (fuel : Nat) (c : Context)
    (h : HandlerFunc) (hlt : c.index < (handlers.length : Int))
    (hget : handlers.get? c.index.toNat = some h) :
    runChain handlers (fuel + 1) c =
      runChain handlers fuel (h (fun c2 => runChain handlers fuel c2.incr) c).incr := by
  rw [runChain]
  simp only [hlt, if_true, hget]

/-- The first turn of the engine on a chain `h :: rest`. -/
theorem serve_first (h : HandlerFunc) (rest : List HandlerFunc) (fuel : Nat) (req : Request) :
    ServeHTTP (h :: rest) (fuel + 1) req =
      { runChain (h :: rest) fuel
          (h (fun c2 => runChain (h :: rest) fuel c2.incr)
            { newContext req with index := 0 }).incr with
        Writer := (runChain (h :: rest) fuel
          (h (fun c2 => runChain (h :: rest) fuel c2.incr)
            { newContext req with index := 0 }).incr).Writer.WriteHeaderNow } := by
  have hstart : (newContext req).incr = { newContext req with index := 0 } := rfl
  have hlt : ({ newContext req with index := 0 } : Context).index <
      (((h :: rest).length : Nat) : Int) := by
    simp only [List.length_cons]; omega
  unfold ServeHTTP Context.Next
  rw [hstart, runChain_step (h :: rest) fuel _ h hlt rfl]

/-- What the engine returns when the first handler of the chain aborts
without calling `Next`. -/
theorem serve_of_abort (h : HandlerFunc) (rest : List HandlerFunc) (fuel : Nat) (req : Request)
    (c1 : Context) (hlen : (((h :: rest).length : Nat) : Int) < abortIndex)
    (hfuel : 1 ≤ fuel)
    (hh : ∀ next, h next { newContext req with index := 0 } = c1)
    (hidx : c1.index = abortIndex) :
    ServeHTTP (h :: rest) fuel req =
      { c1 with index := abortIndex + 1, Writer := c1.Writer.WriteHeaderNow } := by
  obtain ⟨n, rfl⟩ : ∃ n, fuel = n + 1 := ⟨fuel - 1, by omega⟩
  rw [serve_first, hh]
  rw [runChain_aborted _ _ _ hlen (by simp [Context.incr, hidx])]
  simp [Context.incr, hidx]

/-! ## Lemmas: the four branches of `Auth` -/

theorem Auth_missing (next : Context → Context) (c : Context)
    (h : c.GetHeader "Authorization" = "") :
    Auth next c =
      (c.JSON StatusUnauthorized [("error", Value.str "Authorization header required")]).Abort := by
  simp [Auth, h]

theorem Auth_malformed (next : Context → Context) (c : Context)
    (h : c.GetHeader "Authorization" ≠ "")
    (hs : ¬ ((strings.Split (c.GetHeader "Authorization") ' ').length = 2 ∧
              (strings.Split (c.GetHeader "Authorization") ' ').getD 0 "" = "Bearer")) :
    Auth next c =
      (c.JSON StatusUnauthorized
        [("error", Value.str "Invalid authorization header format")]).Abort := by
  have hs2 : (strings.Split (c.GetHeader "Authorization") ' ').length ≠ 2 ∨
      (strings.Split (c.GetHeader "Authorization") ' ').getD 0 "" ≠ "Bearer" := by
    by_cases h2 : (strings.Split (c.GetHeader "Authorization") ' ').length = 2
    · exact Or.inr (fun h0 => hs ⟨h2, h0⟩)
    · exact Or.inl h2
  simp only [Auth, h, if_false, hs2, if_true]

theorem Auth_empty_token (next : Context → Context) (c : Context)
    (h : c.GetHeader "Authorization" ≠ "")
    (hs : (strings.Split (c.GetHeader "Authorization") ' ').length = 2 ∧
            (strings.Split (c.GetHeader "Authorization") ' ').getD 0 "" = "Bearer")
    (ht : (strings.Split (c.GetHeader "Authorization") ' ').getD 1 "" = "") :
    Auth next c = (c.JSON StatusUnauthorized [("error", Value.str "Invalid token")]).Abort := by
  have hs2 : ¬ ((strings.Split (c.GetHeader "Authorization") ' ').length ≠ 2 ∨
      (strings.Split (c.GetHeader "Authorization") ' ').getD 0 "" ≠ "Bearer") := by
    rintro (h2 | h0)
    · exact h2 hs.1
    · exact h0 hs.2
  simp only [Auth, h, if_false, hs2, ht, if_true]

theorem Auth_pass (next : Context → Context) (c : Context)
    (h : c.GetHeader "Authorization" ≠ "")
    (hs : (strings.Split (c.GetHeader "Authorization") ' ').length = 2 ∧
            (strings.Split (c.GetHeader "Authorization") ' ').getD 0 "" = "Bearer")
    (ht : (strings.Split (c.GetHeader "Authorization") ' ').getD 1 "" ≠ "") :
    Auth next c = next (c.Set "userID" (Value.int 1)) := by
  have hs2 : ¬ ((strings.Split (c.GetHeader "Authorization") ' ').length ≠ 2 ∨
      (strings.Split (c.GetHeader "Authorization") ' ').getD 0 "" ≠ "Bearer") := by
    rintro (h2 | h0)
    · exact h2 hs.1
    · exact h0 hs.2
  simp only [Auth, h, if_false, hs2, ht]

/-- The engine-level form of a rejection: when `Auth` answers every context
of `req` with `c.JSON 401 {"error": msg}` and `Abort`, the request ends in
`rejectedContext req msg` whatever handlers follow. -/
theorem serve_rejected (req : Request) (rest : List HandlerFunc) (fuel : Nat) (msg : String)
    (hlen : (((Auth :: rest).length : Nat) : Int) < abortIndex) (hfuel : 1 ≤ fuel)
    (hrej : ∀ next, Auth next { newContext req with index := 0 } =
      (Context.JSON { newContext req with index := 0 } StatusUnauthorized
        [("error", Value.str msg)]).Abort) :
    ServeHTTP (Auth :: rest) fuel req = rejectedContext req msg := by
  have hj := json_abort_of_unwritten { newContext req with index := 0 }
    [("error", Value.str msg)] rfl
  rw [serve_of_abort Auth rest fuel req _ hlen hfuel (fun next => (hrej next).trans hj) rfl]
  simp [rejectedContext, unauthorized, newContext, ResponseWriter.reset,
    ResponseWriter.WriteHeaderNow]

/-! ## Theorems: the rejections of `Auth` -/

/-- C1: a request whose `Authorization` header is absent or empty is
rejected by `Auth`: for every chain of handlers behind `Auth` and all fuel
of at least one step the request ends with status 401, the body
`{"error": "Authorization header required"}`, the context aborted, and in a
final context that does not depend on the handlers behind `Auth` (none of
them ran). -/
theorem auth_rejects_missing_header (req : Request) (rest : List HandlerFunc) (fuel : Nat)
    (hreq : req.Header.lookup "Authorization" = none ∨
            req.Header.lookup "Authorization" = some "")
    (hlen : (((Auth :: rest).length : Nat) : Int) < abortIndex) (hfuel : 1 ≤ fuel) :
    (ServeHTTP (Auth :: rest) fuel req).Writer.status = 401 ∧
    (ServeHTTP (Auth :: rest) fuel req).Writer.body =
      [[("error", Value.str "Authorization header required")]] ∧
    (ServeHTTP (Auth :: rest) fuel req).IsAborted = true ∧
    ServeHTTP (Auth :: rest) fuel req =
      rejectedContext req "Authorization header required" := by
  have hget : Context.GetHeader { newContext req with index := 0 } "Authorization" = "" := by
    rcases hreq with h | h <;> simp [Context.GetHeader, Header.Get, newContext, h]
  have hs := serve_rejected req rest fuel "Authorization header required" hlen hfuel
    (fun next => Auth_missing next _ hget)
  rw [hs]
  exact ⟨rfl, rfl, by simp [rejectedContext, Context.IsAborted, abortIndex], rfl⟩

/-- Witness of C1 for a request without any header and the test's chain
shape (one handler behind `Auth`, here one that would answer 200). -/
theorem auth_rejects_missing_header_witness :
    (ServeHTTP [Auth, fun _ c => c.JSON StatusOK [("message", Value.str "success")]] 2
      { Header := [] }).Writer.status = 401 :=
  (auth_rejects_missing_header { Header := [] }
    [fun _ c => c.JSON StatusOK [("message", Value.str "success")]] 2
    (Or.inl rfl) (by decide) (by decide)).1

/-- C2: a non-empty `Authorization` header that, split on the space
character, does not give exactly two parts of which the first is the
literal `Bearer`, is rejected by `Auth`: status 401, body
`{"error": "Invalid authorization header format"}`, context aborted, and a
final context that does not depend on the handlers behind `Auth` (none of
them ran). -/
theorem auth_rejects_malformed_header (req : Request) (rest : List HandlerFunc) (fuel : Nat)
    (hne : req.Header.Get "Authorization" ≠ "")
    (hfmt : ¬ ((strings.Split (req.Header.Get "Authorization") ' ').length = 2 ∧
               (strings.Split (req.Header.Get "Authorization") ' ').getD 0 "" = "Bearer"))
    (hlen : (((Auth :: rest).length : Nat) : Int) < abortIndex) (hfuel : 1 ≤ fuel) :
    (ServeHTTP (Auth :: rest) fuel req).Writer.status = 401 ∧
    (ServeHTTP (Auth :: rest) fuel req).Writer.body =
      [[("error", Value.str "Invalid authorization header format")]] ∧
    (ServeHTTP (Auth :: rest) fuel req).IsAborted = true ∧
    ServeHTTP (Auth :: rest) fuel req =
      rejectedContext req "Invalid authorization header format" := by
  have hs := serve_rejected req rest fuel "Invalid authorization header format" hlen hfuel
    (fun next => Auth_malformed next { newContext req with index := 0 } hne hfmt)
  rw [hs]
  exact ⟨rfl, rfl, by simp [rejectedContext, Context.IsAborted, abortIndex], rfl⟩

/-- Witness of C2 on the five headers the claim lists: `Token abc`,
`Bearer` alone, `bearer x`, `Bearer a b` and `Bearer  x` (two spaces) all
end in the 401 format rejection, with a handler behind `Auth` that would
have answered 200. -/
theorem auth_rejects_malformed_header_witness :
    (ServeHTTP [Auth, fun _ c => c.JSON StatusOK [("message", Value.str "success")]] 2
      (requestWithAuthorization "Token abc")).Writer =
        unauthorized "Invalid authorization header format" ∧
    (ServeHTTP [Auth, fun _ c => c.JSON StatusOK [("message", Value.str "success")]] 2
      (requestWithAuthorization "Bearer")).Writer =
        unauthorized "Invalid authorization header format" ∧
    (ServeHTTP [Auth, fun _ c => c.JSON StatusOK [("message", Value.str "success")]] 2
      (requestWithAuthorization "bearer x")).Writer =
        unauthorized "Invalid authorization header format" ∧
    (ServeHTTP [Auth, fun _ c => c.JSON StatusOK [("message", Value.str "success")]] 2
      (requestWithAuthorization "Bearer a b")).Writer =
        unauthorized "Invalid authorization header format" ∧
    (ServeHTTP [Auth, fun _ c => c.JSON StatusOK [("message", Value.str "success")]] 2
      (requestWithAuthorization "Bearer  x")).Writer =
        unauthorized "Invalid authorization header format" := by
  refine ⟨?_, ?_, ?_, ?_, ?_⟩ <;>
    exact congrArg Context.Writer (auth_rejects_malformed_header _ _ 2 (by decide) (by decide)
      (by decide) (by decide)).2.2.2

/-- C3: the header `Bearer ` (the literal, one space, an empty second
part) passes the format check and is rejected by the empty-token check:
status 401, body `{"error": "Invalid token"}`, context aborted, and a final
context that does not depend on the handlers behind `Auth` (none of them
ran). -/
theorem auth_rejects_empty_token (req : Request) (rest : List HandlerFunc) (fuel : Nat)
    (hv : req.Header.Get "Authorization" = "Bearer ")
    (hlen : (((Auth :: rest).length : Nat) : Int) < abortIndex) (hfuel : 1 ≤ fuel) :
    (ServeHTTP (Auth :: rest) fuel req).Writer.status = 401 ∧
    (ServeHTTP (Auth :: rest) fuel req).Writer.body = [[("error", Value.str "Invalid token")]] ∧
    (ServeHTTP (Auth :: rest) fuel req).Writer.body ≠
      [[("error", Value.str "Invalid authorization header format")]] ∧
    (ServeHTTP (Auth :: rest) fuel req).IsAborted = true ∧
    ServeHTTP (Auth :: rest) fuel req = rejectedContext req "Invalid token" := by
  have hget : Context.GetHeader { newContext req with index := 0 } "Authorization" = "Bearer " :=
    hv
  have hs := serve_rejected req rest fuel "Invalid token" hlen hfuel
    (fun next => Auth_empty_token next { newContext req with index := 0 }
      (by rw [hget]; decide) (by rw [hget]; decide) (by rw [hget]; decide))
  rw [hs]
  refine ⟨rfl, rfl, ?_, by simp [rejectedContext, Context.IsAborted, abortIndex], rfl⟩
  simp [rejectedContext, unauthorized]

/-- Witness of C3 with the header sent alone and a handler behind `Auth`
that would have answered 200. -/
theorem auth_rejects_empty_token_witness :
    ServeHTTP [Auth, fun _ c => c.JSON StatusOK [("message", Value.str "success")]] 2
      (requestWithAuthorization "Bearer ") =
    rejectedContext (requestWithAuthorization "Bearer ") "Invalid token" :=
  (auth_rejects_empty_token (requestWithAuthorization "Bearer ")
    [fun _ c => c.JSON StatusOK [("message", Value.str "success")]] 2
    (by decide) (by decide) (by decide)).2.2.2.2

/-! ## Lemmas: splitting -/

theorem splitChars_no_sep (sep : Char) (a : List Char) (h : sep ∉ a) :
    splitChars sep a = [a] := by
  induction a with
  | nil => rfl
  | cons c cs ih =>
    have hc : c ≠ sep := fun e => h (by simp [e])
    have hcs : sep ∉ cs := fun e => h (by simp [e])
    simp [splitChars, hc, ih hcs]

theorem splitChars_append_sep (sep : Char) (a b : List Char) (h : sep ∉ a) :
    splitChars sep (a ++ sep :: b) = a :: splitChars sep b := by
  induction a with
  | nil => simp [splitChars]
  | cons c cs ih =>
    have hc : c ≠ sep := fun e => h (by simp [e])
    have hcs : sep ∉ cs := fun e => h (by simp [e])
    simp [splitChars, hc, ih hcs]

theorem split_two (sep : Char) (a b : String) (ha : sep ∉ a.data) (hb : sep ∉ b.data) :
    strings.Split (a ++ String.singleton sep ++ b) sep = [a, b] := by
  simp [strings.Split, String.data_append, String.singleton, splitChars_append_sep, ha,
    splitChars_no_sep, hb]

theorem split_three (sep : Char) (a b c : String) (ha : sep ∉ a.data) (hb : sep ∉ b.data)
    (hc : sep ∉ c.data) :
    strings.Split (a ++ String.singleton sep ++ b ++ String.singleton sep ++ c) sep
      = [a, b, c] := by
  simp [strings.Split, String.data_append, String.singleton, splitChars_append_sep, ha,
    splitChars_no_sep, hb, hc]

theorem split_dots (a b c : String) (ha : '.' ∉ a.data) (hb : '.' ∉ b.data)
    (hc : '.' ∉ c.data) :
    strings.Split (a ++ "." ++ b ++ "." ++ c) '.' = [a, b, c] :=
  split_three '.' a b c ha hb hc

theorem split_bearer (t : String) (ht : ' ' ∉ t.data) :
    strings.Split ("Bearer " ++ t) ' ' = ["Bearer", t] :=
  split_two ' ' "Bearer" t (by decide) ht


/-! ## Lemmas: the reference instance -/

theorem refLib_decode_encode (b : Bytes) :
    refDecodeSegment (refEncodeSegment b) = some b := by
  unfold refDecodeSegment refEncodeSegment
  rw [List.length_replicate, Encodable.encodek]
  simp

theorem refLib_encode_alphabet (b : Bytes) (c : Char)
    (hc : c ∈ (refEncodeSegment b).data) : isBase64URL c = true := by
  unfold refEncodeSegment at hc
  rw [List.mem_replicate] at hc
  rw [hc.2]
  decide

theorem refLib_header_roundtrip (alg : String) :
    refUnmarshalHeader (refMarshalHeader (jwtHeader alg)) = some (jwtHeader alg) := by
  have h1 : refMarshalHeader (jwtHeader alg) = List.replicate (Encodable.encode alg + 1) 0 := by
    unfold refMarshalHeader jwtHeader
    rfl
  rw [h1]
  unfold refUnmarshalHeader
  rw [List.length_replicate]
  simp only [Encodable.encodek, Option.map_some']

theorem refLib_claims_roundtrip (c : Claims) :
    refUnmarshalClaims (refMarshalClaims c) = some c := by
  unfold refUnmarshalClaims refMarshalClaims
  rw [List.length_replicate, Encodable.encodek]

theorem refLib_lawful : refLib.Lawful :=
  ⟨refLib_decode_encode, refLib_encode_alphabet, refLib_header_roundtrip,
    fun c _ => refLib_claims_roundtrip c⟩

/-! ## Lemmas: issuing and parsing -/

theorem base64url_no_dot (lib : JWTLib) (hl : lib.Lawful) (b : Bytes) :
    '.' ∉ (lib.EncodeSegment b).data := by
  intro h
  have := hl.encode_alphabet b '.' h
  revert this
  decide

theorem base64url_no_space (lib : JWTLib) (hl : lib.Lawful) (b : Bytes) :
    ' ' ∉ (lib.EncodeSegment b).data := by
  intro h
  have := hl.encode_alphabet b ' ' h
  revert this
  decide

theorem getSigningMethod_alg (hash : Hash) :
    GetSigningMethod (SigningMethod.HMAC hash).Alg = some (SigningMethod.HMAC hash) := by
  cases hash <;> decide

/-- The parser on three dot-free segments that decode to a header naming
the method `m`, to claims `c` and to a signature `sig`, with a key function
that hands out `key` for the parsed token: the result is decided by the
signature check and then by `Validate`. -/
theorem parse_segments (lib : JWTLib) (a b s : String) (alg : String) (m : SigningMethod)
    (hb cb sig key : Bytes) (hdr : H) (c : Claims) (now : Time)
    (keyFunc : Token → Option Bytes)
    (ha : '.' ∉ a.data) (hbd : '.' ∉ b.data) (hs : '.' ∉ s.data)
    (hdec1 : lib.DecodeSegment a = some hb) (hjs1 : lib.UnmarshalHeader hb = some hdr)
    (halg : hdr.lookup "alg" = some (Value.str alg))
    (hdec2 : lib.DecodeSegment b = some cb) (hjs2 : lib.UnmarshalClaims cb = some c)
    (hm : GetSigningMethod alg = some m)
    (hdec3 : lib.DecodeSegment s = some sig)
    (hkey : keyFunc { Raw := a ++ "." ++ b ++ "." ++ s, Method := m, Header := hdr,
                      Claims := c, Signature := [], Valid := false } = some key) :
    ParseWithClaims lib now (a ++ "." ++ b ++ "." ++ s) keyFunc =
      if m.Verify lib (a ++ "." ++ b) sig key = false then
        Except.error TokenError.SignatureInvalid
      else
        match Validate c now with
        | [] => Except.ok { Raw := a ++ "." ++ b ++ "." ++ s, Method := m, Header := hdr,
                            Claims := c, Signature := sig, Valid := true }
        | e :: es => Except.error (TokenError.InvalidClaims (e :: es)) := by
  have hsplit := split_dots a b s ha hbd hs
  have hpu : ParseUnverified lib (a ++ "." ++ b ++ "." ++ s) =
      Except.ok ({ Raw := a ++ "." ++ b ++ "." ++ s, Method := m, Header := hdr, Claims := c,
                   Signature := [], Valid := false }, [a, b, s]) := by
    simp only [ParseUnverified, hsplit]
    simp [hdec1, hjs1, hdec2, hjs2, halg, hm]
  simp only [ParseWithClaims, hpu]
  simp only [List.getD_cons_zero, List.getD_cons_succ, hdec3, hkey]

theorem signedString_hmac (lib : JWTLib) (hash : Hash) (c : Claims) (key : Bytes) :
    (NewWithClaims (SigningMethod.HMAC hash) c).SignedString lib key =
      some (wireToken lib hash key c) := rfl

theorem generateTestToken_eq (lib : JWTLib) (j : JWTHelper) (nowExp nowIat : Time)
    (userID : Int) (username email : String) :
    j.GenerateTestToken lib nowExp nowIat userID username email =
      some (wireToken lib Hash.SHA256 j.Secret
        (generatedClaims j nowExp nowIat userID username email)) := rfl

/-- The method `ValidateTestToken` on the wire form of exact claims signed with an
HMAC method under the helper's own secret: header, claims, method lookup,
key function and signature check all pass, and the outcome is that of
`Validate` at the clock reading. -/
theorem validate_wireToken (lib : JWTLib) (hl : lib.Lawful) (j : JWTHelper) (hash : Hash)
    (c : Claims) (hc : c.JSONExact) (now : Time) :
    j.ValidateTestToken lib now (wireToken lib hash j.Secret c) =
      match Validate c now with
      | [] => Except.ok c
      | e :: es => Except.error (TokenError.InvalidClaims (e :: es)) := by
  have hp := parse_segments lib
    (lib.EncodeSegment (lib.MarshalHeader (jwtHeader (SigningMethod.HMAC hash).Alg)))
    (lib.EncodeSegment (lib.MarshalClaims c))
    (lib.EncodeSegment (lib.HMAC hash j.Secret
      (lib.EncodeSegment (lib.MarshalHeader (jwtHeader (SigningMethod.HMAC hash).Alg)) ++ "." ++
        lib.EncodeSegment (lib.MarshalClaims c))))
    (SigningMethod.HMAC hash).Alg (SigningMethod.HMAC hash)
    _ _ _ j.Secret (jwtHeader (SigningMethod.HMAC hash).Alg) c now
    (fun token =>
      match token.Method with
      | SigningMethod.HMAC _ => some j.Secret
      | SigningMethod.other _ => none)
    (base64url_no_dot lib hl _) (base64url_no_dot lib hl _) (base64url_no_dot lib hl _)
    (hl.decode_encode _) (hl.header_roundtrip _) rfl (hl.decode_encode _)
    (hl.claims_roundtrip c hc) (getSigningMethod_alg hash) (hl.decode_encode _) rfl
  unfold JWTHelper.ValidateTestToken wireToken
  rw [hp]
  simp only [SigningMethod.Verify, decide_True, Bool.true_eq_false, if_false]
  cases hval : Validate c now <;> simp

/-- The outcome of `Validate` on the claims `GenerateTestToken` signs:
they are valid exactly while the clock is before the expiry instant
rounded down to a whole second. -/
theorem validate_generatedClaims (j : JWTHelper) (nowExp nowIat now : Time) (userID : Int)
    (username email : String) :
    Validate (generatedClaims j nowExp nowIat userID username email) now =
      if now < nowExp + j.Expire - (nowExp + j.Expire) % Second then []
      else [ClaimError.Expired] := by
  simp [Validate, generatedClaims, NewNumericDate, Time.Before, Time.Add]

/-- Rounding down to a whole second, in integers. -/
theorem truncate_second_exact (t : Int) (h1 : -18446744073709551616 ≤ t)
    (h2 : t ≤ 18446744073709551616) :
    (t - t % 1000000000) % 1000000000 = 0 ∧
    -(2 ^ 53 * 1000000000) ≤ t - t % 1000000000 ∧
    t - t % 1000000000 ≤ 2 ^ 53 * 1000000000 := by
  norm_num
  omega

theorem newNumericDate_exact (t : Time) (h1 : (-18446744073709551616 : Int) ≤ t)
    (h2 : t ≤ (18446744073709551616 : Int)) :
    (NewNumericDate t).JSONExact :=
  truncate_second_exact t h1 h2

theorem int64_sum_range (a b : Int) (ha1 : -(2 ^ 63) ≤ a) (ha2 : a < 2 ^ 63)
    (hb1 : -(2 ^ 63) ≤ b) (hb2 : b < 2 ^ 63) :
    -18446744073709551616 ≤ a + b ∧ a + b ≤ 18446744073709551616 := by
  norm_num at ha1 ha2 hb1 hb2
  omega

theorem generatedClaims_exact (j : JWTHelper) (nowExp nowIat : Time) (userID : Int)
    (username email : String) (hid : IsGoInt userID) (hexp : IsGoInt j.Expire)
    (h1 : nowExp.IsUnixNano) (h2 : nowIat.IsUnixNano) :
    (generatedClaims j nowExp nowIat userID username email).JSONExact := by
  refine ⟨hid, ?_, ?_, ?_⟩
  · intro d hd
    simp only [generatedClaims, Option.some.injEq] at hd
    subst hd
    have hs := int64_sum_range nowExp j.Expire h1.1 h1.2 hexp.1 hexp.2
    exact newNumericDate_exact _ hs.1 hs.2
  · intro d hd
    simp [generatedClaims] at hd
  · intro d hd
    simp only [generatedClaims, Option.some.injEq] at hd
    subst hd
    have hs := int64_sum_range nowIat 0 h2.1 h2.2 (by norm_num) (by norm_num)
    rw [add_zero] at hs
    exact newNumericDate_exact _ hs.1 hs.2

theorem wrapInt64_of_range (x : Int) (h : IsGoInt x) : wrapInt64 x = x := by
  unfold IsGoInt at h
  unfold wrapInt64
  norm_num at h ⊢
  omega

theorem wrapInt64_range (x : Int) : IsGoInt (wrapInt64 x) := by
  unfold IsGoInt wrapInt64
  norm_num
  omega

/-- The expiry of a helper built for a number of hours that fits a
`time.Duration`. -/
theorem newJWTHelper_expire (secret : String) (expireHours : Int)
    (h1 : -2562047 ≤ expireHours) (h2 : expireHours ≤ 2562047) :
    (NewJWTHelper secret expireHours).Expire = expireHours * Hour := by
  unfold NewJWTHelper
  simp only
  apply wrapInt64_of_range
  unfold IsGoInt Hour
  norm_num
  omega

/-- The method `ValidateTestToken` on a token of `GenerateTestToken`, for every lawful
library: the claims come back while the clock is before the expiry
instant rounded down to a whole second, and the token is expired from
then on. -/
theorem validate_generated (lib : JWTLib) (hl : lib.Lawful) (j : JWTHelper)
    (nowExp nowIat now : Time) (userID : Int) (username email : String)
    (hid : IsGoInt userID) (hexp : IsGoInt j.Expire)
    (h1 : nowExp.IsUnixNano) (h2 : nowIat.IsUnixNano) :
    j.ValidateTestToken lib now
        (wireToken lib Hash.SHA256 j.Secret
          (generatedClaims j nowExp nowIat userID username email)) =
      if now < nowExp + j.Expire - (nowExp + j.Expire) % Second then
        Except.ok (generatedClaims j nowExp nowIat userID username email)
      else Except.error (TokenError.InvalidClaims [ClaimError.Expired]) := by
  rw [validate_wireToken lib hl j Hash.SHA256 _
    (generatedClaims_exact j nowExp nowIat userID username email hid hexp h1 h2) now,
    validate_generatedClaims]
  by_cases h : now < nowExp + j.Expire - (nowExp + j.Expire) % Second <;> simp [h]

theorem before_truncated (now x : Int) (h : now + 1000000000 ≤ x) :
    now < x - x % 1000000000 := by
  omega

/-! ## Theorems: the token round trip -/

/-- C10 (as amended): for every lawful library, every helper built by
`NewJWTHelper` with a non-empty secret and an expiry of 1 to 2562047 hours
(the hours a `time.Duration` can hold), every user id that is a Go `int`,
every username and email, and clock readings within the `UnixNano` range:
`GenerateTestToken` returns a token, and `ValidateTestToken` applied to it
at any time up to one second before the issuing instant plus the expiry
(in particular immediately) succeeds and returns claims whose `UserID`, `Username` and
`Email` are the inputs. -/
theorem generate_validate_roundtrip (lib : JWTLib) (hl : lib.Lawful)
    (secret : String) (expireHours : Int) (nowExp nowIat now : Time)
    (userID : Int) (username email : String)
    (hsecret : secret ≠ "")
    (hhours : 1 ≤ expireHours ∧ expireHours ≤ 2562047)
    (hid : IsGoInt userID)
    (h1 : nowExp.IsUnixNano) (h2 : nowIat.IsUnixNano)
    (hnow : now + Second ≤ nowExp + expireHours * Hour) :
    ∃ tok claims,
      (NewJWTHelper secret expireHours).GenerateTestToken lib nowExp nowIat
        userID username email = some tok ∧
      (NewJWTHelper secret expireHours).ValidateTestToken lib now tok = Except.ok claims ∧
      claims.UserID = userID ∧ claims.Username = username ∧ claims.Email = email := by
  refine ⟨_, generatedClaims (NewJWTHelper secret expireHours) nowExp nowIat userID username
    email, generateTestToken_eq lib _ nowExp nowIat userID username email, ?_, rfl, rfl, rfl⟩
  rw [validate_generated lib hl _ nowExp nowIat now userID username email hid
    (wrapInt64_range _) h1 h2]
  have hE : (NewJWTHelper secret expireHours).Expire = expireHours * Hour :=
    newJWTHelper_expire secret expireHours (by omega) hhours.2
  have hlt : now < nowExp + (NewJWTHelper secret expireHours).Expire -
      (nowExp + (NewJWTHelper secret expireHours).Expire) % Second := by
    rw [hE]
    exact before_truncated now _ hnow
  simp [hlt]

/-- Witness of C10 (amended) on the reference library: the default test
helper (24 hours), user 1, issued and validated at the same instant
(1700000000 s after the epoch). -/
theorem generate_validate_roundtrip_witness :
    ∃ tok claims,
      (NewJWTHelper "test_jwt_secret_key_for_testing_only" 24).GenerateTestToken refLib
        1700000000000000000 1700000000000000000 1 "user1" "user1@test.com" = some tok ∧
      (NewJWTHelper "test_jwt_secret_key_for_testing_only" 24).ValidateTestToken refLib
        1700000000000000000 tok = Except.ok claims ∧
      claims.UserID = 1 ∧ claims.Username = "user1" ∧ claims.Email = "user1@test.com" :=
  generate_validate_roundtrip refLib refLib_lawful "test_jwt_secret_key_for_testing_only" 24
    1700000000000000000 1700000000000000000 1700000000000000000 1 "user1" "user1@test.com"
    (by decide) (by decide) (by unfold IsGoInt; norm_num)
    (by unfold Time.IsUnixNano; norm_num) (by unfold Time.IsUnixNano; norm_num)
    (by unfold Second Hour; norm_num)

/-- Counterexample to C10 as stated (reference library, issued and
validated at the same instant, 1700000000 s after the epoch). A helper
built with the secret `secret` and the positive expiry of 2562048 hours
holds a negative `Expire` (the 64-bit product wraps), and one built with
14793263928 hours holds a positive `Expire` of 524484608 ns; in both cases
the token `GenerateTestToken` returns is rejected as expired by
`ValidateTestToken`. -/
theorem generate_validate_roundtrip_counterexample :
    ((0 : Int) < 2562048 ∧ (NewJWTHelper "secret" 2562048).Expire = -9223371273709551616 ∧
      ∃ tok, (NewJWTHelper "secret" 2562048).GenerateTestToken refLib
          1700000000000000000 1700000000000000000 1 "user1" "user1@test.com" = some tok ∧
        (NewJWTHelper "secret" 2562048).ValidateTestToken refLib 1700000000000000000 tok =
          Except.error (TokenError.InvalidClaims [ClaimError.Expired])) ∧
    ((0 : Int) < 14793263928 ∧ (NewJWTHelper "secret" 14793263928).Expire = 524484608 ∧
      ∃ tok, (NewJWTHelper "secret" 14793263928).GenerateTestToken refLib
          1700000000000000000 1700000000000000000 1 "user1" "user1@test.com" = some tok ∧
        (NewJWTHelper "secret" 14793263928).ValidateTestToken refLib 1700000000000000000 tok =
          Except.error (TokenError.InvalidClaims [ClaimError.Expired])) := by
  have e1 : (NewJWTHelper "secret" 2562048).Expire = -9223371273709551616 := by
    unfold NewJWTHelper wrapInt64 Hour
    norm_num
  have e2 : (NewJWTHelper "secret" 14793263928).Expire = 524484608 := by
    unfold NewJWTHelper wrapInt64 Hour
    norm_num
  have hid : IsGoInt 1 := by unfold IsGoInt; norm_num
  have hT : Time.IsUnixNano 1700000000000000000 := by unfold Time.IsUnixNano; norm_num
  refine ⟨⟨by norm_num, e1, _, generateTestToken_eq refLib _ _ _ _ _ _, ?_⟩,
    ⟨by norm_num, e2, _, generateTestToken_eq refLib _ _ _ _ _ _, ?_⟩⟩
  · rw [validate_generated refLib refLib_lawful _ _ _ _ _ _ _ hid (wrapInt64_range _) hT hT,
      e1]
    unfold Second
    norm_num
  · rw [validate_generated refLib refLib_lawful _ _ _ _ _ _ _ hid (wrapInt64_range _) hT hT,
      e2]
    unfold Second
    norm_num

/-! ## Lemmas: acceptance -/

/-- The header condition under which `Auth` reaches `c.Next()`. -/
theorem accepts_iff (req : Request) :
    Accepts req = true ↔
      (req.Header.Get "Authorization" ≠ "" ∧
        (strings.Split (req.Header.Get "Authorization") ' ').length = 2 ∧
        (strings.Split (req.Header.Get "Authorization") ' ').getD 0 "" = "Bearer" ∧
        (strings.Split (req.Header.Get "Authorization") ' ').getD 1 "" ≠ "") := by
  have hg : (newContext req).GetHeader "Authorization" = req.Header.Get "Authorization" := rfl
  have hab : ∀ doc : H,
      (!(Context.JSON (newContext req) StatusUnauthorized doc).Abort.IsAborted) ≠ true := by
    intro doc
    rw [json_abort_of_unwritten _ _ rfl]
    simp [Context.IsAborted]
  unfold Accepts
  by_cases h1 : req.Header.Get "Authorization" = ""
  · rw [Auth_missing _ _ (hg.trans h1)]
    exact ⟨fun h => absurd h (hab _), fun h => absurd h1 h.1⟩
  by_cases h2 : (strings.Split (req.Header.Get "Authorization") ' ').length = 2 ∧
      (strings.Split (req.Header.Get "Authorization") ' ').getD 0 "" = "Bearer"
  · by_cases h3 : (strings.Split (req.Header.Get "Authorization") ' ').getD 1 "" = ""
    · rw [Auth_empty_token _ _ (by rw [hg]; exact h1) (by rw [hg]; exact h2)
        (by rw [hg]; exact h3)]
      exact ⟨fun h => absurd h (hab _), fun h => absurd h3 h.2.2.2⟩
    · rw [Auth_pass _ _ (by rw [hg]; exact h1) (by rw [hg]; exact h2) (by rw [hg]; exact h3)]
      refine ⟨fun _ => ⟨h1, h2.1, h2.2, h3⟩, fun _ => ?_⟩
      simp [Context.IsAborted, Context.Set, newContext, abortIndex]
  · rw [Auth_malformed _ _ (by rw [hg]; exact h1) (by rw [hg]; exact h2)]
    exact ⟨fun h => absurd h (hab _), fun h => absurd ⟨h.2.1, h.2.2.1⟩ h2⟩

/-- An accepted request is passed on, with `userID` set to 1, from every
context that carries it. -/
theorem auth_pass_of_accepts (req : Request) (h : Accepts req = true)
    (next : Context → Context) (c : Context) (hc : c.Request = req) :
    Auth next c = next (c.Set "userID" (Value.int 1)) := by
  obtain ⟨h1, h2, h3, h4⟩ := (accepts_iff req).1 h
  have hg : c.GetHeader "Authorization" = req.Header.Get "Authorization" := by
    rw [← hc]; rfl
  exact Auth_pass next c (by rw [hg]; exact h1) (by rw [hg]; exact ⟨h2, h3⟩)
    (by rw [hg]; exact h4)

/-- A header `Bearer t` with `t` non-empty and free of spaces is accepted. -/
theorem accepts_bearer (t : String) (hne : t ≠ "") (hsp : ' ' ∉ t.data) :
    Accepts (requestWithAuthorization ("Bearer " ++ t)) = true := by
  rw [accepts_iff]
  have hg : (requestWithAuthorization ("Bearer " ++ t)).Header.Get "Authorization" =
      "Bearer " ++ t := by
    simp [requestWithAuthorization, Header.Get, List.lookup]
  rw [hg, split_bearer t hsp]
  refine ⟨?_, rfl, rfl, hne⟩
  intro h
  have hlen := congrArg String.length h
  rw [String.length_append] at hlen
  have h7 : "Bearer ".length = 7 := by decide
  have h0 : "".length = 0 := by decide
  omega

/-- The engine on the chain `Auth`, `f` for an accepted request, when `f`
calls no `Next` and leaves the chain position alone or aborts: `f` runs
once, on `passedContext req`, and its context is the final one up to the
position and the header flush. -/
theorem serve_accepted (req : Request) (h : Accepts req = true) (f : Context → Context)
    (fuel : Nat) (hfuel : 2 ≤ fuel) (hidx : 1 ≤ (f (passedContext req)).index) :
    ServeHTTP [Auth, fun _ => f] fuel req =
      { f (passedContext req) with
          index := (f (passedContext req)).index + 1 + 1,
          Writer := (f (passedContext req)).Writer.WriteHeaderNow } := by
  obtain ⟨n, rfl⟩ : ∃ n, fuel = n + 2 := ⟨fuel - 2, by omega⟩
  have hset : (Context.Set { newContext req with index := 0 } "userID" (Value.int 1)).incr =
      passedContext req := by
    simp [Context.Set, Context.incr, newContext, passedContext]
  have hstop : ∀ (m : Nat) (c : Context), 2 ≤ c.index →
      runChain [Auth, fun _ => f] m c = c := by
    intro m c hc
    exact runChain_past_end _ m c (by simp only [List.length_cons, List.length_nil]; omega)
  have hinner : runChain [Auth, fun _ => f] (n + 1) (passedContext req) =
      (f (passedContext req)).incr := by
    rw [runChain_step _ n _ (fun _ => f) (by simp [passedContext]) (by simp [passedContext])]
    exact hstop _ _ (by simp only [Context.incr]; omega)
  rw [serve_first, auth_pass_of_accepts req h _ _ rfl, hset, hinner,
    hstop _ _ (by simp only [Context.incr]; omega)]
  simp [Context.incr]

theorem wireToken_no_space (lib : JWTLib) (hl : lib.Lawful) (hash : Hash) (key : Bytes)
    (c : Claims) : ' ' ∉ (wireToken lib hash key c).data := by
  have h1 := base64url_no_space lib hl
  have hdot : (".").data = ['.'] := rfl
  simp only [wireToken, String.data_append, hdot, List.mem_append, List.mem_singleton, not_or]
  exact ⟨⟨⟨⟨h1 _, by decide⟩, h1 _⟩, by decide⟩, h1 _⟩

theorem wireToken_ne_empty (lib : JWTLib) (hash : Hash) (key : Bytes) (c : Claims) :
    wireToken lib hash key c ≠ "" := by
  intro h
  have hd := congrArg String.data h
  have hdot : (".").data = ['.'] := rfl
  have he : ("").data = [] := rfl
  simp [wireToken, String.data_append, hdot, he] at hd

/-- The answer of `profileHandler` to an accepted request. -/
theorem profileHandler_passed (req : Request) :
    profileHandler (fun c => c) (passedContext req) =
      { passedContext req with
          Writer := { status := 200, written := true,
                      body := [[("message", Value.str "Access granted"),
                                ("user_id", Value.int 1)]] } } := by
  simp [profileHandler, passedContext, Context.Get, List.lookup, Context.JSON,
    ResponseWriter.WriteHeader, ResponseWriter.Write, ResponseWriter.reset, StatusOK,
    bodyAllowedForStatus]

/-- The answer of `userContextHandler` to an accepted request. -/
theorem userContextHandler_passed (req : Request) :
    userContextHandler (fun c => c) (passedContext req) =
      { passedContext req with
          Writer := { status := 200, written := true,
                      body := [[("user_id", Value.int 1),
                                ("user_id_exists", Value.bool true)]] } } := by
  simp [userContextHandler, passedContext, Context.Get, List.lookup, Context.JSON,
    ResponseWriter.WriteHeader, ResponseWriter.Write, ResponseWriter.reset, StatusOK,
    bodyAllowedForStatus]

theorem get_set_userID (c : Context) (v : Value) :
    (c.Set "userID" v).Get "userID" = some v := by
  simp [Context.Get, Context.Set, List.lookup]

/-- Each run of `Auth` is `Authenticated` or `Rejected`. -/
theorem auth_cases (c : Context) : Authenticated c ∨ Rejected c := by
  by_cases h1 : c.GetHeader "Authorization" = ""
  · exact Or.inr ⟨_, fun next => Auth_missing next c h1⟩
  by_cases h2 : (strings.Split (c.GetHeader "Authorization") ' ').length = 2 ∧
      (strings.Split (c.GetHeader "Authorization") ' ').getD 0 "" = "Bearer"
  · by_cases h3 : (strings.Split (c.GetHeader "Authorization") ' ').getD 1 "" = ""
    · exact Or.inr ⟨_, fun next => Auth_empty_token next c h1 h2 h3⟩
    · exact Or.inl (fun next => Auth_pass next c h1 h2 h3)
  · exact Or.inr ⟨_, fun next => Auth_malformed next c h1 h2⟩

theorem writeHeader_body (w : ResponseWriter) (code : Int) :
    (w.WriteHeader code).body = w.body := by
  unfold ResponseWriter.WriteHeader
  split
  · split <;> rfl
  · rfl

theorem json_unauthorized (c : Context) (doc : H) :
    c.JSON StatusUnauthorized doc =
      { c with Writer := (c.Writer.WriteHeader StatusUnauthorized).Write doc } := by
  have hb : bodyAllowedForStatus StatusUnauthorized = true := by decide
  simp only [Context.JSON, hb, if_true]

/-- What `c.JSON(401, doc)` followed by `c.Abort()` leaves: the request and
`Keys` of `c`, the index at `abortIndex`, the header written, `doc` added
to the body, and the status 401 unless another status had been written
before. -/
theorem json_abort_fields (c : Context) (doc : H) :
    (c.JSON StatusUnauthorized doc).Abort.Request = c.Request ∧
    (c.JSON StatusUnauthorized doc).Abort.Keys = c.Keys ∧
    (c.JSON StatusUnauthorized doc).Abort.index = abortIndex ∧
    (c.JSON StatusUnauthorized doc).Abort.Writer.written = true ∧
    (c.JSON StatusUnauthorized doc).Abort.Writer.body = c.Writer.body ++ [doc] ∧
    (c.Writer.written = false → (c.JSON StatusUnauthorized doc).Abort.Writer.status = 401) := by
  rw [json_unauthorized]
  refine ⟨rfl, rfl, rfl, rfl, ?_, ?_⟩
  · simp only [Context.Abort, ResponseWriter.Write, writeHeader_body]
  · intro hw
    rw [← json_unauthorized, json_abort_of_unwritten c doc hw]

theorem not_authenticated_and_rejected (c : Context)
    (ha : Authenticated c) (hr : Rejected c) : False := by
  obtain ⟨msg, hr⟩ := hr
  have h := (ha (fun c => c)).symm.trans (hr (fun c => c))
  have hb := congrArg (fun x : Context => x.Writer.body.length) h
  simp only [(json_abort_fields c _).2.2.2.2.1, Context.Set, List.length_append,
    List.length_singleton] at hb
  omega

/-! ## Theorems: what `Auth` does with a token -/

/-- C4 (the code at the failing input): the token `valid_token_123` is not
three dot-separated segments, so `ValidateTestToken` fails on it as
malformed for every library, helper and clock reading; yet `Auth` accepts
the header `Bearer valid_token_123`, and the request ends with the
handler's 200 answer, not aborted. -/
theorem auth_accepts_unparseable_token :
    (∀ (lib : JWTLib) (j : JWTHelper) (now : Time),
      j.ValidateTestToken lib now "valid_token_123" = Except.error TokenError.Malformed) ∧
    Accepts (requestWithAuthorization "Bearer valid_token_123") = true ∧
    (ServeHTTP [Auth, profileHandler] 2
      (requestWithAuthorization "Bearer valid_token_123")).Writer =
      { status := 200, written := true,
        body := [[("message", Value.str "Access granted"), ("user_id", Value.int 1)]] } ∧
    (ServeHTTP [Auth, profileHandler] 2
      (requestWithAuthorization "Bearer valid_token_123")).IsAborted = false := by
  refine ⟨?_, by decide, by decide, by decide⟩
  intro lib j now
  have hsplit : strings.Split "valid_token_123" '.' = ["valid_token_123"] := by decide
  simp [JWTHelper.ValidateTestToken, ParseWithClaims, ParseUnverified, hsplit]

/-- C5 (the code on a token issued for `userID`): for every lawful
library, the token `GenerateTestToken` returns for the user id `userID` is
accepted by `Auth` under `Bearer`, the handler behind `Auth` is called with
`userID` equal to 1 in the context and answers with `user_id` 1; so for
every `userID` other than 1 the identity the handler reads is not the one
embedded in the token. -/
theorem auth_ignores_token_identity (lib : JWTLib) (hl : lib.Lawful) (j : JWTHelper)
    (nowExp nowIat : Time) (userID : Int) (username email : String) (fuel : Nat)
    (hfuel : 2 ≤ fuel) :
    ∃ tok, j.GenerateTestToken lib nowExp nowIat userID username email = some tok ∧
      Accepts (requestWithAuthorization ("Bearer " ++ tok)) = true ∧
      (passedContext (requestWithAuthorization ("Bearer " ++ tok))).Get "userID" =
        some (Value.int 1) ∧
      (ServeHTTP [Auth, profileHandler] fuel
        (requestWithAuthorization ("Bearer " ++ tok))).Writer.body =
        [[("message", Value.str "Access granted"), ("user_id", Value.int 1)]] ∧
      (userID ≠ 1 →
        (ServeHTTP [Auth, profileHandler] fuel
          (requestWithAuthorization ("Bearer " ++ tok))).Writer.body ≠
          [[("message", Value.str "Access granted"), ("user_id", Value.int userID)]]) := by
  have hacc := accepts_bearer
    (wireToken lib Hash.SHA256 j.Secret (generatedClaims j nowExp nowIat userID username email))
    (wireToken_ne_empty lib _ _ _) (wireToken_no_space lib hl _ _ _)
  have hserve := serve_accepted _ hacc (profileHandler (fun c => c)) fuel hfuel
    (by rw [profileHandler_passed]; simp [passedContext])
  rw [profileHandler_passed] at hserve
  have hbody : (ServeHTTP [Auth, profileHandler] fuel
      (requestWithAuthorization ("Bearer " ++ wireToken lib Hash.SHA256 j.Secret
        (generatedClaims j nowExp nowIat userID username email)))).Writer.body =
      [[("message", Value.str "Access granted"), ("user_id", Value.int 1)]] := by
    have := congrArg (fun x : Context => x.Writer.body) hserve
    simpa [ResponseWriter.WriteHeaderNow] using this
  refine ⟨_, generateTestToken_eq lib j nowExp nowIat userID username email, hacc, rfl,
    hbody, ?_⟩
  intro hu
  rw [hbody]
  intro h
  simp at h
  exact hu h.symm

/-- Witness of C5 on the reference library: the default test helper, a
token issued for user 2. -/
theorem auth_ignores_token_identity_witness :
    ∃ tok, (NewJWTHelper "test_jwt_secret_key_for_testing_only" 24).GenerateTestToken refLib
        1700000000000000000 1700000000000000000 2 "user2" "user2@test.com" = some tok ∧
      (ServeHTTP [Auth, profileHandler] 2
        (requestWithAuthorization ("Bearer " ++ tok))).Writer.body =
        [[("message", Value.str "Access granted"), ("user_id", Value.int 1)]] := by
  obtain ⟨tok, h1, _, _, h4, _⟩ := auth_ignores_token_identity refLib refLib_lawful
    (NewJWTHelper "test_jwt_secret_key_for_testing_only" 24)
    1700000000000000000 1700000000000000000 2 "user2" "user2@test.com" 2 (by decide)
  exact ⟨tok, h1, h4⟩

/-- C6: for every request `Auth` accepts, whatever its token, `Auth` hands
every context of the request to `Next` with `userID` set, the key then
exists and holds the integer 1, and on the test's chain the handler
behind `Auth` reports `user_id_exists = true` and `user_id = 1` with
status 200. -/
theorem auth_sets_userID_one (req : Request) (h : Accepts req = true) :
    (∀ (next : Context → Context) (c : Context), c.Request = req →
      Auth next c = next (c.Set "userID" (Value.int 1)) ∧
      (c.Set "userID" (Value.int 1)).Get "userID" = some (Value.int 1)) ∧
    (∀ fuel, 2 ≤ fuel →
      (ServeHTTP [Auth, userContextHandler] fuel req).Writer =
        { status := 200, written := true,
          body := [[("user_id", Value.int 1), ("user_id_exists", Value.bool true)]] }) := by
  refine ⟨fun next c hc => ⟨auth_pass_of_accepts req h next c hc, get_set_userID c _⟩, ?_⟩
  intro fuel hfuel
  have hserve := serve_accepted req h (userContextHandler (fun c => c)) fuel hfuel
    (by rw [userContextHandler_passed]; simp [passedContext])
  rw [userContextHandler_passed] at hserve
  have := congrArg (fun x : Context => x.Writer) hserve
  simpa [ResponseWriter.WriteHeaderNow] using this

/-- Witness of C6 for the header the test sends, `Bearer test_token`. -/
theorem auth_sets_userID_one_witness :
    (ServeHTTP [Auth, userContextHandler] 2 (requestWithAuthorization "Bearer test_token")).Writer
      = { status := 200, written := true,
          body := [[("user_id", Value.int 1), ("user_id_exists", Value.bool true)]] } :=
  (auth_sets_userID_one (requestWithAuthorization "Bearer test_token") (by decide)).2 2
    (by decide)

/-- C7: for every request `Auth` accepts, `Auth` does nothing but set
`userID` and call `Next`: the context it hands on has the writer (status,
written flag, body) and the chain position it received, so nothing is
written and nothing aborted; and on a chain `Auth`, `f` the response status
and body are those the handler `f` produces on the context passed to it. -/
theorem auth_passes_control (req : Request) (h : Accepts req = true) :
    (∀ (next : Context → Context) (c : Context), c.Request = req →
      Auth next c = next (c.Set "userID" (Value.int 1)) ∧
      (c.Set "userID" (Value.int 1)).Writer = c.Writer ∧
      (c.Set "userID" (Value.int 1)).index = c.index) ∧
    (passedContext req).Writer = ResponseWriter.reset ∧
    (passedContext req).IsAborted = false ∧
    (∀ (f : Context → Context) (fuel : Nat), 2 ≤ fuel → 1 ≤ (f (passedContext req)).index →
      (ServeHTTP [Auth, fun _ => f] fuel req).Writer.status =
        (f (passedContext req)).Writer.status ∧
      (ServeHTTP [Auth, fun _ => f] fuel req).Writer.body =
        (f (passedContext req)).Writer.body) := by
  refine ⟨fun next c hc => ⟨auth_pass_of_accepts req h next c hc, rfl, rfl⟩, rfl, ?_, ?_⟩
  · simp [passedContext, Context.IsAborted, abortIndex]
  · intro f fuel hfuel hidx
    rw [serve_accepted req h f fuel hfuel hidx]
    exact ⟨rfl, rfl⟩

/-- Witness of C7 for the header the test sends, `Bearer valid_token`, and
the test's handler answering 200 `request processed`. -/
theorem auth_passes_control_witness :
    (ServeHTTP [Auth, fun _ c => c.JSON StatusOK [("message", Value.str "request processed")]]
      2 (requestWithAuthorization "Bearer valid_token")).Writer.status = 200 ∧
    (ServeHTTP [Auth, fun _ c => c.JSON StatusOK [("message", Value.str "request processed")]]
      2 (requestWithAuthorization "Bearer valid_token")).Writer.body =
      [[("message", Value.str "request processed")]] := by
  have h := (auth_passes_control (requestWithAuthorization "Bearer valid_token")
    (by decide)).2.2.2
    (fun c => c.JSON StatusOK [("message", Value.str "request processed")]) 2 (by decide)
    (by decide)
  exact ⟨h.1.trans (by decide), h.2.trans (by decide)⟩

/-- C8: every run of `Auth`, on every context, ends in exactly one of the
outcomes `Authenticated` and `Rejected`. In the first the identity is
attached and the context goes to `Next` with its writer and chain position
untouched (not aborted by `Auth`). In the second, whatever `Next` is, the
context is aborted, `Keys` are as they were (no `userID` put), the loop of
the enclosing `Next` runs no further handler of any chain gin admits, and
the status is 401 (gin keeps an earlier status only when a response had
been written before `Auth` ran). -/
theorem auth_terminal_outcomes (c : Context) :
    ((Authenticated c ∧ ¬ Rejected c) ∨ (Rejected c ∧ ¬ Authenticated c)) ∧
    (Authenticated c →
      (c.Set "userID" (Value.int 1)).Get "userID" = some (Value.int 1) ∧
      (c.Set "userID" (Value.int 1)).index = c.index ∧
      (c.Set "userID" (Value.int 1)).Writer = c.Writer) ∧
    (Rejected c → ∀ next : Context → Context,
      (Auth next c).IsAborted = true ∧
      (Auth next c).Keys = c.Keys ∧
      (∀ (handlers : List HandlerFunc) (fuel : Nat), (handlers.length : Int) < abortIndex →
        runChain handlers fuel (Auth next c).incr = (Auth next c).incr) ∧
      (c.Writer.written = false → (Auth next c).Writer.status = 401)) := by
  refine ⟨?_, fun _ => ⟨get_set_userID c _, rfl, rfl⟩, ?_⟩
  · rcases auth_cases c with ha | hr
    · exact Or.inl ⟨ha, fun hr => not_authenticated_and_rejected c ha hr⟩
    · exact Or.inr ⟨hr, fun ha => not_authenticated_and_rejected c ha hr⟩
  · rintro ⟨msg, hr⟩ next
    rw [hr next]
    have hf := json_abort_fields c [("error", Value.str msg)]
    refine ⟨?_, hf.2.1, ?_, hf.2.2.2.2.2⟩
    · simp [Context.IsAborted, hf.2.2.1]
    · intro handlers fuel hlen
      exact runChain_aborted handlers fuel _ hlen (by simp [Context.incr, hf.2.2.1])

/-- Instance of C8 on the fresh context of a request without headers: the
run is `Rejected` and not `Authenticated`, or the reverse. -/
theorem auth_terminal_outcomes_witness :
    (Authenticated (newContext { Header := [] }) ∧ ¬ Rejected (newContext { Header := [] })) ∨
    (Rejected (newContext { Header := [] }) ∧ ¬ Authenticated (newContext { Header := [] })) :=
  (auth_terminal_outcomes (newContext { Header := [] })).1

/-- Counterexample to C9 as stated: the response `Auth` sends for the
malformed header `Token abc` is not the response it sends for the empty
token of `Bearer `; the statuses agree, the bodies differ. -/
theorem auth_rejections_distinguishable :
    (ServeHTTP [Auth, profileHandler] 2 (requestWithAuthorization "Token abc")).Writer ≠
      (ServeHTTP [Auth, profileHandler] 2 (requestWithAuthorization "Bearer ")).Writer ∧
    (ServeHTTP [Auth, profileHandler] 2 (requestWithAuthorization "Token abc")).Writer.status =
      (ServeHTTP [Auth, profileHandler] 2 (requestWithAuthorization "Bearer ")).Writer.status ∧
    (ServeHTTP [Auth, profileHandler] 2 (requestWithAuthorization "Token abc")).Writer.body =
      [[("error", Value.str "Invalid authorization header format")]] ∧
    (ServeHTTP [Auth, profileHandler] 2 (requestWithAuthorization "Bearer ")).Writer.body =
      [[("error", Value.str "Invalid token")]] := by
  decide

/-- C9 (as amended): for every request with a malformed `Authorization`
header and every request with the empty token of `Bearer `, `Auth` sends
status 401 and a body of one document with the single field `error` in
both cases, and leaves the same context apart from that field's message,
which names the failed check: `Invalid authorization header format` for
the first, `Invalid token` for the second. -/
theorem auth_rejections_differ_in_message_only (req1 req2 : Request)
    (rest : List HandlerFunc) (fuel : Nat)
    (hne : req1.Header.Get "Authorization" ≠ "")
    (hfmt : ¬ ((strings.Split (req1.Header.Get "Authorization") ' ').length = 2 ∧
               (strings.Split (req1.Header.Get "Authorization") ' ').getD 0 "" = "Bearer"))
    (hv : req2.Header.Get "Authorization" = "Bearer ")
    (hlen : (((Auth :: rest).length : Nat) : Int) < abortIndex) (hfuel : 1 ≤ fuel) :
    ServeHTTP (Auth :: rest) fuel req1 =
      rejectedContext req1 "Invalid authorization header format" ∧
    ServeHTTP (Auth :: rest) fuel req2 = rejectedContext req2 "Invalid token" ∧
    (ServeHTTP (Auth :: rest) fuel req1).Writer.status = 401 ∧
    (ServeHTTP (Auth :: rest) fuel req2).Writer.status = 401 ∧
    (ServeHTTP (Auth :: rest) fuel req1).Writer.body ≠
      (ServeHTTP (Auth :: rest) fuel req2).Writer.body := by
  have hget : Context.GetHeader { newContext req2 with index := 0 } "Authorization" =
      "Bearer " := hv
  have hs1 := serve_rejected req1 rest fuel "Invalid authorization header format" hlen hfuel
    (fun next => Auth_malformed next { newContext req1 with index := 0 } hne hfmt)
  have hs2 := serve_rejected req2 rest fuel "Invalid token" hlen hfuel
    (fun next => Auth_empty_token next { newContext req2 with index := 0 }
      (by rw [hget]; decide) (by rw [hget]; decide) (by rw [hget]; decide))
  rw [hs1, hs2]
  refine ⟨rfl, rfl, rfl, rfl, ?_⟩
  simp [rejectedContext, unauthorized]

/-- Witness of C9 (amended) for the headers `Token abc` and `Bearer `. -/
theorem auth_rejections_differ_in_message_only_witness :
    ServeHTTP [Auth, profileHandler] 2 (requestWithAuthorization "Token abc") =
      rejectedContext (requestWithAuthorization "Token abc")
        "Invalid authorization header format" ∧
    ServeHTTP [Auth, profileHandler] 2 (requestWithAuthorization "Bearer ") =
      rejectedContext (requestWithAuthorization "Bearer ") "Invalid token" :=
  let h := auth_rejections_differ_in_message_only (requestWithAuthorization "Token abc")
    (requestWithAuthorization "Bearer ") [profileHandler] 2 (by decide) (by decide)
    (by decide) (by decide) (by decide)
  ⟨h.1, h.2.1⟩

/-! ## Lemmas: the content of a token -/

/-- The unverified parse of the wire form of exact claims signed with an
HMAC method: the header names the method and the claims come back. -/
theorem parseUnverified_wireToken (lib : JWTLib) (hl : lib.Lawful) (hash : Hash) (key : Bytes)
    (c : Claims) (hc : c.JSONExact) :
    ParseUnverified lib (wireToken lib hash key c) =
      Except.ok ({ Raw := wireToken lib hash key c, Method := SigningMethod.HMAC hash,
                   Header := jwtHeader (SigningMethod.HMAC hash).Alg, Claims := c,
                   Signature := [], Valid := false },
                 [lib.EncodeSegment (lib.MarshalHeader (jwtHeader (SigningMethod.HMAC hash).Alg)),
                  lib.EncodeSegment (lib.MarshalClaims c),
                  lib.EncodeSegment (lib.HMAC hash key
                    (lib.EncodeSegment
                      (lib.MarshalHeader (jwtHeader (SigningMethod.HMAC hash).Alg)) ++ "." ++
                      lib.EncodeSegment (lib.MarshalClaims c)))]) := by
  have hsplit := split_dots
    (lib.EncodeSegment (lib.MarshalHeader (jwtHeader (SigningMethod.HMAC hash).Alg)))
    (lib.EncodeSegment (lib.MarshalClaims c))
    (lib.EncodeSegment (lib.HMAC hash key
      (lib.EncodeSegment (lib.MarshalHeader (jwtHeader (SigningMethod.HMAC hash).Alg)) ++ "." ++
        lib.EncodeSegment (lib.MarshalClaims c))))
    (base64url_no_dot lib hl _) (base64url_no_dot lib hl _) (base64url_no_dot lib hl _)
  have halg : (jwtHeader (SigningMethod.HMAC hash).Alg).lookup "alg" =
      some (Value.str (SigningMethod.HMAC hash).Alg) := rfl
  unfold wireToken
  simp only [ParseUnverified, hsplit]
  simp [hl.decode_encode, hl.header_roundtrip, hl.claims_roundtrip c hc, halg,
    getSigningMethod_alg]

theorem generateExpiredToken_eq (lib : JWTLib) (j : JWTHelper) (nowExp nowIat : Time)
    (userID : Int) (username email : String) :
    j.GenerateExpiredToken lib nowExp nowIat userID username email =
      some (wireToken lib Hash.SHA256 j.Secret
        (expiredClaims j nowExp nowIat userID username email)) := rfl

theorem int64_shift_range (a : Int) (d : Int) (ha1 : -(2 ^ 63) ≤ a) (ha2 : a < 2 ^ 63)
    (hd1 : -7200000000000 ≤ d) (hd2 : d ≤ 0) :
    -18446744073709551616 ≤ a + d ∧ a + d ≤ 18446744073709551616 := by
  norm_num at ha1 ha2
  omega

theorem expiredClaims_exact (j : JWTHelper) (nowExp nowIat : Time) (userID : Int)
    (username email : String) (hid : IsGoInt userID)
    (h1 : nowExp.IsUnixNano) (h2 : nowIat.IsUnixNano) :
    (expiredClaims j nowExp nowIat userID username email).JSONExact := by
  refine ⟨hid, ?_, ?_, ?_⟩
  · intro d hd
    simp only [expiredClaims, Option.some.injEq] at hd
    subst hd
    have hs := int64_shift_range nowExp (-3600000000000) h1.1 h1.2 (by norm_num) (by norm_num)
    exact newNumericDate_exact _ hs.1 hs.2
  · intro d hd
    simp [expiredClaims] at hd
  · intro d hd
    simp only [expiredClaims, Option.some.injEq] at hd
    subst hd
    have hs := int64_shift_range nowIat (-2 * 3600000000000) h2.1 h2.2 (by norm_num)
      (by norm_num)
    exact newNumericDate_exact _ hs.1 hs.2

theorem truncated_le (x : Int) : x - x % 1000000000 ≤ x := by
  omega

theorem expired_not_before (now x : Int) (h : x ≤ now) :
    ¬ now < x + -3600000000000 - (x + -3600000000000) % 1000000000 := by
  omega

/-- The outcome of `Validate` on claims whose expiry is not after the
clock: the causes start with `Expired`. -/
theorem validate_expired (c : Claims) (now : Time) (d : NumericDate)
    (hd : c.RegisteredClaims.ExpiresAt = some d) (hle : d.Time ≤ now) :
    ∃ rest, Validate c now = ClaimError.Expired :: rest := by
  have hb : Time.Before now d.Time = false := by
    unfold Time.Before
    simp only [decide_eq_false_iff_not, not_lt]
    exact hle
  unfold Validate
  rw [hd]
  simp only [hb]
  exact ⟨_, rfl⟩

theorem truncated_difference (now e : Int) :
    e - 1000000000 < (now + e - (now + e) % 1000000000) - (now - now % 1000000000) ∧
    (now + e - (now + e) % 1000000000) - (now - now % 1000000000) < e + 1000000000 ∧
    (e % 1000000000 = 0 →
      (now + e - (now + e) % 1000000000) - (now - now % 1000000000) = e) := by
  omega

/-! ## Theorems: the claims of a token -/

/-- C11 (as amended): for every lawful library, helper, user id (a Go
`int`), username and email, and clock readings within the `UnixNano`
range, the token `GenerateTestToken` returns parses to a header whose
`alg` is `HS256` and to claims with `user_id`, `username` and `email` as
given, issuer `h.Issuer`, subject the decimal string of the id,
`issued_at` the second clock reading rounded down to a whole second, and
`expires_at` the first clock reading plus `h.Expire`, rounded down to a
whole second. When both readings are the same instant, `expires_at -
issued_at` is within a second of `h.Expire`, and equal to it when
`h.Expire` is a whole number of seconds. Every helper made by
`NewJWTHelper` has the issuer `demo-gin-test`. -/
theorem generated_token_claims (lib : JWTLib) (hl : lib.Lawful) (j : JWTHelper)
    (nowExp nowIat : Time) (userID : Int) (username email : String)
    (hid : IsGoInt userID) (hexp : IsGoInt j.Expire)
    (h1 : nowExp.IsUnixNano) (h2 : nowIat.IsUnixNano) :
    (∃ tok token parts,
      j.GenerateTestToken lib nowExp nowIat userID username email = some tok ∧
      ParseUnverified lib tok = Except.ok (token, parts) ∧
      token.Header.lookup "alg" = some (Value.str "HS256") ∧
      token.Method = SigningMethodHS256 ∧
      token.Claims.UserID = userID ∧
      token.Claims.Username = username ∧
      token.Claims.Email = email ∧
      token.Claims.RegisteredClaims.Issuer = j.Issuer ∧
      token.Claims.RegisteredClaims.Subject = formatInt userID ∧
      token.Claims.RegisteredClaims.IssuedAt = some { Time := nowIat - nowIat % Second } ∧
      token.Claims.RegisteredClaims.ExpiresAt =
        some { Time := nowExp + j.Expire - (nowExp + j.Expire) % Second }) ∧
    (nowExp = nowIat →
      j.Expire - Second <
        (nowExp + j.Expire - (nowExp + j.Expire) % Second) - (nowIat - nowIat % Second) ∧
      (nowExp + j.Expire - (nowExp + j.Expire) % Second) - (nowIat - nowIat % Second) <
        j.Expire + Second ∧
      (j.Expire % Second = 0 →
        (nowExp + j.Expire - (nowExp + j.Expire) % Second) - (nowIat - nowIat % Second) =
          j.Expire)) ∧
    (∀ (secret : String) (expireHours : Int),
      (NewJWTHelper secret expireHours).Issuer = "demo-gin-test") := by
  refine ⟨⟨_, _, _, generateTestToken_eq lib j nowExp nowIat userID username email,
    parseUnverified_wireToken lib hl Hash.SHA256 j.Secret _
      (generatedClaims_exact j nowExp nowIat userID username email hid hexp h1 h2),
    rfl, rfl, rfl, rfl, rfl, rfl, rfl, rfl, rfl⟩, ?_, fun _ _ => rfl⟩
  intro h
  subst h
  exact truncated_difference nowExp j.Expire

/-- Witness of C11 (amended) on the reference library: the default test
helper (24 hours), user 1, both clock readings half a second past
1700000000 s; the issue time in the token is 1700000000 s. -/
theorem generated_token_claims_witness :
    ∃ tok token parts,
      (NewJWTHelper "test_jwt_secret_key_for_testing_only" 24).GenerateTestToken refLib
        1700000000500000000 1700000000500000000 1 "user1" "user1@test.com" = some tok ∧
      ParseUnverified refLib tok = Except.ok (token, parts) ∧
      token.Claims.RegisteredClaims.IssuedAt = some { Time := 1700000000000000000 } := by
  obtain ⟨⟨tok, token, parts, h1, h2, _, _, _, _, _, _, _, h10, _⟩, _⟩ :=
    generated_token_claims refLib refLib_lawful
      (NewJWTHelper "test_jwt_secret_key_for_testing_only" 24)
      1700000000500000000 1700000000500000000 1 "user1" "user1@test.com"
      (by unfold IsGoInt; norm_num) (wrapInt64_range _)
      (by unfold Time.IsUnixNano; norm_num) (by unfold Time.IsUnixNano; norm_num)
  refine ⟨tok, token, parts, h1, h2, ?_⟩
  rw [h10]
  unfold Second
  norm_num

/-- Counterexample to C11 as stated (reference library, default test
helper, user 1, both clock readings `now`, half a second past
1700000000 s): the token `GenerateTestToken` returns carries claims whose
`issued_at` is not `now` and whose `expires_at` is not `now + h.Expire`. -/
theorem generated_token_claims_counterexample :
    ∃ tok token parts,
      (NewJWTHelper "test_jwt_secret_key_for_testing_only" 24).GenerateTestToken refLib
        1700000000500000000 1700000000500000000 1 "user1" "user1@test.com" = some tok ∧
      ParseUnverified refLib tok = Except.ok (token, parts) ∧
      token.Claims.RegisteredClaims.IssuedAt ≠ some { Time := 1700000000500000000 } ∧
      token.Claims.RegisteredClaims.ExpiresAt ≠
        some { Time := 1700000000500000000 +
          (NewJWTHelper "test_jwt_secret_key_for_testing_only" 24).Expire } := by
  have hE : (NewJWTHelper "test_jwt_secret_key_for_testing_only" 24).Expire =
      86400000000000 := by
    rw [newJWTHelper_expire _ _ (by norm_num) (by norm_num)]
    unfold Hour
    norm_num
  refine ⟨_, _, _, generateTestToken_eq refLib _ _ _ _ _ _,
    parseUnverified_wireToken refLib refLib_lawful Hash.SHA256 _ _
      (generatedClaims_exact _ _ _ _ _ _ (by unfold IsGoInt; norm_num) (wrapInt64_range _)
        (by unfold Time.IsUnixNano; norm_num) (by unfold Time.IsUnixNano; norm_num)), ?_, ?_⟩
  · simp only [generatedClaims, NewNumericDate, Second]
    norm_num
  · simp only [generatedClaims, NewNumericDate, Second, Time.Add, hE]
    norm_num

/-! ## Theorems: expiry and the signing method -/

/-- C12: for every lawful library and helper, a token signed under the
helper's secret whose `expires_at` is not after the clock is rejected by
`ValidateTestToken` with the invalid-claims error whose first cause is
`Expired`, never with the malformed-token error; in particular, for every
user id (a Go `int`), username and email and clock readings within the
`UnixNano` range, the token `GenerateExpiredToken` returns is rejected at
every time at or after its issuance, with `Expired` as the only cause. -/
theorem expired_token_rejected (lib : JWTLib) (hl : lib.Lawful) (j : JWTHelper) :
    (∀ (hash : Hash) (c : Claims) (d : NumericDate) (now : Time), c.JSONExact →
      c.RegisteredClaims.ExpiresAt = some d → d.Time ≤ now →
      ∃ rest, j.ValidateTestToken lib now (wireToken lib hash j.Secret c) =
        Except.error (TokenError.InvalidClaims (ClaimError.Expired :: rest)) ∧
        j.ValidateTestToken lib now (wireToken lib hash j.Secret c) ≠
          Except.error TokenError.Malformed) ∧
    (∀ (nowExp nowIat now : Time) (userID : Int) (username email : String),
      IsGoInt userID → nowExp.IsUnixNano → nowIat.IsUnixNano → nowExp ≤ now →
      ∃ tok, j.GenerateExpiredToken lib nowExp nowIat userID username email = some tok ∧
        j.ValidateTestToken lib now tok =
          Except.error (TokenError.InvalidClaims [ClaimError.Expired])) := by
  constructor
  · intro hash c d now hc hd hle
    obtain ⟨rest, hv⟩ := validate_expired c now d hd hle
    refine ⟨rest, ?_, ?_⟩
    · rw [validate_wireToken lib hl j hash c hc now, hv]
    · rw [validate_wireToken lib hl j hash c hc now, hv]
      simp
  · intro nowExp nowIat now userID username email hid h1 h2 hle
    refine ⟨_, generateExpiredToken_eq lib j nowExp nowIat userID username email, ?_⟩
    rw [validate_wireToken lib hl j Hash.SHA256 _
      (expiredClaims_exact j nowExp nowIat userID username email hid h1 h2) now]
    have hlt : ¬ now < nowExp + -3600000000000 - (nowExp + -3600000000000) % 1000000000 :=
      expired_not_before now nowExp hle
    have hv : Validate (expiredClaims j nowExp nowIat userID username email) now =
        [ClaimError.Expired] := by
      simp only [Validate, expiredClaims, NewNumericDate, Time.Before, Time.Add, Hour, Second]
      simp [hlt]
    rw [hv]

/-- Witness of C12 on the reference library: the default test helper, an
expired token for user 1 validated at the instant it was issued. -/
theorem expired_token_rejected_witness :
    ∃ tok, (NewJWTHelper "test_jwt_secret_key_for_testing_only" 24).GenerateExpiredToken refLib
        1700000000000000000 1700000000000000000 1 "user1" "user1@test.com" = some tok ∧
      (NewJWTHelper "test_jwt_secret_key_for_testing_only" 24).ValidateTestToken refLib
        1700000000000000000 tok =
          Except.error (TokenError.InvalidClaims [ClaimError.Expired]) :=
  (expired_token_rejected refLib refLib_lawful
    (NewJWTHelper "test_jwt_secret_key_for_testing_only" 24)).2
    1700000000000000000 1700000000000000000 1700000000000000000 1 "user1" "user1@test.com"
    (by unfold IsGoInt; norm_num) (by unfold Time.IsUnixNano; norm_num)
    (by unfold Time.IsUnixNano; norm_num) (le_refl _)

/-- A token `ValidateTestToken` accepts has parsed to a method of the HMAC
family. -/
theorem validated_method_hmac (lib : JWTLib) (j : JWTHelper) (now : Time) (tok : String)
    (claims : Claims) (h : j.ValidateTestToken lib now tok = Except.ok claims) :
    ∃ token parts hash, ParseUnverified lib tok = Except.ok (token, parts) ∧
      token.Method = SigningMethod.HMAC hash := by
  unfold JWTHelper.ValidateTestToken ParseWithClaims at h
  cases hpu : ParseUnverified lib tok with
  | error e => simp [hpu] at h
  | ok r =>
    obtain ⟨token, parts⟩ := r
    cases hm : token.Method with
    | HMAC hash => exact ⟨token, parts, hash, rfl, hm⟩
    | other alg =>
      exfalso
      revert h
      simp only [hpu, hm]
      cases lib.DecodeSegment (parts.getD 2 "") <;> simp

/-- C14 (as amended): `ValidateTestToken` accepts only tokens whose header
algorithm names a method of the HMAC family (HS256, HS384, HS512), and
within that family it does not ask for the issuer's HS256: for every
lawful library, a token with exact claims valid at the clock, signed
with any of the three methods under the helper's secret, is accepted and
its claims are returned. -/
theorem validate_accepts_hmac_family (lib : JWTLib) (hl : lib.Lawful) (j : JWTHelper)
    (now : Time) :
    (∀ (tok : String) (claims : Claims), j.ValidateTestToken lib now tok = Except.ok claims →
      ∃ token parts hash, ParseUnverified lib tok = Except.ok (token, parts) ∧
        token.Method = SigningMethod.HMAC hash ∧
        (token.Method.Alg = "HS256" ∨ token.Method.Alg = "HS384" ∨
          token.Method.Alg = "HS512")) ∧
    (∀ (hash : Hash) (c : Claims), c.JSONExact → Validate c now = [] →
      j.ValidateTestToken lib now (wireToken lib hash j.Secret c) = Except.ok c ∧
      ∃ token parts, ParseUnverified lib (wireToken lib hash j.Secret c) =
          Except.ok (token, parts) ∧
        token.Header.lookup "alg" = some (Value.str (SigningMethod.HMAC hash).Alg)) := by
  constructor
  · intro tok claims h
    obtain ⟨token, parts, hash, hp, hm⟩ := validated_method_hmac lib j now tok claims h
    refine ⟨token, parts, hash, hp, hm, ?_⟩
    rw [hm]
    cases hash
    · exact Or.inl rfl
    · exact Or.inr (Or.inl rfl)
    · exact Or.inr (Or.inr rfl)
  · intro hash c hc hv
    refine ⟨?_, _, _, parseUnverified_wireToken lib hl hash j.Secret c hc, rfl⟩
    rw [validate_wireToken lib hl j hash c hc now, hv]

/-- Witness of C14 (amended) on the reference library: an HS512 token
with the claims of the default test helper for user 1, signed under that
helper's secret, is accepted by the helper. -/
theorem validate_accepts_hmac_family_witness :
    (NewJWTHelper "test_jwt_secret_key_for_testing_only" 24).ValidateTestToken refLib
      1700000000000000000
      (wireToken refLib Hash.SHA512
        (NewJWTHelper "test_jwt_secret_key_for_testing_only" 24).Secret
        (generatedClaims (NewJWTHelper "test_jwt_secret_key_for_testing_only" 24)
          1700000000000000000 1700000000000000000 1 "user1" "user1@test.com")) =
      Except.ok (generatedClaims (NewJWTHelper "test_jwt_secret_key_for_testing_only" 24)
          1700000000000000000 1700000000000000000 1 "user1" "user1@test.com") :=
  ((validate_accepts_hmac_family refLib refLib_lawful
    (NewJWTHelper "test_jwt_secret_key_for_testing_only" 24) 1700000000000000000).2
    Hash.SHA512 _
    (generatedClaims_exact _ _ _ _ _ _ (by unfold IsGoInt; norm_num) (wrapInt64_range _)
      (by unfold Time.IsUnixNano; norm_num) (by unfold Time.IsUnixNano; norm_num))
    (by
      rw [validate_generatedClaims, newJWTHelper_expire _ _ (by norm_num) (by norm_num)]
      unfold Hour Second
      norm_num)).1

/-- Counterexample to C14 as stated (reference library, default test
helper, clock at 1700000000 s): a token whose header algorithm is HS384,
not the issuer's HS256, well-formed, unexpired and signed with HS384 under
the helper's secret, is accepted by `ValidateTestToken`. -/
theorem validate_accepts_hs384_counterexample :
    (∃ token parts, ParseUnverified refLib
        (wireToken refLib Hash.SHA384
          (NewJWTHelper "test_jwt_secret_key_for_testing_only" 24).Secret
          (generatedClaims (NewJWTHelper "test_jwt_secret_key_for_testing_only" 24)
            1700000000000000000 1700000000000000000 1 "user1" "user1@test.com")) =
          Except.ok (token, parts) ∧
        token.Header.lookup "alg" = some (Value.str "HS384")) ∧
    (NewJWTHelper "test_jwt_secret_key_for_testing_only" 24).ValidateTestToken refLib
      1700000000000000000
      (wireToken refLib Hash.SHA384
        (NewJWTHelper "test_jwt_secret_key_for_testing_only" 24).Secret
        (generatedClaims (NewJWTHelper "test_jwt_secret_key_for_testing_only" 24)
          1700000000000000000 1700000000000000000 1 "user1" "user1@test.com")) =
      Except.ok (generatedClaims (NewJWTHelper "test_jwt_secret_key_for_testing_only" 24)
          1700000000000000000 1700000000000000000 1 "user1" "user1@test.com") := by
  have hc := generatedClaims_exact (NewJWTHelper "test_jwt_secret_key_for_testing_only" 24)
    1700000000000000000 1700000000000000000 1 "user1" "user1@test.com"
    (by unfold IsGoInt; norm_num) (wrapInt64_range _)
    (by unfold Time.IsUnixNano; norm_num) (by unfold Time.IsUnixNano; norm_num)
  refine ⟨⟨_, _, parseUnverified_wireToken refLib refLib_lawful Hash.SHA384 _ _ hc, rfl⟩, ?_⟩
  rw [validate_wireToken refLib refLib_lawful _ Hash.SHA384 _ hc, validate_generatedClaims,
    newJWTHelper_expire _ _ (by norm_num) (by norm_num)]
  unfold Hour Second
  norm_num

/-! ## Lemmas: validation on the memory -/

theorem refHMACLib_lawful : refHMACLib.Lawful :=
  ⟨refLib_decode_encode, refLib_encode_alphabet, refLib_header_roundtrip,
    fun c _ => refLib_claims_roundtrip c⟩

theorem refHMACLib_standard : refHMACLib.StandardHMAC :=
  ⟨refSum, fun _ _ _ => rfl⟩

/-- A key shorter than the hash block and the same key followed by a zero
byte give the same key block. -/
theorem hmacKeyBlock_append_zero (sum : Hash → Bytes → Bytes) (hash : Hash) (key : Bytes)
    (h : key.length < hash.BlockSize) :
    hmacKeyBlock sum hash (key ++ [0]) = hmacKeyBlock sum hash key := by
  have h1 : ¬ hash.BlockSize < (key ++ [0]).length := by
    simp only [List.length_append, List.length_singleton]; omega
  have h2 : ¬ hash.BlockSize < key.length := by omega
  obtain ⟨n, hn⟩ : ∃ n, hash.BlockSize - key.length = n + 1 :=
    ⟨hash.BlockSize - key.length - 1, by omega⟩
  have hn' : hash.BlockSize - (key ++ [0]).length = n := by
    simp only [List.length_append, List.length_singleton]; omega
  simp only [hmacKeyBlock, h1, h2, if_false, hn, hn', List.replicate_succ, List.append_assoc,
    List.singleton_append]

/-- Under the HMAC construction, a key shorter than the hash block and the
same key followed by a zero byte give the same MAC of every message. -/
theorem standardHMAC_append_zero (lib : JWTLib) (hs : lib.StandardHMAC) (hash : Hash)
    (key : Bytes) (message : String) (h : key.length < hash.BlockSize) :
    lib.HMAC hash (key ++ [0]) message = lib.HMAC hash key message := by
  obtain ⟨sum, hsum⟩ := hs
  rw [hsum, hsum]
  unfold hmacSum
  rw [hmacKeyBlock_append_zero sum hash key h]

/-- The method `ValidateTestToken` on the wire form of exact claims signed
with an HMAC method under any key: the token passes the signature check
exactly when that key and the helper's secret give the same MAC of the
signing string, and the outcome is then that of `Validate`. -/
theorem validate_wireToken_key (lib : JWTLib) (hl : lib.Lawful) (j : JWTHelper) (hash : Hash)
    (key : Bytes) (c : Claims) (hc : c.JSONExact) (now : Time) :
    j.ValidateTestToken lib now (wireToken lib hash key c) =
      if lib.HMAC hash key
          (lib.EncodeSegment (lib.MarshalHeader (jwtHeader (SigningMethod.HMAC hash).Alg)) ++
            "." ++ lib.EncodeSegment (lib.MarshalClaims c)) =
        lib.HMAC hash j.Secret
          (lib.EncodeSegment (lib.MarshalHeader (jwtHeader (SigningMethod.HMAC hash).Alg)) ++
            "." ++ lib.EncodeSegment (lib.MarshalClaims c)) then
        match Validate c now with
        | [] => Except.ok c
        | e :: es => Except.error (TokenError.InvalidClaims (e :: es))
      else Except.error TokenError.SignatureInvalid := by
  have hp := parse_segments lib
    (lib.EncodeSegment (lib.MarshalHeader (jwtHeader (SigningMethod.HMAC hash).Alg)))
    (lib.EncodeSegment (lib.MarshalClaims c))
    (lib.EncodeSegment (lib.HMAC hash key
      (lib.EncodeSegment (lib.MarshalHeader (jwtHeader (SigningMethod.HMAC hash).Alg)) ++ "." ++
        lib.EncodeSegment (lib.MarshalClaims c))))
    (SigningMethod.HMAC hash).Alg (SigningMethod.HMAC hash)
    _ _ _ j.Secret (jwtHeader (SigningMethod.HMAC hash).Alg) c now
    (fun token =>
      match token.Method with
      | SigningMethod.HMAC _ => some j.Secret
      | SigningMethod.other _ => none)
    (base64url_no_dot lib hl _) (base64url_no_dot lib hl _) (base64url_no_dot lib hl _)
    (hl.decode_encode _) (hl.header_roundtrip _) rfl (hl.decode_encode _)
    (hl.claims_roundtrip c hc) (getSigningMethod_alg hash) (hl.decode_encode _) rfl
  unfold JWTHelper.ValidateTestToken wireToken
  rw [hp]
  simp only [SigningMethod.Verify]
  by_cases hmac : lib.HMAC hash key
      (lib.EncodeSegment (lib.MarshalHeader (jwtHeader (SigningMethod.HMAC hash).Alg)) ++
        "." ++ lib.EncodeSegment (lib.MarshalClaims c)) =
    lib.HMAC hash j.Secret
      (lib.EncodeSegment (lib.MarshalHeader (jwtHeader (SigningMethod.HMAC hash).Alg)) ++
        "." ++ lib.EncodeSegment (lib.MarshalClaims c))
  · simp only [hmac, decide_True, Bool.true_eq_false, if_false, if_true]
    cases hval : Validate c now <;> simp
  · simp [hmac]

/-! ## Theorems: helpers and secrets -/

/-- C13 (as amended): for every lawful library, two helpers, and a token
`GenerateTestToken` of the first returns (user id a Go `int`, clock
readings within the `UnixNano` range): the second helper rejects the token
as a signature mismatch, returning no claims, exactly when the two
secrets give different MACs of the token's signing string; when they give
the same MAC, in particular when the secrets are equal, it returns the
token's claims as long as the token is unexpired. Different secrets need
not give different MACs: under the HMAC construction of `crypto/hmac` a
secret shorter than the hash block and the same secret followed by a zero
byte are interchangeable. -/
theorem cross_helper_validation (lib : JWTLib) (hl : lib.Lawful) (j1 j2 : JWTHelper)
    (nowExp nowIat now : Time) (userID : Int) (username email : String)
    (hid : IsGoInt userID) (hexp : IsGoInt j1.Expire)
    (h1 : nowExp.IsUnixNano) (h2 : nowIat.IsUnixNano) :
    ∃ tok, j1.GenerateTestToken lib nowExp nowIat userID username email = some tok ∧
      (lib.HMAC Hash.SHA256 j1.Secret
          ((NewWithClaims SigningMethodHS256
            (generatedClaims j1 nowExp nowIat userID username email)).SigningString lib) ≠
        lib.HMAC Hash.SHA256 j2.Secret
          ((NewWithClaims SigningMethodHS256
            (generatedClaims j1 nowExp nowIat userID username email)).SigningString lib) →
        j2.ValidateTestToken lib now tok = Except.error TokenError.SignatureInvalid) ∧
      (lib.HMAC Hash.SHA256 j1.Secret
          ((NewWithClaims SigningMethodHS256
            (generatedClaims j1 nowExp nowIat userID username email)).SigningString lib) =
        lib.HMAC Hash.SHA256 j2.Secret
          ((NewWithClaims SigningMethodHS256
            (generatedClaims j1 nowExp nowIat userID username email)).SigningString lib) →
        now < nowExp + j1.Expire - (nowExp + j1.Expire) % Second →
        j2.ValidateTestToken lib now tok =
          Except.ok (generatedClaims j1 nowExp nowIat userID username email)) ∧
      (j1.Secret = j2.Secret →
        now < nowExp + j1.Expire - (nowExp + j1.Expire) % Second →
        j2.ValidateTestToken lib now tok =
          Except.ok (generatedClaims j1 nowExp nowIat userID username email)) ∧
      (lib.StandardHMAC → j1.Secret.length < 64 → j2.Secret = j1.Secret ++ [0] →
        now < nowExp + j1.Expire - (nowExp + j1.Expire) % Second →
        j2.ValidateTestToken lib now tok =
          Except.ok (generatedClaims j1 nowExp nowIat userID username email)) := by
  have hc := generatedClaims_exact j1 nowExp nowIat userID username email hid hexp h1 h2
  have hv : j2.ValidateTestToken lib now (wireToken lib Hash.SHA256 j1.Secret
        (generatedClaims j1 nowExp nowIat userID username email)) =
      if lib.HMAC Hash.SHA256 j1.Secret
          ((NewWithClaims SigningMethodHS256
            (generatedClaims j1 nowExp nowIat userID username email)).SigningString lib) =
        lib.HMAC Hash.SHA256 j2.Secret
          ((NewWithClaims SigningMethodHS256
            (generatedClaims j1 nowExp nowIat userID username email)).SigningString lib) then
        match Validate (generatedClaims j1 nowExp nowIat userID username email) now with
        | [] => Except.ok (generatedClaims j1 nowExp nowIat userID username email)
        | e :: es => Except.error (TokenError.InvalidClaims (e :: es))
      else Except.error TokenError.SignatureInvalid :=
    validate_wireToken_key lib hl j2 Hash.SHA256 j1.Secret _ hc now
  have hsame : lib.HMAC Hash.SHA256 j1.Secret
        ((NewWithClaims SigningMethodHS256
          (generatedClaims j1 nowExp nowIat userID username email)).SigningString lib) =
      lib.HMAC Hash.SHA256 j2.Secret
        ((NewWithClaims SigningMethodHS256
          (generatedClaims j1 nowExp nowIat userID username email)).SigningString lib) →
      now < nowExp + j1.Expire - (nowExp + j1.Expire) % Second →
      j2.ValidateTestToken lib now (wireToken lib Hash.SHA256 j1.Secret
        (generatedClaims j1 nowExp nowIat userID username email)) =
        Except.ok (generatedClaims j1 nowExp nowIat userID username email) := by
    intro hmac hlt
    rw [hv, if_pos hmac, validate_generatedClaims, if_pos hlt]
  refine ⟨_, generateTestToken_eq lib j1 nowExp nowIat userID username email, ?_, hsame, ?_, ?_⟩
  · intro hmac
    rw [hv, if_neg hmac]
  · intro hsec hlt
    exact hsame (by rw [hsec]) hlt
  · intro hs hlen hsec hlt
    refine hsame ?_ hlt
    rw [hsec]
    exact (standardHMAC_append_zero lib hs Hash.SHA256 j1.Secret _ hlen).symm

/-- Witness of C13 (amended) on the reference library: two helpers with
the secret of the default test configuration; the second accepts the
token of the first for user 1, issued and validated at the same instant. -/
theorem cross_helper_validation_witness :
    ∃ tok, (NewJWTHelper "test_jwt_secret_key_for_testing_only" 24).GenerateTestToken refLib
        1700000000000000000 1700000000000000000 1 "user1" "user1@test.com" = some tok ∧
      (NewJWTHelper "test_jwt_secret_key_for_testing_only" 1).ValidateTestToken refLib
        1700000000000000000 tok =
        Except.ok (generatedClaims (NewJWTHelper "test_jwt_secret_key_for_testing_only" 24)
          1700000000000000000 1700000000000000000 1 "user1" "user1@test.com") := by
  obtain ⟨tok, h1, _, _, h4, _⟩ := cross_helper_validation refLib refLib_lawful
    (NewJWTHelper "test_jwt_secret_key_for_testing_only" 24)
    (NewJWTHelper "test_jwt_secret_key_for_testing_only" 1)
    1700000000000000000 1700000000000000000 1700000000000000000 1 "user1" "user1@test.com"
    (by unfold IsGoInt; norm_num) (wrapInt64_range _)
    (by unfold Time.IsUnixNano; norm_num) (by unfold Time.IsUnixNano; norm_num)
  refine ⟨tok, h1, h4 rfl ?_⟩
  rw [newJWTHelper_expire _ _ (by norm_num) (by norm_num)]
  unfold Hour Second
  norm_num

/-- Counterexample to C13 as stated (the reference library with the HMAC
construction of `crypto/hmac`, clock at 1700000000 s): the helpers built
with the secrets `a` and `a` followed by a zero byte have different
secrets, and the second accepts the token `GenerateTestToken` of the first
returns and hands out its claims. -/
theorem cross_helper_validation_counterexample :
    (NewJWTHelper "a" 24).Secret ≠ (NewJWTHelper "a\x00" 24).Secret ∧
    ∃ tok, (NewJWTHelper "a" 24).GenerateTestToken refHMACLib
        1700000000000000000 1700000000000000000 1 "user1" "user1@test.com" = some tok ∧
      (NewJWTHelper "a\x00" 24).ValidateTestToken refHMACLib 1700000000000000000 tok =
        Except.ok (generatedClaims (NewJWTHelper "a" 24)
          1700000000000000000 1700000000000000000 1 "user1" "user1@test.com") := by
  have hsec : (NewJWTHelper "a\x00" 24).Secret = (NewJWTHelper "a" 24).Secret ++ [0] := by
    show bytesOf "a\x00" = bytesOf "a" ++ [0]
    decide
  have hlen : (NewJWTHelper "a" 24).Secret.length < 64 := by
    show (bytesOf "a").length < 64
    decide
  have hne : (NewJWTHelper "a" 24).Secret ≠ (NewJWTHelper "a\x00" 24).Secret := by
    show bytesOf "a" ≠ bytesOf "a\x00"
    decide
  have hc := generatedClaims_exact (NewJWTHelper "a" 24)
    1700000000000000000 1700000000000000000 1 "user1" "user1@test.com"
    (by unfold IsGoInt; norm_num) (wrapInt64_range _)
    (by unfold Time.IsUnixNano; norm_num) (by unfold Time.IsUnixNano; norm_num)
  refine ⟨hne, _, generateTestToken_eq refHMACLib _ _ _ _ _ _, ?_⟩
  rw [validate_wireToken_key refHMACLib refHMACLib_lawful _ Hash.SHA256 _ _ hc, hsec,
    standardHMAC_append_zero refHMACLib refHMACLib_standard Hash.SHA256 _ _ hlen, if_pos rfl,
    validate_generatedClaims, newJWTHelper_expire _ _ (by norm_num) (by norm_num)]
  unfold Hour Second
  norm_num

/-! ## Lemmas: tampering -/

theorem splitChars_length_pos (sep : Char) (a : List Char) :
    0 < (splitChars sep a).length := by
  induction a with
  | nil => simp [splitChars]
  | cons c cs ih =>
    by_cases hc : c = sep
    · simp [splitChars, hc]
    · simp only [splitChars, hc, if_false]
      cases hs : splitChars sep cs with
      | nil => simp
      | cons p ps => simp

/-- A token string with a further dot inside its third segment has more
than three segments and is malformed for `ValidateTestToken`. -/
theorem validate_dot_in_signature (lib : JWTLib) (j : JWTHelper) (now : Time) (a b : String)
    (pre post : List Char) (ha : '.' ∉ a.data) (hb : '.' ∉ b.data) (hpre : '.' ∉ pre) :
    j.ValidateTestToken lib now (a ++ "." ++ b ++ "." ++ String.mk (pre ++ '.' :: post)) =
      Except.error TokenError.Malformed := by
  have hdot : (".").data = ['.'] := rfl
  have hsplit : (strings.Split (a ++ "." ++ b ++ "." ++ String.mk (pre ++ '.' :: post)) '.').length
      ≠ 3 := by
    have hpos := splitChars_length_pos '.' post
    have hdata : (a ++ "." ++ b ++ "." ++ String.mk (pre ++ '.' :: post)).data =
        a.data ++ '.' :: (b.data ++ '.' :: (pre ++ '.' :: post)) := by
      simp [String.data_append, hdot]
    unfold strings.Split
    rw [hdata, splitChars_append_sep _ _ _ ha, splitChars_append_sep _ _ _ hb,
      splitChars_append_sep _ _ _ hpre]
    simp only [List.map_cons, List.length_cons, List.length_map]
    omega
  simp only [JWTHelper.ValidateTestToken, ParseWithClaims, ParseUnverified, hsplit, ne_eq,
    not_true_eq_false, not_false_eq_true, if_true]

/-- The method `ValidateTestToken` on three dot-free segments that decode
to the HS256 header, to exact claims `c` and to a signature `sig`: the
token passes the signature check exactly when `sig` is the MAC of the
first two segments under the helper's secret. -/
theorem validate_segments (lib : JWTLib) (hl : lib.Lawful) (j : JWTHelper) (now : Time)
    (c : Claims) (hc : c.JSONExact) (sig : Bytes) :
    j.ValidateTestToken lib now
        (lib.EncodeSegment (lib.MarshalHeader (jwtHeader "HS256")) ++ "." ++
          lib.EncodeSegment (lib.MarshalClaims c) ++ "." ++ lib.EncodeSegment sig) =
      if sig = lib.HMAC Hash.SHA256 j.Secret
          (lib.EncodeSegment (lib.MarshalHeader (jwtHeader "HS256")) ++ "." ++
            lib.EncodeSegment (lib.MarshalClaims c)) then
        match Validate c now with
        | [] => Except.ok c
        | e :: es => Except.error (TokenError.InvalidClaims (e :: es))
      else Except.error TokenError.SignatureInvalid := by
  have hp := parse_segments lib
    (lib.EncodeSegment (lib.MarshalHeader (jwtHeader "HS256")))
    (lib.EncodeSegment (lib.MarshalClaims c))
    (lib.EncodeSegment sig)
    "HS256" (SigningMethod.HMAC Hash.SHA256)
    _ _ _ j.Secret (jwtHeader "HS256") c now
    (fun token =>
      match token.Method with
      | SigningMethod.HMAC _ => some j.Secret
      | SigningMethod.other _ => none)
    (base64url_no_dot lib hl _) (base64url_no_dot lib hl _) (base64url_no_dot lib hl _)
    (hl.decode_encode _) (hl.header_roundtrip _) rfl (hl.decode_encode _)
    (hl.claims_roundtrip c hc) (by decide) (hl.decode_encode _) rfl
  unfold JWTHelper.ValidateTestToken
  rw [hp]
  simp only [SigningMethod.Verify]
  by_cases hmac : sig = lib.HMAC Hash.SHA256 j.Secret
      (lib.EncodeSegment (lib.MarshalHeader (jwtHeader "HS256")) ++ "." ++
        lib.EncodeSegment (lib.MarshalClaims c))
  · simp only [hmac, decide_True, Bool.true_eq_false, if_false, if_true]
    cases hval : Validate c now <;> simp
  · simp [hmac]

theorem refHMAC_cons (hash : Hash) (key : Bytes) (message : String) :
    ∃ x l, refHMAC hash key message = x :: l := by
  unfold refHMAC
  exact ⟨_, _, rfl⟩

/-! ## Lemmas: base64url -/

theorem base64URLValue_char (n : Nat) (h : n < 64) :
    base64URLValue (base64URLChar n) = some n := by
  revert n
  decide

theorem base64URLChar_alphabet (n : Nat) : isBase64URL (base64URLChar n) = true := by
  by_cases h : n < 64
  · revert n
    decide
  · have : base64URLChar n = 'A' := by
      unfold base64URLChar
      exact List.getD_eq_default _ _ (by simpa [base64URLAlphabet] using h)
    rw [this]
    decide

theorem byte_ofNat_toNat (a : UInt8) (n : Nat) (h : n = a.toNat) : UInt8.ofNat n = a := by
  subst h
  have hx : a.toNat < 256 := a.toNat_lt
  apply UInt8.eq_of_toBitVec_eq
  apply BitVec.eq_of_toNat_eq
  show a.toNat % 256 = a.toNat
  exact Nat.mod_eq_of_lt hx

/-- Induction over a list three elements at a time. -/
theorem list_induction_three {α : Type} {P : List α → Prop} (h0 : P [])
    (h1 : ∀ a, P [a]) (h2 : ∀ a b, P [a, b])
    (h3 : ∀ a b c rest, P rest → P (a :: b :: c :: rest)) : ∀ l, P l
  | [] => h0
  | [a] => h1 a
  | [a, b] => h2 a b
  | a :: b :: c :: rest => h3 a b c rest (list_induction_three h0 h1 h2 h3 rest)

theorem base64Sextets_lt (b : Bytes) : ∀ v ∈ base64Sextets b, v < 64 := by
  induction b using list_induction_three with
  | h0 => simp [base64Sextets]
  | h1 a =>
    have ha : a.toNat < 256 := a.toNat_lt
    simp only [base64Sextets, List.mem_cons, List.mem_singleton, List.mem_nil_iff, or_false]
    rintro v (h | h) <;> omega
  | h2 a b =>
    have ha : a.toNat < 256 := a.toNat_lt
    have hb : b.toNat < 256 := b.toNat_lt
    simp only [base64Sextets, List.mem_cons, List.mem_singleton, List.mem_nil_iff, or_false]
    rintro v (h | h | h) <;> omega
  | h3 a b c rest ih =>
    have ha : a.toNat < 256 := a.toNat_lt
    have hb : b.toNat < 256 := b.toNat_lt
    have hc : c.toNat < 256 := c.toNat_lt
    simp only [base64Sextets, List.mem_cons]
    rintro v (h | h | h | h | h)
    · omega
    · omega
    · omega
    · omega
    · exact ih v h

theorem base64Values_chars (l : List Nat) (h : ∀ v ∈ l, v < 64) :
    base64Values (l.map base64URLChar) = some l := by
  induction l with
  | nil => rfl
  | cons v vs ih =>
    have hv : v < 64 := h v (List.mem_cons_self _ _)
    have hvs : ∀ w ∈ vs, w < 64 := fun w hw => h w (List.mem_cons_of_mem _ hw)
    simp only [List.map_cons, base64Values, base64URLValue_char v hv, ih hvs, Option.map_some']

theorem base64_filter_chars (l : List Nat) :
    (l.map base64URLChar).filter (fun c => c != '\r' && c != '\n') = l.map base64URLChar := by
  rw [List.filter_eq_self]
  intro c hc
  obtain ⟨n, _, rfl⟩ := List.mem_map.1 hc
  have h := base64URLChar_alphabet n
  generalize base64URLChar n = ch at h
  by_cases h1 : ch = '\r'
  · subst h1
    revert h
    decide
  · by_cases h2 : ch = '\n'
    · subst h2
      revert h
      decide
    · simp [h1, h2]

/-- The bytes of the groups of a whole number of blocks of three bytes
followed by further groups. -/
theorem base64Bytes_sextets_append (p : Bytes) (hp : p.length % 3 = 0) (vs : List Nat) :
    base64Bytes (base64Sextets p ++ vs) = (base64Bytes vs).map (fun t => p ++ t) := by
  induction p using list_induction_three with
  | h0 => simp [base64Sextets]
  | h1 a => simp at hp
  | h2 a b => simp at hp
  | h3 a b c rest ih =>
    have ha : a.toNat < 256 := a.toNat_lt
    have hb : b.toNat < 256 := b.toNat_lt
    have hc : c.toNat < 256 := c.toNat_lt
    have hr : rest.length % 3 = 0 := by
      simp only [List.length_cons] at hp
      omega
    have e1 := byte_ofNat_toNat a
      (a.toNat / 4 * 4 + (a.toNat % 4 * 16 + b.toNat / 16) / 16) (by omega)
    have e2 := byte_ofNat_toNat b
      ((a.toNat % 4 * 16 + b.toNat / 16) % 16 * 16 + (b.toNat % 16 * 4 + c.toNat / 64) / 4)
      (by omega)
    have e3 := byte_ofNat_toNat c
      ((b.toNat % 16 * 4 + c.toNat / 64) % 4 * 64 + c.toNat % 64) (by omega)
    have hi := ih hr
    show base64Bytes (_ :: _ :: _ :: _ :: (base64Sextets rest ++ vs)) = _
    simp only [base64Bytes, hi, e1, e2, e3]
    cases base64Bytes vs <;> rfl

theorem base64Sextets_append (p q : Bytes) (hp : p.length % 3 = 0) :
    base64Sextets (p ++ q) = base64Sextets p ++ base64Sextets q := by
  induction p using list_induction_three with
  | h0 => simp [base64Sextets]
  | h1 a => simp at hp
  | h2 a b => simp at hp
  | h3 a b c rest ih =>
    have hr : rest.length % 3 = 0 := by
      simp only [List.length_cons] at hp
      omega
    have hi := ih hr
    show base64Sextets (a :: b :: c :: (rest ++ q)) = _
    simp only [base64Sextets, hi, List.cons_append]

theorem base64Bytes_sextets (b : Bytes) : base64Bytes (base64Sextets b) = some b := by
  induction b using list_induction_three with
  | h0 => rfl
  | h1 a =>
    have ha : a.toNat < 256 := a.toNat_lt
    have e1 := byte_ofNat_toNat a (a.toNat / 4 * 4 + a.toNat % 4 * 16 / 16) (by omega)
    simp only [base64Sextets, base64Bytes, e1]
  | h2 a b =>
    have ha : a.toNat < 256 := a.toNat_lt
    have hb : b.toNat < 256 := b.toNat_lt
    have e1 := byte_ofNat_toNat a
      (a.toNat / 4 * 4 + (a.toNat % 4 * 16 + b.toNat / 16) / 16) (by omega)
    have e2 := byte_ofNat_toNat b
      ((a.toNat % 4 * 16 + b.toNat / 16) % 16 * 16 + b.toNat % 16 * 4 / 4) (by omega)
    simp only [base64Sextets, base64Bytes, e1, e2]
  | h3 a b c rest ih =>
    have h := base64Bytes_sextets_append [a, b, c] (by simp) (base64Sextets rest)
    rw [ih] at h
    exact h

theorem base64_decode_encode (b : Bytes) :
    base64RawURLDecode (base64RawURLEncode b) = some b := by
  unfold base64RawURLDecode base64RawURLEncode
  simp only [base64_filter_chars, base64Values_chars _ (base64Sextets_lt b), Option.some_bind,
    base64Bytes_sextets]

theorem base64_encode_alphabet (b : Bytes) (c : Char)
    (hc : c ∈ (base64RawURLEncode b).data) : isBase64URL c = true := by
  unfold base64RawURLEncode at hc
  obtain ⟨n, _, rfl⟩ := List.mem_map.1 hc
  exact base64URLChar_alphabet n

theorem refBase64Lib_lawful : refBase64Lib.Lawful :=
  ⟨base64_decode_encode, base64_encode_alphabet, refLib_header_roundtrip,
    fun c _ => refLib_claims_roundtrip c⟩


theorem base64URLChar_injective (n m : Nat) (hn : n < 64) (hm : m < 64)
    (h : base64URLChar n = base64URLChar m) : n = m := by
  have h1 := base64URLValue_char n hn
  rw [h, base64URLValue_char m hm] at h1
  exact (Option.some.inj h1).symm

theorem base64URLChar_ne_dot (n : Nat) : base64URLChar n ≠ '.' := by
  intro h
  have := base64URLChar_alphabet n
  rw [h] at this
  revert this
  decide

theorem refSizedHMAC_length (hash : Hash) (key : Bytes) (message : String) :
    (refSizedHMAC hash key message).length = hash.Size := by
  unfold refSizedHMAC
  simp [List.length_take, List.length_append]

theorem list_split_last_two {α : Type} (l : List α) (n : Nat) (h : l.length = n + 2) :
    ∃ p x y, l = p ++ [x, y] ∧ p.length = n := by
  have hd : (l.drop n).length = 2 := by
    rw [List.length_drop]
    omega
  have ht : (l.take n).length = n := by
    rw [List.length_take]
    omega
  match hq : l.drop n, hd with
  | [x, y], _ =>
    refine ⟨l.take n, x, y, ?_, ht⟩
    rw [← hq, List.take_append_drop]

/-- What `EncodeToString` makes of a whole number of blocks of three bytes
followed by two bytes: the last character carries the four low bits of the
last byte and two bits that are zero. -/
theorem base64_encode_two_bytes (p : Bytes) (hp : p.length % 3 = 0) (x y : UInt8) :
    base64RawURLEncode (p ++ [x, y]) =
      String.mk (((base64Sextets p).map base64URLChar ++
        [base64URLChar (x.toNat / 4), base64URLChar (x.toNat % 4 * 16 + y.toNat / 16)]) ++
        [base64URLChar (y.toNat % 16 * 4)]) := by
  unfold base64RawURLEncode
  rw [base64Sextets_append p [x, y] hp]
  simp [base64Sextets]

/-- The decoder does not read the two low bits of that last character. -/
theorem base64_decode_two_bytes (p : Bytes) (hp : p.length % 3 = 0) (x y : UInt8) (k : Nat)
    (hk : k < 4) :
    base64RawURLDecode
      (String.mk (((base64Sextets p).map base64URLChar ++
        [base64URLChar (x.toNat / 4), base64URLChar (x.toNat % 4 * 16 + y.toNat / 16)]) ++
        [base64URLChar (y.toNat % 16 * 4 + k)])) = some (p ++ [x, y]) := by
  have hx : x.toNat < 256 := x.toNat_lt
  have hy : y.toNat < 256 := y.toNat_lt
  have hl : ((base64Sextets p).map base64URLChar ++
        [base64URLChar (x.toNat / 4), base64URLChar (x.toNat % 4 * 16 + y.toNat / 16)]) ++
        [base64URLChar (y.toNat % 16 * 4 + k)] =
      (base64Sextets p ++ [x.toNat / 4, x.toNat % 4 * 16 + y.toNat / 16,
        y.toNat % 16 * 4 + k]).map base64URLChar := by
    simp
  have hlt : ∀ v ∈ base64Sextets p ++ [x.toNat / 4, x.toNat % 4 * 16 + y.toNat / 16,
      y.toNat % 16 * 4 + k], v < 64 := by
    intro v hv
    rcases List.mem_append.1 hv with h | h
    · exact base64Sextets_lt p v h
    · simp only [List.mem_cons, List.mem_singleton, List.mem_nil_iff, or_false] at h
      rcases h with h | h | h <;> omega
  have e1 := byte_ofNat_toNat x
    (x.toNat / 4 * 4 + (x.toNat % 4 * 16 + y.toNat / 16) / 16) (by omega)
  have e2 := byte_ofNat_toNat y
    ((x.toNat % 4 * 16 + y.toNat / 16) % 16 * 16 + (y.toNat % 16 * 4 + k) / 4) (by omega)
  unfold base64RawURLDecode
  simp only [hl, base64_filter_chars, base64Values_chars _ hlt, Option.some_bind,
    base64Bytes_sextets_append p hp, base64Bytes, e1, e2, Option.map_some']

/-! ## Lemmas: the third segment -/

/-- The parser on three dot-free segments that decode to a header naming
the method `m` and to claims `c`, the third not decoding: the token is
malformed. -/
theorem parse_segments_undecodable (lib : JWTLib) (a b s : String) (alg : String)
    (m : SigningMethod) (hb cb : Bytes) (hdr : H) (c : Claims) (now : Time)
    (keyFunc : Token → Option Bytes)
    (ha : '.' ∉ a.data) (hbd : '.' ∉ b.data) (hs : '.' ∉ s.data)
    (hdec1 : lib.DecodeSegment a = some hb) (hjs1 : lib.UnmarshalHeader hb = some hdr)
    (halg : hdr.lookup "alg" = some (Value.str alg))
    (hdec2 : lib.DecodeSegment b = some cb) (hjs2 : lib.UnmarshalClaims cb = some c)
    (hm : GetSigningMethod alg = some m)
    (hdec3 : lib.DecodeSegment s = none) :
    ParseWithClaims lib now (a ++ "." ++ b ++ "." ++ s) keyFunc =
      Except.error TokenError.Malformed := by
  have hsplit := split_dots a b s ha hbd hs
  have hpu : ParseUnverified lib (a ++ "." ++ b ++ "." ++ s) =
      Except.ok ({ Raw := a ++ "." ++ b ++ "." ++ s, Method := m, Header := hdr, Claims := c,
                   Signature := [], Valid := false }, [a, b, s]) := by
    simp only [ParseUnverified, hsplit]
    simp [hdec1, hjs1, hdec2, hjs2, halg, hm]
  simp only [ParseWithClaims, hpu]
  simp only [List.getD_cons_zero, List.getD_cons_succ, hdec3]

/-- The method `ValidateTestToken` on the HS256 header segment, the segment
of exact claims `c` and a dot-free third segment that does not decode: the
token is malformed. -/
theorem validate_undecodable_signature (lib : JWTLib) (hl : lib.Lawful) (j : JWTHelper)
    (now : Time) (c : Claims) (hc : c.JSONExact) (s : String) (hs : '.' ∉ s.data)
    (hd : lib.DecodeSegment s = none) :
    j.ValidateTestToken lib now
        (lib.EncodeSegment (lib.MarshalHeader (jwtHeader "HS256")) ++ "." ++
          lib.EncodeSegment (lib.MarshalClaims c) ++ "." ++ s) =
      Except.error TokenError.Malformed := by
  have hp := parse_segments_undecodable lib
    (lib.EncodeSegment (lib.MarshalHeader (jwtHeader "HS256")))
    (lib.EncodeSegment (lib.MarshalClaims c)) s
    "HS256" (SigningMethod.HMAC Hash.SHA256)
    _ _ (jwtHeader "HS256") c now
    (fun token =>
      match token.Method with
      | SigningMethod.HMAC _ => some j.Secret
      | SigningMethod.other _ => none)
    (base64url_no_dot lib hl _) (base64url_no_dot lib hl _) hs
    (hl.decode_encode _) (hl.header_roundtrip _) rfl (hl.decode_encode _)
    (hl.claims_roundtrip c hc) (by decide) hd
  unfold JWTHelper.ValidateTestToken
  rw [hp]

/-- The method `ValidateTestToken` on the HS256 header segment, the segment
of exact claims `c` and a dot-free third segment that decodes to `sig`: the
token passes the signature check exactly when `sig` is the MAC of the first
two segments under the helper's secret. -/
theorem validate_decoded_signature (lib : JWTLib) (hl : lib.Lawful) (j : JWTHelper)
    (now : Time) (c : Claims) (hc : c.JSONExact) (s : String) (sig : Bytes)
    (hs : '.' ∉ s.data) (hd : lib.DecodeSegment s = some sig) :
    j.ValidateTestToken lib now
        (lib.EncodeSegment (lib.MarshalHeader (jwtHeader "HS256")) ++ "." ++
          lib.EncodeSegment (lib.MarshalClaims c) ++ "." ++ s) =
      if sig = lib.HMAC Hash.SHA256 j.Secret
          (lib.EncodeSegment (lib.MarshalHeader (jwtHeader "HS256")) ++ "." ++
            lib.EncodeSegment (lib.MarshalClaims c)) then
        match Validate c now with
        | [] => Except.ok c
        | e :: es => Except.error (TokenError.InvalidClaims (e :: es))
      else Except.error TokenError.SignatureInvalid := by
  have hp := parse_segments lib
    (lib.EncodeSegment (lib.MarshalHeader (jwtHeader "HS256")))
    (lib.EncodeSegment (lib.MarshalClaims c)) s
    "HS256" (SigningMethod.HMAC Hash.SHA256)
    _ _ sig j.Secret (jwtHeader "HS256") c now
    (fun token =>
      match token.Method with
      | SigningMethod.HMAC _ => some j.Secret
      | SigningMethod.other _ => none)
    (base64url_no_dot lib hl _) (base64url_no_dot lib hl _) hs
    (hl.decode_encode _) (hl.header_roundtrip _) rfl (hl.decode_encode _)
    (hl.claims_roundtrip c hc) (by decide) hd rfl
  unfold JWTHelper.ValidateTestToken
  rw [hp]
  simp only [SigningMethod.Verify]
  by_cases hmac : sig = lib.HMAC Hash.SHA256 j.Secret
      (lib.EncodeSegment (lib.MarshalHeader (jwtHeader "HS256")) ++ "." ++
        lib.EncodeSegment (lib.MarshalClaims c))
  · simp only [hmac, decide_True, Bool.true_eq_false, if_false, if_true]
    cases hval : Validate c now <;> simp
  · simp [hmac]

/-! ## Theorems: tampering -/

/-- C15 (as amended): for every lawful library and helper, the token
`GenerateTestToken` returns (user id a Go `int`, clock readings within the
`UnixNano` range) is its header segment, its claims segment and its
encoded signature, joined by dots. With any dot-free string `s` in place of
the signature segment, in particular the segment with one character
changed: (1) when `s` decodes to bytes other than the signature, the string
is rejected as a signature mismatch, (2) as it is with any other signature
bytes encoded in place of the signature; (3) when `s` decodes to the
signature itself, which a decoder that is not strict allows for strings
other than the signature segment, the string is treated as the token is,
and (4) is accepted with the token's claims while the token is unexpired;
(5) when `s` does not decode, the string is rejected as malformed. (6) A
string with a dot inside the third segment is rejected as malformed. (7)
With any other exact claims in place of the claims and the signature kept,
the string is rejected as a signature mismatch, provided the MAC of the
changed signing string under the helper's secret is not the kept
signature. -/
theorem tampered_token_rejected (lib : JWTLib) (hl : lib.Lawful) (j : JWTHelper)
    (nowExp nowIat now : Time) (userID : Int) (username email : String)
    (hid : IsGoInt userID) (hexp : IsGoInt j.Expire)
    (h1 : nowExp.IsUnixNano) (h2 : nowIat.IsUnixNano) :
    j.GenerateTestToken lib nowExp nowIat userID username email =
      some (headerSegment lib ++ "." ++
        claimsSegment lib (generatedClaims j nowExp nowIat userID username email) ++ "." ++
        lib.EncodeSegment (lib.HMAC Hash.SHA256 j.Secret (headerSegment lib ++ "." ++
          claimsSegment lib (generatedClaims j nowExp nowIat userID username email)))) ∧
    (∀ (s : String) (sig : Bytes), '.' ∉ s.data → lib.DecodeSegment s = some sig →
      sig ≠ lib.HMAC Hash.SHA256 j.Secret (headerSegment lib ++ "." ++
        claimsSegment lib (generatedClaims j nowExp nowIat userID username email)) →
      j.ValidateTestToken lib now (headerSegment lib ++ "." ++
        claimsSegment lib (generatedClaims j nowExp nowIat userID username email) ++ "." ++ s) =
        Except.error TokenError.SignatureInvalid) ∧
    (∀ sig : Bytes,
      sig ≠ lib.HMAC Hash.SHA256 j.Secret (headerSegment lib ++ "." ++
        claimsSegment lib (generatedClaims j nowExp nowIat userID username email)) →
      j.ValidateTestToken lib now (headerSegment lib ++ "." ++
        claimsSegment lib (generatedClaims j nowExp nowIat userID username email) ++ "." ++
        lib.EncodeSegment sig) = Except.error TokenError.SignatureInvalid) ∧
    (∀ s : String, '.' ∉ s.data →
      lib.DecodeSegment s = some (lib.HMAC Hash.SHA256 j.Secret (headerSegment lib ++ "." ++
        claimsSegment lib (generatedClaims j nowExp nowIat userID username email))) →
      j.ValidateTestToken lib now (headerSegment lib ++ "." ++
        claimsSegment lib (generatedClaims j nowExp nowIat userID username email) ++ "." ++ s) =
      j.ValidateTestToken lib now (headerSegment lib ++ "." ++
        claimsSegment lib (generatedClaims j nowExp nowIat userID username email) ++ "." ++
        lib.EncodeSegment (lib.HMAC Hash.SHA256 j.Secret (headerSegment lib ++ "." ++
          claimsSegment lib (generatedClaims j nowExp nowIat userID username email))))) ∧
    (∀ s : String, '.' ∉ s.data →
      lib.DecodeSegment s = some (lib.HMAC Hash.SHA256 j.Secret (headerSegment lib ++ "." ++
        claimsSegment lib (generatedClaims j nowExp nowIat userID username email))) →
      now < nowExp + j.Expire - (nowExp + j.Expire) % Second →
      j.ValidateTestToken lib now (headerSegment lib ++ "." ++
        claimsSegment lib (generatedClaims j nowExp nowIat userID username email) ++ "." ++ s) =
      Except.ok (generatedClaims j nowExp nowIat userID username email)) ∧
    (∀ s : String, '.' ∉ s.data → lib.DecodeSegment s = none →
      j.ValidateTestToken lib now (headerSegment lib ++ "." ++
        claimsSegment lib (generatedClaims j nowExp nowIat userID username email) ++ "." ++ s) =
      Except.error TokenError.Malformed) ∧
    (∀ pre post : List Char, '.' ∉ pre →
      j.ValidateTestToken lib now (headerSegment lib ++ "." ++
        claimsSegment lib (generatedClaims j nowExp nowIat userID username email) ++ "." ++
        String.mk (pre ++ '.' :: post)) = Except.error TokenError.Malformed) ∧
    (∀ c : Claims, c.JSONExact →
      lib.HMAC Hash.SHA256 j.Secret (headerSegment lib ++ "." ++
        claimsSegment lib (generatedClaims j nowExp nowIat userID username email)) ≠
      lib.HMAC Hash.SHA256 j.Secret (headerSegment lib ++ "." ++ claimsSegment lib c) →
      j.ValidateTestToken lib now (headerSegment lib ++ "." ++ claimsSegment lib c ++ "." ++
        lib.EncodeSegment (lib.HMAC Hash.SHA256 j.Secret (headerSegment lib ++ "." ++
          claimsSegment lib (generatedClaims j nowExp nowIat userID username email)))) =
        Except.error TokenError.SignatureInvalid) := by
  have hc := generatedClaims_exact j nowExp nowIat userID username email hid hexp h1 h2
  have hsame : ∀ s : String, '.' ∉ s.data →
      lib.DecodeSegment s = some (lib.HMAC Hash.SHA256 j.Secret (headerSegment lib ++ "." ++
        claimsSegment lib (generatedClaims j nowExp nowIat userID username email))) →
      j.ValidateTestToken lib now (headerSegment lib ++ "." ++
        claimsSegment lib (generatedClaims j nowExp nowIat userID username email) ++ "." ++ s) =
      match Validate (generatedClaims j nowExp nowIat userID username email) now with
      | [] => Except.ok (generatedClaims j nowExp nowIat userID username email)
      | e :: es => Except.error (TokenError.InvalidClaims (e :: es)) := by
    intro s hs hd
    unfold headerSegment claimsSegment at hd ⊢
    have hv := validate_decoded_signature lib hl j now _ hc s _ hs hd
    rw [hv, if_pos rfl]
  refine ⟨generateTestToken_eq lib j nowExp nowIat userID username email, ?_, ?_, ?_, ?_, ?_,
    ?_, ?_⟩
  · intro s sig hs hd hsig
    have hv := validate_decoded_signature lib hl j now _ hc s sig hs hd
    unfold headerSegment claimsSegment at hsig ⊢
    rw [hv, if_neg hsig]
  · intro sig hsig
    have hv := validate_segments lib hl j now _ hc sig
    unfold headerSegment claimsSegment at hsig ⊢
    rw [hv, if_neg hsig]
  · intro s hs hd
    rw [hsame s hs hd, hsame _ (base64url_no_dot lib hl _) (hl.decode_encode _)]
  · intro s hs hd hlt
    rw [hsame s hs hd, validate_generatedClaims, if_pos hlt]
  · intro s hs hd
    have hv := validate_undecodable_signature lib hl j now _ hc s hs hd
    unfold headerSegment claimsSegment
    exact hv
  · intro pre post hpre
    exact validate_dot_in_signature lib j now _ _ pre post (base64url_no_dot lib hl _)
      (base64url_no_dot lib hl _) hpre
  · intro c hcx hmac
    have hv := validate_segments lib hl j now c hcx
      (lib.HMAC Hash.SHA256 j.Secret (lib.EncodeSegment (lib.MarshalHeader (jwtHeader "HS256"))
        ++ "." ++ lib.EncodeSegment (lib.MarshalClaims
          (generatedClaims j nowExp nowIat userID username email))))
    unfold headerSegment claimsSegment at hmac ⊢
    rw [hv, if_neg hmac]

/-- Witness of C15 (amended) on the reference library: the default test
helper, the token for user 1 with the signature bytes replaced by the
empty signature is rejected as a signature mismatch. -/
theorem tampered_token_rejected_witness :
    (NewJWTHelper "test_jwt_secret_key_for_testing_only" 24).ValidateTestToken refLib
      1700000000000000000
      (headerSegment refLib ++ "." ++
        claimsSegment refLib
          (generatedClaims (NewJWTHelper "test_jwt_secret_key_for_testing_only" 24)
            1700000000000000000 1700000000000000000 1 "user1" "user1@test.com") ++ "." ++
        refLib.EncodeSegment []) = Except.error TokenError.SignatureInvalid :=
  (tampered_token_rejected refLib refLib_lawful
    (NewJWTHelper "test_jwt_secret_key_for_testing_only" 24)
    1700000000000000000 1700000000000000000 1700000000000000000 1 "user1" "user1@test.com"
    (by unfold IsGoInt; norm_num) (wrapInt64_range _)
    (by unfold Time.IsUnixNano; norm_num) (by unfold Time.IsUnixNano; norm_num)).2.2.1 []
    (by
      obtain ⟨x, l, hx⟩ := refHMAC_cons Hash.SHA256
        (NewJWTHelper "test_jwt_secret_key_for_testing_only" 24).Secret
        (headerSegment refLib ++ "." ++ claimsSegment refLib
          (generatedClaims (NewJWTHelper "test_jwt_secret_key_for_testing_only" 24)
            1700000000000000000 1700000000000000000 1 "user1" "user1@test.com"))
      show [] ≠ refHMAC Hash.SHA256 _ _
      rw [hx]
      exact fun h => List.noConfusion h)

/-- Counterexample to C15 as stated (the reference library with base64url
as `encoding/base64` has it and MACs of 32 bytes, default test helper, clock
at 1700000000 s): the token `GenerateTestToken` returns for user 1 ends in
a signature segment with last character `ch`. The string that differs from
the token in that one character only, `ch'` in its place, is accepted by
`ValidateTestToken`, which hands out the token's claims: the 32 bytes of
the signature end in a block of two bytes, whose third character carries
two bits the decoder does not read. The string with a dot in place of
`ch` is rejected as malformed, which is not the signature-mismatch
error. -/
theorem tampered_token_counterexample :
    ∃ (pre : List Char) (ch ch' : Char), ch ≠ ch' ∧
      (NewJWTHelper "test_jwt_secret_key_for_testing_only" 24).GenerateTestToken refBase64Lib
        1700000000000000000 1700000000000000000 1 "user1" "user1@test.com" =
        some (headerSegment refBase64Lib ++ "." ++
          claimsSegment refBase64Lib
            (generatedClaims (NewJWTHelper "test_jwt_secret_key_for_testing_only" 24)
              1700000000000000000 1700000000000000000 1 "user1" "user1@test.com") ++ "." ++
          String.mk (pre ++ [ch])) ∧
      (NewJWTHelper "test_jwt_secret_key_for_testing_only" 24).ValidateTestToken refBase64Lib
        1700000000000000000
        (headerSegment refBase64Lib ++ "." ++
          claimsSegment refBase64Lib
            (generatedClaims (NewJWTHelper "test_jwt_secret_key_for_testing_only" 24)
              1700000000000000000 1700000000000000000 1 "user1" "user1@test.com") ++ "." ++
          String.mk (pre ++ [ch'])) =
        Except.ok (generatedClaims (NewJWTHelper "test_jwt_secret_key_for_testing_only" 24)
          1700000000000000000 1700000000000000000 1 "user1" "user1@test.com") ∧
      (NewJWTHelper "test_jwt_secret_key_for_testing_only" 24).ValidateTestToken refBase64Lib
        1700000000000000000
        (headerSegment refBase64Lib ++ "." ++
          claimsSegment refBase64Lib
            (generatedClaims (NewJWTHelper "test_jwt_secret_key_for_testing_only" 24)
              1700000000000000000 1700000000000000000 1 "user1" "user1@test.com") ++ "." ++
          String.mk (pre ++ ['.'])) = Except.error TokenError.Malformed ∧
      (Except.error TokenError.Malformed : Except TokenError Claims) ≠
        Except.error TokenError.SignatureInvalid := by
  have hc := generatedClaims_exact (NewJWTHelper "test_jwt_secret_key_for_testing_only" 24)
    1700000000000000000 1700000000000000000 1 "user1" "user1@test.com"
    (by unfold IsGoInt; norm_num) (wrapInt64_range _)
    (by unfold Time.IsUnixNano; norm_num) (by unfold Time.IsUnixNano; norm_num)
  obtain ⟨p, x, y, hmac, hp⟩ := list_split_last_two
    (refSizedHMAC Hash.SHA256 (NewJWTHelper "test_jwt_secret_key_for_testing_only" 24).Secret
      (headerSegment refBase64Lib ++ "." ++ claimsSegment refBase64Lib
        (generatedClaims (NewJWTHelper "test_jwt_secret_key_for_testing_only" 24)
          1700000000000000000 1700000000000000000 1 "user1" "user1@test.com"))) 30
    (refSizedHMAC_length _ _ _)
  have hp3 : p.length % 3 = 0 := by rw [hp]
  have hy : y.toNat < 256 := y.toNat_lt
  have hpre : '.' ∉ (base64Sextets p).map base64URLChar ++
      [base64URLChar (x.toNat / 4), base64URLChar (x.toNat % 4 * 16 + y.toNat / 16)] := by
    intro hmem
    rcases List.mem_append.1 hmem with h | h
    · obtain ⟨n, _, hn⟩ := List.mem_map.1 h
      exact base64URLChar_ne_dot n hn
    · simp only [List.mem_cons, List.mem_singleton, List.mem_nil_iff, or_false] at h
      rcases h with h | h
      · exact base64URLChar_ne_dot _ h.symm
      · exact base64URLChar_ne_dot _ h.symm
  have hseg : refBase64Lib.EncodeSegment (refBase64Lib.HMAC Hash.SHA256
      (NewJWTHelper "test_jwt_secret_key_for_testing_only" 24).Secret
      (headerSegment refBase64Lib ++ "." ++ claimsSegment refBase64Lib
        (generatedClaims (NewJWTHelper "test_jwt_secret_key_for_testing_only" 24)
          1700000000000000000 1700000000000000000 1 "user1" "user1@test.com"))) =
      String.mk (((base64Sextets p).map base64URLChar ++
        [base64URLChar (x.toNat / 4), base64URLChar (x.toNat % 4 * 16 + y.toNat / 16)]) ++
        [base64URLChar (y.toNat % 16 * 4)]) := by
    show base64RawURLEncode (refSizedHMAC Hash.SHA256 _ _) = _
    rw [hmac]
    exact base64_encode_two_bytes p hp3 x y
  have hdec : refBase64Lib.DecodeSegment
      (String.mk (((base64Sextets p).map base64URLChar ++
        [base64URLChar (x.toNat / 4), base64URLChar (x.toNat % 4 * 16 + y.toNat / 16)]) ++
        [base64URLChar (y.toNat % 16 * 4 + 1)])) =
      some (refBase64Lib.HMAC Hash.SHA256
        (NewJWTHelper "test_jwt_secret_key_for_testing_only" 24).Secret
        (refBase64Lib.EncodeSegment (refBase64Lib.MarshalHeader (jwtHeader "HS256")) ++ "." ++
          refBase64Lib.EncodeSegment (refBase64Lib.MarshalClaims
            (generatedClaims (NewJWTHelper "test_jwt_secret_key_for_testing_only" 24)
              1700000000000000000 1700000000000000000 1 "user1" "user1@test.com")))) := by
    show base64RawURLDecode _ = some (refSizedHMAC Hash.SHA256 _
      (headerSegment refBase64Lib ++ "." ++ claimsSegment refBase64Lib _))
    rw [hmac]
    exact base64_decode_two_bytes p hp3 x y 1 (by decide)
  refine ⟨(base64Sextets p).map base64URLChar ++
      [base64URLChar (x.toNat / 4), base64URLChar (x.toNat % 4 * 16 + y.toNat / 16)],
    base64URLChar (y.toNat % 16 * 4), base64URLChar (y.toNat % 16 * 4 + 1), ?_, ?_,
    ?_, ?_, by simp⟩
  · intro h
    have := base64URLChar_injective _ _ (by omega) (by omega) h
    omega
  · rw [← hseg]
    exact generateTestToken_eq refBase64Lib _ _ _ _ _ _
  · have hs : '.' ∉ (String.mk (((base64Sextets p).map base64URLChar ++
        [base64URLChar (x.toNat / 4), base64URLChar (x.toNat % 4 * 16 + y.toNat / 16)]) ++
        [base64URLChar (y.toNat % 16 * 4 + 1)])).data := by
      intro hmem
      rcases List.mem_append.1 hmem with h | h
      · exact hpre h
      · exact base64URLChar_ne_dot _ (List.mem_singleton.1 h).symm
    have hv := validate_decoded_signature refBase64Lib refBase64Lib_lawful
      (NewJWTHelper "test_jwt_secret_key_for_testing_only" 24) 1700000000000000000 _ hc _ _
      hs hdec
    unfold headerSegment claimsSegment
    rw [hv, if_pos rfl, validate_generatedClaims,
      newJWTHelper_expire _ _ (by norm_num) (by norm_num)]
    unfold Hour Second
    norm_num
  · exact validate_dot_in_signature refBase64Lib _ _ _ _ _ []
      (base64url_no_dot refBase64Lib refBase64Lib_lawful _)
      (base64url_no_dot refBase64Lib refBase64Lib_lawful _) hpre


/-! ## Lemmas: a chain of one handler -/

/-- The writer after `Context.JSON` on a fresh context. -/
theorem json_fresh_writer (req : Request) (code : Int) (doc : H) (hpos : 0 < code)
    (hbody : bodyAllowedForStatus code = true) :
    (Context.JSON { newContext req with index := 0 } code doc).Writer =
      { status := code, written := true, body := [doc] } := by
  by_cases hc : (200 : Int) = code
  · subst hc
    simp [Context.JSON, newContext, ResponseWriter.reset, ResponseWriter.WriteHeader,
      ResponseWriter.Write, bodyAllowedForStatus]
  · simp [Context.JSON, newContext, ResponseWriter.reset, ResponseWriter.WriteHeader,
      ResponseWriter.Write, hbody, hpos, hc]

/-- The index after `Context.JSON` is the index before. -/
theorem json_index (c : Context) (code : Int) (doc : H) :
    (c.JSON code doc).index = c.index := by
  unfold Context.JSON
  by_cases hb : bodyAllowedForStatus code = true <;> simp [hb]

/-- The engine on a chain of one handler that answers with `Context.JSON`
and does not call `Next`. -/
theorem serve_single_json (h : HandlerFunc) (fuel : Nat) (req : Request) (code : Int) (doc : H)
    (hfuel : 1 ≤ fuel) (hpos : 0 < code) (hbody : bodyAllowedForStatus code = true)
    (hh : ∀ next, h next { newContext req with index := 0 } =
      Context.JSON { newContext req with index := 0 } code doc) :
    (ServeHTTP [h] fuel req).Writer = { status := code, written := true, body := [doc] } := by
  obtain ⟨n, rfl⟩ : ∃ n, fuel = n + 1 := ⟨fuel - 1, by omega⟩
  rw [serve_first, hh]
  have hidx : ((Context.JSON { newContext req with index := 0 } code doc).incr).index = 1 := by
    simp [Context.incr, json_index]
  rw [runChain_past_end _ _ _ (by rw [hidx]; simp)]
  simp only [Context.incr, json_fresh_writer req code doc hpos hbody,
    ResponseWriter.WriteHeaderNow]


/-! ## Lemmas: binding a login request -/

/-- A field that no key of the object is decoded into stays unset. -/
theorem unmarshalFields_unset (lib : BindingLib) (names : List String) (name : String)
    (fields : List (String × FieldValue))
    (hno : ∀ kv ∈ fields, fieldFor lib names kv.1 ≠ some name) :
    ∀ (stored : List (String × String)) (err : Option BindError),
      stored.lookup name = none →
      (unmarshalFields lib names fields stored err).1.lookup name = none := by
  induction fields with
  | nil => intro stored err hs; simpa [unmarshalFields] using hs
  | cons kv rest ih =>
    intro stored err hs
    obtain ⟨key, value⟩ := kv
    have hrest : ∀ kv ∈ rest, fieldFor lib names kv.1 ≠ some name :=
      fun kv hkv => hno kv (List.mem_cons_of_mem _ hkv)
    have hkey : fieldFor lib names key ≠ some name := hno (key, value) (List.mem_cons_self _ _)
    unfold unmarshalFields
    cases hf : fieldFor lib names key with
    | none => simpa using ih hrest stored err hs
    | some n =>
      have hn : n ≠ name := fun e => hkey (by rw [hf, e])
      cases value with
      | null => simpa using ih hrest stored err hs
      | string s =>
        have hs2 : List.lookup name ((n, s) :: stored) = none := by
          rw [List.lookup_cons]
          have : (name == n) = false := by
            rw [beq_eq_false_iff_ne]; exact fun e => hn e.symm
          rw [this]; exact hs
        simpa using ih hrest ((n, s) :: stored) err hs2
      | other => simpa using ih hrest stored _ hs

/-- The error kept by `unmarshalFields`: an error already kept stays. -/
theorem unmarshalFields_error_kept (lib : BindingLib) (names : List String)
    (fields : List (String × FieldValue)) :
    ∀ (stored : List (String × String)) (e : BindError),
      (unmarshalFields lib names fields stored (some e)).2 = some e := by
  induction fields with
  | nil => intro stored e; rfl
  | cons kv rest ih =>
    intro stored e
    obtain ⟨key, value⟩ := kv
    unfold unmarshalFields
    cases fieldFor lib names key with
    | none => exact ih stored e
    | some n =>
      cases value with
      | null => exact ih stored e
      | string s => exact ih _ e
      | other => exact ih stored e

/-- Decoding the fields of an object fails exactly when some key that
stands for a field of the struct carries a value that is neither a string
nor `null`. -/
theorem unmarshalFields_error_iff (lib : BindingLib) (names : List String)
    (fields : List (String × FieldValue)) :
    ∀ (stored : List (String × String)),
      (unmarshalFields lib names fields stored none).2 ≠ none ↔
        ∃ kv ∈ fields, fieldFor lib names kv.1 ≠ none ∧ kv.2 = FieldValue.other := by
  induction fields with
  | nil => intro stored; simp [unmarshalFields]
  | cons kv rest ih =>
    intro stored
    obtain ⟨key, value⟩ := kv
    unfold unmarshalFields
    cases hf : fieldFor lib names key with
    | none =>
      simp only [List.mem_cons, exists_eq_or_imp, hf, ne_eq, not_true_eq_false, false_and,
        false_or]
      exact ih stored
    | some n =>
      cases value with
      | null =>
        simp only [List.mem_cons, exists_eq_or_imp, reduceCtorEq, and_false, false_or]
        exact ih stored
      | string s =>
        simp only [List.mem_cons, exists_eq_or_imp, reduceCtorEq, and_false, false_or]
        exact ih _
      | other =>
        simp only [unmarshalFields_error_kept, List.mem_cons, exists_eq_or_imp, hf]
        simp

/-- A body that is an object decodes exactly when every value it gives for a
field of the struct is a string or `null`. -/
theorem decodeBody_object_error_iff (lib : BindingLib) (names : List String)
    (fields : List (String × FieldValue)) :
    (∃ e, decodeBody lib names (Body.object fields) = Except.error e) ↔
      ∃ kv ∈ fields, fieldFor lib names kv.1 ≠ none ∧ kv.2 = FieldValue.other := by
  rw [← unmarshalFields_error_iff lib names fields []]
  unfold decodeBody
  cases hu : unmarshalFields lib names fields [] none with
  | mk stored err =>
    cases err with
    | none => simp [hu]
    | some e => simp [hu]

/-- What `ShouldBindJSON` returns for a login request: the decoded request
when both fields are non-empty, an error otherwise. -/
theorem shouldBindJSONLogin_cases (lib : BindingLib) (c : Context) :
    (∃ r, decodeLoginRequest lib c.Request.Body = Except.ok r ∧ r.Username ≠ "" ∧
        r.Password ≠ "" ∧ c.ShouldBindJSONLogin lib = Except.ok r) ∨
    ((¬ ∃ r, decodeLoginRequest lib c.Request.Body = Except.ok r ∧ r.Username ≠ "" ∧
        r.Password ≠ "") ∧ ∃ err, c.ShouldBindJSONLogin lib = Except.error err) := by
  unfold Context.ShouldBindJSONLogin
  cases hd : decodeLoginRequest lib c.Request.Body with
  | error e => exact Or.inr ⟨fun ⟨r, hr, _⟩ => (by cases hr), e, rfl⟩
  | ok r =>
    by_cases hu : r.Username = ""
    · refine Or.inr ⟨fun ⟨r2, hr, hu2, _⟩ => ?_, ?_⟩
      · cases hr; exact hu2 hu
      · simp [LoginRequest.failedTags, hu]
    · by_cases hp : r.Password = ""
      · refine Or.inr ⟨fun ⟨r2, hr, _, hp2⟩ => ?_, ?_⟩
        · cases hr; exact hp2 hp
        · simp [LoginRequest.failedTags, hu, hp]
      · refine Or.inl ⟨r, rfl, hu, hp, ?_⟩
        simp [LoginRequest.failedTags, hu, hp]

/-- The two answers of `Login`. -/
theorem login_cases (lib : BindingLib) (h : AuthHandler) (fuel : Nat) (req : Request)
    (hfuel : 1 ≤ fuel) :
    (∃ r, decodeLoginRequest lib req.Body = Except.ok r ∧ r.Username ≠ "" ∧ r.Password ≠ "" ∧
      (ServeHTTP [h.Login lib] fuel req).Writer =
        { status := 200, written := true,
          body := [[("access_token", Value.str "mock_jwt_token"),
                    ("expires_in", Value.int 3600),
                    ("token_type", Value.str "Bearer"),
                    ("user", Value.obj [("username", Value.str r.Username)])]] }) ∨
    ((¬ ∃ r, decodeLoginRequest lib req.Body = Except.ok r ∧ r.Username ≠ "" ∧
        r.Password ≠ "") ∧
      ∃ err, (ServeHTTP [h.Login lib] fuel req).Writer =
        { status := 400, written := true,
          body := [[("error", Value.str (lib.ErrorText err))]] }) := by
  rcases shouldBindJSONLogin_cases lib { newContext req with index := 0 } with
    ⟨r, hr, hu, hp, hb⟩ | ⟨hno, err, hb⟩
  · refine Or.inl ⟨r, hr, hu, hp, ?_⟩
    apply serve_single_json _ fuel req 200 _ hfuel (by decide) (by decide)
    intro next
    simp only [AuthHandler.Login, hb, StatusOK]
  · refine Or.inr ⟨hno, err, ?_⟩
    apply serve_single_json _ fuel req 400 _ hfuel (by decide) (by decide)
    intro next
    simp only [AuthHandler.Login, hb, StatusBadRequest]


/-! ## Theorems: `Login` -/

/-- Claim C18. On the route `POST /auth/login` (a chain of the one handler
`Login`), whatever the handler's database handle: the response status is
200 exactly when the body decodes as JSON into a login request whose
username and password are both non-empty, and then the response is the one
document with `access_token` `"mock_jwt_token"`, `expires_in` 3600,
`token_type` `"Bearer"` and a `user` object whose only field is the decoded
username; in every other case the status is 400 and the response is one
document whose only field is `error`. In particular the status is 400 for a
body that is not JSON, for the empty object, for an object in which no key
stands for `username` or none for `password`, for a decoded request with an
empty username or an empty password, and for an object that gives one of
the two fields a value that is neither a string nor `null`; an object
decodes whenever every value it gives for one of the two fields is a string
or `null`. -/
theorem login_status_and_body (lib : BindingLib) (h : AuthHandler) (fuel : Nat) (req : Request)
    (hfuel : 1 ≤ fuel) :
    ((ServeHTTP [h.Login lib] fuel req).Writer.status = StatusOK ↔
      ∃ r, decodeLoginRequest lib req.Body = Except.ok r ∧ r.Username ≠ "" ∧ r.Password ≠ "") ∧
    (∀ r, decodeLoginRequest lib req.Body = Except.ok r → r.Username ≠ "" → r.Password ≠ "" →
      (ServeHTTP [h.Login lib] fuel req).Writer =
        { status := 200, written := true,
          body := [[("access_token", Value.str "mock_jwt_token"),
                    ("expires_in", Value.int 3600),
                    ("token_type", Value.str "Bearer"),
                    ("user", Value.obj [("username", Value.str r.Username)])]] }) ∧
    ((¬ ∃ r, decodeLoginRequest lib req.Body = Except.ok r ∧ r.Username ≠ "" ∧
        r.Password ≠ "") →
      ∃ err, (ServeHTTP [h.Login lib] fuel req).Writer =
        { status := 400, written := true,
          body := [[("error", Value.str (lib.ErrorText err))]] }) ∧
    (req.Body = Body.notJSON →
      (ServeHTTP [h.Login lib] fuel req).Writer.status = StatusBadRequest) ∧
    (req.Body = Body.object [] →
      (ServeHTTP [h.Login lib] fuel req).Writer.status = StatusBadRequest) ∧
    (∀ fields name, req.Body = Body.object fields → (name = "username" ∨ name = "password") →
      (∀ kv ∈ fields, fieldFor lib ["username", "password"] kv.1 ≠ some name) →
      (ServeHTTP [h.Login lib] fuel req).Writer.status = StatusBadRequest) ∧
    (∀ r, decodeLoginRequest lib req.Body = Except.ok r → (r.Username = "" ∨ r.Password = "") →
      (ServeHTTP [h.Login lib] fuel req).Writer.status = StatusBadRequest) ∧
    (∀ fields, req.Body = Body.object fields →
      (∃ kv ∈ fields, fieldFor lib ["username", "password"] kv.1 ≠ none ∧
        kv.2 = FieldValue.other) →
      (ServeHTTP [h.Login lib] fuel req).Writer.status = StatusBadRequest) ∧
    (∀ fields, req.Body = Body.object fields →
      (∀ kv ∈ fields, fieldFor lib ["username", "password"] kv.1 ≠ none →
        kv.2 ≠ FieldValue.other) →
      ∃ r, decodeLoginRequest lib req.Body = Except.ok r) := by
  have hbad : (¬ ∃ r, decodeLoginRequest lib req.Body = Except.ok r ∧ r.Username ≠ "" ∧
      r.Password ≠ "") →
      ∃ err, (ServeHTTP [h.Login lib] fuel req).Writer =
        { status := 400, written := true,
          body := [[("error", Value.str (lib.ErrorText err))]] } := by
    intro hno
    rcases login_cases lib h fuel req hfuel with ⟨r, hr, hu, hp, _⟩ | ⟨_, err, hw⟩
    · exact absurd ⟨r, hr, hu, hp⟩ hno
    · exact ⟨err, hw⟩
  have hstatus : (¬ ∃ r, decodeLoginRequest lib req.Body = Except.ok r ∧ r.Username ≠ "" ∧
      r.Password ≠ "") →
      (ServeHTTP [h.Login lib] fuel req).Writer.status = StatusBadRequest := by
    intro hno
    obtain ⟨err, hw⟩ := hbad hno
    rw [hw]; rfl
  have hempty : ∀ r, decodeLoginRequest lib req.Body = Except.ok r →
      (r.Username = "" ∨ r.Password = "") →
      (ServeHTTP [h.Login lib] fuel req).Writer.status = StatusBadRequest := by
    intro r hr he
    apply hstatus
    rintro ⟨r2, hr2, hu, hp⟩
    rw [hr] at hr2
    cases hr2
    rcases he with he | he
    · exact hu he
    · exact hp he
  refine ⟨⟨?_, ?_⟩, ?_, hbad, ?_, ?_, ?_, hempty, ?_, ?_⟩
  · intro hs
    rcases login_cases lib h fuel req hfuel with ⟨r, hr, hu, hp, _⟩ | ⟨_, err, hw⟩
    · exact ⟨r, hr, hu, hp⟩
    · rw [hw] at hs
      simp [StatusOK] at hs
  · rintro ⟨r, hr, hu, hp⟩
    rcases login_cases lib h fuel req hfuel with ⟨r2, _, _, _, hw⟩ | ⟨hno, _⟩
    · rw [hw]; rfl
    · exact absurd ⟨r, hr, hu, hp⟩ hno
  · intro r hr hu hp
    rcases login_cases lib h fuel req hfuel with ⟨r2, hr2, _, _, hw⟩ | ⟨hno, _⟩
    · rw [hr] at hr2
      cases hr2
      exact hw
    · exact absurd ⟨r, hr, hu, hp⟩ hno
  · intro hb
    apply hstatus
    rintro ⟨r, hr, _⟩
    rw [hb] at hr
    cases hr
  · intro hb
    apply hempty ⟨"", ""⟩ _ (Or.inl rfl)
    rw [hb]
    rfl
  · intro fields name hb hname hno
    have hl := unmarshalFields_unset lib ["username", "password"] name fields hno [] none rfl
    cases hu : unmarshalFields lib ["username", "password"] fields [] none with
    | mk stored err =>
      rw [hu] at hl
      cases err with
      | some e =>
        apply hstatus
        rintro ⟨r, hr, _⟩
        rw [hb] at hr
        simp [decodeLoginRequest, decodeBody, hu] at hr
      | none =>
        apply hempty ⟨(stored.lookup "username").getD "", (stored.lookup "password").getD ""⟩
        · rw [hb]
          simp [decodeLoginRequest, decodeBody, hu]
        · rcases hname with rfl | rfl
          · left; simp only at hl; simp [hl]
          · right; simp only at hl; simp [hl]
  · intro fields hb hex
    apply hstatus
    rintro ⟨r, hr, _⟩
    obtain ⟨e, he⟩ := (decodeBody_object_error_iff lib _ fields).2 hex
    rw [hb] at hr
    simp [decodeLoginRequest, he] at hr
  · intro fields hb hall
    rw [hb]
    cases hd : decodeBody lib ["username", "password"] (Body.object fields) with
    | error e =>
      obtain ⟨kv, hkv, hf, ho⟩ := (decodeBody_object_error_iff lib _ fields).1 ⟨e, hd⟩
      exact absurd ho (hall kv hkv hf)
    | ok stored =>
      refine ⟨{ Username := (stored.lookup "username").getD "",
                Password := (stored.lookup "password").getD "" }, ?_⟩
      simp only [decodeLoginRequest, hd]


/-- Witness for C18 at the bodies of the login tests: the valid credentials
give 200 with the token document; a missing username, a missing password,
an empty username, the empty object and a form body give 400. -/
theorem login_status_and_body_witness :
    (1 ≤ 1) ∧
    (ServeHTTP [(NewAuthHandler none).Login refBinding] 1
        (requestWithObject [("password", FieldValue.string "Test123456!"),
                            ("username", FieldValue.string "testuser")])).Writer =
      { status := 200, written := true,
        body := [[("access_token", Value.str "mock_jwt_token"),
                  ("expires_in", Value.int 3600),
                  ("token_type", Value.str "Bearer"),
                  ("user", Value.obj [("username", Value.str "testuser")])]] } ∧
    (ServeHTTP [(NewAuthHandler none).Login refBinding] 1
        (requestWithObject [("password", FieldValue.string "Test123456!")])).Writer.status
      = StatusBadRequest ∧
    (ServeHTTP [(NewAuthHandler none).Login refBinding] 1
        (requestWithObject [("username", FieldValue.string "testuser")])).Writer.status
      = StatusBadRequest ∧
    (ServeHTTP [(NewAuthHandler none).Login refBinding] 1
        (requestWithObject [("password", FieldValue.string "Test123456!"),
                            ("username", FieldValue.string "")])).Writer.status
      = StatusBadRequest ∧
    (ServeHTTP [(NewAuthHandler none).Login refBinding] 1
        (requestWithObject [])).Writer.status = StatusBadRequest ∧
    (ServeHTTP [(NewAuthHandler none).Login refBinding] 1
        { Header := [("Content-Type", "application/x-www-form-urlencoded")],
          Body := Body.notJSON }).Writer.status = StatusBadRequest :=
  ⟨by decide,
   (login_status_and_body refBinding (NewAuthHandler none) 1 _ (by decide)).2.1
     ⟨"testuser", "Test123456!"⟩ rfl (by decide) (by decide),
   (login_status_and_body refBinding (NewAuthHandler none) 1 _ (by decide)).2.2.2.2.2.1
     [("password", FieldValue.string "Test123456!")] "username" rfl (Or.inl rfl) (by decide),
   (login_status_and_body refBinding (NewAuthHandler none) 1 _ (by decide)).2.2.2.2.2.1
     [("username", FieldValue.string "testuser")] "password" rfl (Or.inr rfl) (by decide),
   (login_status_and_body refBinding (NewAuthHandler none) 1 _ (by decide)).2.2.2.2.2.2.1
     ⟨"", "Test123456!"⟩ rfl (Or.inl rfl),
   (login_status_and_body refBinding (NewAuthHandler none) 1 _ (by decide)).2.2.2.2.1 rfl,
   (login_status_and_body refBinding (NewAuthHandler none) 1 _ (by decide)).2.2.2.1 rfl⟩


/-- What a body with one string for `username` and one for `password`
decodes to. -/
theorem decodeLoginRequest_credentials (lib : BindingLib) (u p : String) :
    decodeLoginRequest lib
        (Body.object [("username", FieldValue.string u), ("password", FieldValue.string p)]) =
      Except.ok { Username := u, Password := p } := by
  have h1 : fieldFor lib ["username", "password"] "username" = some "username" := by
    simp [fieldFor]
  have h2 : fieldFor lib ["username", "password"] "password" = some "password" := by
    simp [fieldFor, List.find?]
  simp [decodeLoginRequest, decodeBody, unmarshalFields, h1, h2, List.lookup]

/-- Claim C19, as the code has it. `Login` looks nothing up and verifies no
password: for every handler, whatever its database handle holds (no handle,
an empty table, a row for the user with any stored password), and for every
non-empty username and password, the response is 200 with the access token
`"mock_jwt_token"`. The body of the handler ends in the comments
`TODO: Fetch user from database`, `TODO: Verify password`. -/
theorem login_skips_credential_check (lib : BindingLib) (h : AuthHandler) (fuel : Nat)
    (u p : String) (hfuel : 1 ≤ fuel) (hu : u ≠ "") (hp : p ≠ "") :
    (ServeHTTP [h.Login lib] fuel
        (requestWithObject [("username", FieldValue.string u),
                            ("password", FieldValue.string p)])).Writer =
      { status := 200, written := true,
        body := [[("access_token", Value.str "mock_jwt_token"),
                  ("expires_in", Value.int 3600),
                  ("token_type", Value.str "Bearer"),
                  ("user", Value.obj [("username", Value.str u)])]] } := by
  rcases login_cases lib h fuel
      (requestWithObject [("username", FieldValue.string u), ("password", FieldValue.string p)])
      hfuel with ⟨r, hr, _, _, hw⟩ | ⟨hno, _⟩
  · have hd := decodeLoginRequest_credentials lib u p
    simp only [requestWithObject] at hr
    rw [hd] at hr
    cases hr
    exact hw
  · exact absurd ⟨⟨u, p⟩, decodeLoginRequest_credentials lib u p, hu, hp⟩ hno

/-- Witness for C19: the user table holds one row, for `testuser`; a login
as `testuser` with the password `wrong-password` is answered 200 with the
access token, and so is a login as a user the table does not hold. -/
theorem login_skips_credential_check_witness :
    (ServeHTTP
        [(NewAuthHandler (some [{ Username := "testuser", Email := "test@example.com",
                                  Password := "$2a$10$N9qo8uLOickgx2ZMRZoMye" }])).Login
          refBinding] 1
        (requestWithObject [("username", FieldValue.string "testuser"),
                            ("password", FieldValue.string "wrong-password")])).Writer =
      { status := 200, written := true,
        body := [[("access_token", Value.str "mock_jwt_token"),
                  ("expires_in", Value.int 3600),
                  ("token_type", Value.str "Bearer"),
                  ("user", Value.obj [("username", Value.str "testuser")])]] } ∧
    (ServeHTTP [(NewAuthHandler (some [])).Login refBinding] 1
        (requestWithObject [("username", FieldValue.string "nobody"),
                            ("password", FieldValue.string "x")])).Writer.status = StatusOK :=
  ⟨login_skips_credential_check refBinding _ 1 "testuser" "wrong-password"
      (by decide) (by decide) (by decide),
   by rw [login_skips_credential_check refBinding _ 1 "nobody" "x"
      (by decide) (by decide) (by decide)]; rfl⟩


/-! ## Lemmas: binding a registration request -/

/-- The `binding` tags of a registration request all pass exactly when the
email is non-empty and passes the `email` check, the username has 3 to 30
characters and the password at least 8. -/
theorem register_failedTags_nil (lib : BindingLib) (r : RegisterRequest) :
    r.failedTags lib = [] ↔
      (r.Email ≠ "" ∧ lib.IsEmail r.Email = true ∧ 3 ≤ r.Username.length ∧
        r.Username.length ≤ 30 ∧ 8 ≤ r.Password.length) := by
  have hlen : ∀ s : String, s = "" → s.length = 0 := fun s hs => by rw [hs]; rfl
  unfold RegisterRequest.failedTags
  constructor
  · intro h
    simp only [List.append_eq_nil] at h
    obtain ⟨⟨h1, h2⟩, h3⟩ := h
    split_ifs at h1 h2 h3
    simp_all
  · rintro ⟨he, hm, hu1, hu2, hp⟩
    have hu : r.Username ≠ "" := fun e => by have := hlen _ e; omega
    have hpw : r.Password ≠ "" := fun e => by have := hlen _ e; omega
    have hu3 : ¬ r.Username.length < 3 := by omega
    have hu4 : ¬ 30 < r.Username.length := by omega
    have hp2 : ¬ r.Password.length < 8 := by omega
    simp [he, hm, hu, hpw, hu3, hu4, hp2]

/-- What `ShouldBindJSON` returns for a registration request. -/
theorem shouldBindJSONRegister_cases (lib : BindingLib) (c : Context) :
    (∃ r, decodeRegisterRequest lib c.Request.Body = Except.ok r ∧
        (r.Email ≠ "" ∧ lib.IsEmail r.Email = true ∧ 3 ≤ r.Username.length ∧
          r.Username.length ≤ 30 ∧ 8 ≤ r.Password.length) ∧
        c.ShouldBindJSONRegister lib = Except.ok r) ∨
    ((¬ ∃ r, decodeRegisterRequest lib c.Request.Body = Except.ok r ∧
        (r.Email ≠ "" ∧ lib.IsEmail r.Email = true ∧ 3 ≤ r.Username.length ∧
          r.Username.length ≤ 30 ∧ 8 ≤ r.Password.length)) ∧
      ∃ err, c.ShouldBindJSONRegister lib = Except.error err) := by
  unfold Context.ShouldBindJSONRegister
  cases hd : decodeRegisterRequest lib c.Request.Body with
  | error e => exact Or.inr ⟨fun ⟨r, hr, _⟩ => (by cases hr), e, rfl⟩
  | ok r =>
    cases ht : r.failedTags lib with
    | nil =>
      refine Or.inl ⟨r, rfl, (register_failedTags_nil lib r).1 ht, ?_⟩
      simp only [ht]
    | cons f fs =>
      refine Or.inr ⟨fun ⟨r2, hr, hv⟩ => ?_, BindError.Validation (f :: fs), ?_⟩
      · cases hr
        rw [(register_failedTags_nil lib r).2 hv] at ht
        cases ht
      · simp only [ht]

/-- The two answers of `Register`. -/
theorem register_cases (lib : BindingLib) (h : AuthHandler) (fuel : Nat) (req : Request)
    (hfuel : 1 ≤ fuel) :
    (∃ r, decodeRegisterRequest lib req.Body = Except.ok r ∧
      (r.Email ≠ "" ∧ lib.IsEmail r.Email = true ∧ 3 ≤ r.Username.length ∧
        r.Username.length ≤ 30 ∧ 8 ≤ r.Password.length) ∧
      (ServeHTTP [h.Register lib] fuel req).Writer =
        { status := 201, written := true,
          body := [[("message", Value.str "User registered successfully"),
                    ("user", Value.obj [("email", Value.str r.Email),
                                        ("username", Value.str r.Username)])]] }) ∨
    ((¬ ∃ r, decodeRegisterRequest lib req.Body = Except.ok r ∧
        (r.Email ≠ "" ∧ lib.IsEmail r.Email = true ∧ 3 ≤ r.Username.length ∧
          r.Username.length ≤ 30 ∧ 8 ≤ r.Password.length)) ∧
      ∃ err, (ServeHTTP [h.Register lib] fuel req).Writer =
        { status := 400, written := true,
          body := [[("error", Value.str (lib.ErrorText err))]] }) := by
  rcases shouldBindJSONRegister_cases lib { newContext req with index := 0 } with
    ⟨r, hr, hv, hb⟩ | ⟨hno, err, hb⟩
  · refine Or.inl ⟨r, hr, hv, ?_⟩
    apply serve_single_json _ fuel req 201 _ hfuel (by decide) (by decide)
    intro next
    simp only [AuthHandler.Register, hb, StatusCreated]
  · refine Or.inr ⟨hno, err, ?_⟩
    apply serve_single_json _ fuel req 400 _ hfuel (by decide) (by decide)
    intro next
    simp only [AuthHandler.Register, hb, StatusBadRequest]


/-! ## Theorems: `Register` -/

/-- Claim C20, amended. On the route `POST /auth/register` (a chain of the
one handler `Register`): the response status is 201 exactly when the body
decodes as JSON into a registration request whose email is non-empty and
passes the `email` check, whose username has 3 to 30 characters and whose
password has at least 8, and then the response is the one document with
`message` `"User registered successfully"` and a `user` object of the
decoded email and username; in every other case the status is 400 and the
response is one document whose only field is `error`. In particular the
status is 400 for a body that is not JSON, for the empty object, for an
object in which no key stands for `email`, for `username` or for
`password`, for an object that gives one of the four fields of the request
(`full_name` included) a value that is neither a string nor `null`, and
for a decoded request whose email fails the check, whose username is
shorter than 3 or longer than 30, or whose password is shorter than 8; an
object decodes whenever every value it gives for one of the four fields is
a string or `null`. -/
theorem register_status_and_body (lib : BindingLib) (h : AuthHandler) (fuel : Nat)
    (req : Request) (hfuel : 1 ≤ fuel) :
    ((ServeHTTP [h.Register lib] fuel req).Writer.status = StatusCreated ↔
      ∃ r, decodeRegisterRequest lib req.Body = Except.ok r ∧
        (r.Email ≠ "" ∧ lib.IsEmail r.Email = true ∧ 3 ≤ r.Username.length ∧
          r.Username.length ≤ 30 ∧ 8 ≤ r.Password.length)) ∧
    (∀ r, decodeRegisterRequest lib req.Body = Except.ok r →
      (r.Email ≠ "" ∧ lib.IsEmail r.Email = true ∧ 3 ≤ r.Username.length ∧
        r.Username.length ≤ 30 ∧ 8 ≤ r.Password.length) →
      (ServeHTTP [h.Register lib] fuel req).Writer =
        { status := 201, written := true,
          body := [[("message", Value.str "User registered successfully"),
                    ("user", Value.obj [("email", Value.str r.Email),
                                        ("username", Value.str r.Username)])]] }) ∧
    ((¬ ∃ r, decodeRegisterRequest lib req.Body = Except.ok r ∧
        (r.Email ≠ "" ∧ lib.IsEmail r.Email = true ∧ 3 ≤ r.Username.length ∧
          r.Username.length ≤ 30 ∧ 8 ≤ r.Password.length)) →
      ∃ err, (ServeHTTP [h.Register lib] fuel req).Writer =
        { status := 400, written := true,
          body := [[("error", Value.str (lib.ErrorText err))]] }) ∧
    (req.Body = Body.notJSON →
      (ServeHTTP [h.Register lib] fuel req).Writer.status = StatusBadRequest) ∧
    (req.Body = Body.object [] →
      (ServeHTTP [h.Register lib] fuel req).Writer.status = StatusBadRequest) ∧
    (∀ fields name, req.Body = Body.object fields →
      (name = "email" ∨ name = "username" ∨ name = "password") →
      (∀ kv ∈ fields,
        fieldFor lib ["email", "username", "password", "full_name"] kv.1 ≠ some name) →
      (ServeHTTP [h.Register lib] fuel req).Writer.status = StatusBadRequest) ∧
    (∀ fields, req.Body = Body.object fields →
      (∃ kv ∈ fields, fieldFor lib ["email", "username", "password", "full_name"] kv.1 ≠ none ∧
        kv.2 = FieldValue.other) →
      (ServeHTTP [h.Register lib] fuel req).Writer.status = StatusBadRequest) ∧
    (∀ fields, req.Body = Body.object fields →
      (∀ kv ∈ fields, fieldFor lib ["email", "username", "password", "full_name"] kv.1 ≠ none →
        kv.2 ≠ FieldValue.other) →
      ∃ r, decodeRegisterRequest lib req.Body = Except.ok r) ∧
    (∀ r, decodeRegisterRequest lib req.Body = Except.ok r →
      (r.Email = "" ∨ lib.IsEmail r.Email = false ∨ r.Username.length < 3 ∨
        30 < r.Username.length ∨ r.Password.length < 8) →
      (ServeHTTP [h.Register lib] fuel req).Writer.status = StatusBadRequest) := by
  have hbad : (¬ ∃ r, decodeRegisterRequest lib req.Body = Except.ok r ∧
      (r.Email ≠ "" ∧ lib.IsEmail r.Email = true ∧ 3 ≤ r.Username.length ∧
        r.Username.length ≤ 30 ∧ 8 ≤ r.Password.length)) →
      ∃ err, (ServeHTTP [h.Register lib] fuel req).Writer =
        { status := 400, written := true,
          body := [[("error", Value.str (lib.ErrorText err))]] } := by
    intro hno
    rcases register_cases lib h fuel req hfuel with ⟨r, hr, hv, _⟩ | ⟨_, err, hw⟩
    · exact absurd ⟨r, hr, hv⟩ hno
    · exact ⟨err, hw⟩
  have hstatus : (¬ ∃ r, decodeRegisterRequest lib req.Body = Except.ok r ∧
      (r.Email ≠ "" ∧ lib.IsEmail r.Email = true ∧ 3 ≤ r.Username.length ∧
        r.Username.length ≤ 30 ∧ 8 ≤ r.Password.length)) →
      (ServeHTTP [h.Register lib] fuel req).Writer.status = StatusBadRequest := by
    intro hno
    obtain ⟨err, hw⟩ := hbad hno
    rw [hw]; rfl
  have hinvalid : ∀ r, decodeRegisterRequest lib req.Body = Except.ok r →
      (r.Email = "" ∨ lib.IsEmail r.Email = false ∨ r.Username.length < 3 ∨
        30 < r.Username.length ∨ r.Password.length < 8) →
      (ServeHTTP [h.Register lib] fuel req).Writer.status = StatusBadRequest := by
    intro r hr he
    apply hstatus
    rintro ⟨r2, hr2, h1, h2, h3, h4, h5⟩
    rw [hr] at hr2
    cases hr2
    rcases he with he | he | he | he | he
    · exact h1 he
    · rw [h2] at he; cases he
    · omega
    · omega
    · omega
  refine ⟨⟨?_, ?_⟩, ?_, hbad, ?_, ?_, ?_, ?_, ?_, hinvalid⟩
  · intro hs
    rcases register_cases lib h fuel req hfuel with ⟨r, hr, hv, _⟩ | ⟨_, err, hw⟩
    · exact ⟨r, hr, hv⟩
    · rw [hw] at hs
      simp [StatusCreated] at hs
  · rintro ⟨r, hr, hv⟩
    rcases register_cases lib h fuel req hfuel with ⟨r2, _, _, hw⟩ | ⟨hno, _⟩
    · rw [hw]; rfl
    · exact absurd ⟨r, hr, hv⟩ hno
  · intro r hr hv
    rcases register_cases lib h fuel req hfuel with ⟨r2, hr2, _, hw⟩ | ⟨hno, _⟩
    · rw [hr] at hr2
      cases hr2
      exact hw
    · exact absurd ⟨r, hr, hv⟩ hno
  · intro hb
    apply hstatus
    rintro ⟨r, hr, _⟩
    rw [hb] at hr
    cases hr
  · intro hb
    apply hinvalid ⟨"", "", "", ""⟩ _ (Or.inl rfl)
    rw [hb]
    rfl
  · intro fields name hb hname hno
    have hl := unmarshalFields_unset lib ["email", "username", "password", "full_name"] name
      fields hno [] none rfl
    cases hu : unmarshalFields lib ["email", "username", "password", "full_name"] fields []
        none with
    | mk stored err =>
      rw [hu] at hl
      simp only at hl
      cases err with
      | some e =>
        apply hstatus
        rintro ⟨r, hr, _⟩
        rw [hb] at hr
        simp [decodeRegisterRequest, decodeBody, hu] at hr
      | none =>
        apply hinvalid ⟨(stored.lookup "email").getD "", (stored.lookup "username").getD "",
          (stored.lookup "password").getD "", (stored.lookup "full_name").getD ""⟩
        · rw [hb]
          simp [decodeRegisterRequest, decodeBody, hu]
        · rcases hname with rfl | rfl | rfl
          · left; simp [hl]
          · right; right; left; simp [hl]
          · right; right; right; right; simp [hl]
  · intro fields hb hex
    apply hstatus
    rintro ⟨r, hr, _⟩
    obtain ⟨e, he⟩ := (decodeBody_object_error_iff lib _ fields).2 hex
    rw [hb] at hr
    simp [decodeRegisterRequest, he] at hr
  · intro fields hb hall
    rw [hb]
    cases hd : decodeBody lib ["email", "username", "password", "full_name"]
        (Body.object fields) with
    | error e =>
      obtain ⟨kv, hkv, hf, ho⟩ := (decodeBody_object_error_iff lib _ fields).1 ⟨e, hd⟩
      exact absurd ho (hall kv hkv hf)
    | ok stored =>
      refine ⟨{ Email := (stored.lookup "email").getD "",
                Username := (stored.lookup "username").getD "",
                Password := (stored.lookup "password").getD "",
                FullName := (stored.lookup "full_name").getD "" }, ?_⟩
      simp only [decodeRegisterRequest, hd]


/-- Witness for C20 at the bodies of the registration tests: the valid data
give 201 with the message and the user; an invalid email, a username of two
characters, a password of seven, a body with the username only, the empty
object and a form body give 400. -/
theorem register_status_and_body_witness :
    (1 ≤ 1) ∧
    (ServeHTTP [(NewAuthHandler none).Register refBinding] 1
        (requestWithObject [("email", FieldValue.string "test@example.com"),
                            ("full_name", FieldValue.string "Test User"),
                            ("password", FieldValue.string "Test123456!"),
                            ("username", FieldValue.string "testuser")])).Writer =
      { status := 201, written := true,
        body := [[("message", Value.str "User registered successfully"),
                  ("user", Value.obj [("email", Value.str "test@example.com"),
                                      ("username", Value.str "testuser")])]] } ∧
    (ServeHTTP [(NewAuthHandler none).Register refBinding] 1
        (requestWithObject [("email", FieldValue.string "invalid-email"),
                            ("password", FieldValue.string "Test123456!"),
                            ("username", FieldValue.string "testuser")])).Writer.status
      = StatusBadRequest ∧
    (ServeHTTP [(NewAuthHandler none).Register refBinding] 1
        (requestWithObject [("email", FieldValue.string "test@example.com"),
                            ("password", FieldValue.string "Test123456!"),
                            ("username", FieldValue.string "ab")])).Writer.status
      = StatusBadRequest ∧
    (ServeHTTP [(NewAuthHandler none).Register refBinding] 1
        (requestWithObject [("email", FieldValue.string "test@example.com"),
                            ("password", FieldValue.string "1234567"),
                            ("username", FieldValue.string "testuser")])).Writer.status
      = StatusBadRequest ∧
    (ServeHTTP [(NewAuthHandler none).Register refBinding] 1
        (requestWithObject [("username", FieldValue.string "testuser")])).Writer.status
      = StatusBadRequest ∧
    (ServeHTTP [(NewAuthHandler none).Register refBinding] 1
        (requestWithObject [])).Writer.status = StatusBadRequest ∧
    (ServeHTTP [(NewAuthHandler none).Register refBinding] 1
        { Header := [("Content-Type", "application/x-www-form-urlencoded")],
          Body := Body.notJSON }).Writer.status = StatusBadRequest :=
  ⟨by decide,
   (register_status_and_body refBinding (NewAuthHandler none) 1 _ (by decide)).2.1
     ⟨"test@example.com", "testuser", "Test123456!", "Test User"⟩ rfl
     ⟨by decide, by decide, by decide, by decide, by decide⟩,
   (register_status_and_body refBinding (NewAuthHandler none) 1 _ (by decide)).2.2.2.2.2.2.2.2
     ⟨"invalid-email", "testuser", "Test123456!", ""⟩ rfl (Or.inr (Or.inl (by decide))),
   (register_status_and_body refBinding (NewAuthHandler none) 1 _ (by decide)).2.2.2.2.2.2.2.2
     ⟨"test@example.com", "ab", "Test123456!", ""⟩ rfl
     (Or.inr (Or.inr (Or.inl (by decide)))),
   (register_status_and_body refBinding (NewAuthHandler none) 1 _ (by decide)).2.2.2.2.2.2.2.2
     ⟨"test@example.com", "testuser", "1234567", ""⟩ rfl
     (Or.inr (Or.inr (Or.inr (Or.inr (by decide))))),
   (register_status_and_body refBinding (NewAuthHandler none) 1 _ (by decide)).2.2.2.2.2.1
     [("username", FieldValue.string "testuser")] "email" rfl (Or.inl rfl) (by decide),
   (register_status_and_body refBinding (NewAuthHandler none) 1 _ (by decide)).2.2.2.2.1 rfl,
   (register_status_and_body refBinding (NewAuthHandler none) 1 _ (by decide)).2.2.2.1 rfl⟩

/-- Counterexample to C20 as stated. The body has the email
`test@example.com`, which passes the `email` check, a username of 8
characters and a password of 11, and gives `full_name` a value that is not
a string (a number, say): the status is 400, not 201. Without the
`full_name` field the same body is answered 201. -/
theorem register_full_name_counterexample :
    refBinding.IsEmail "test@example.com" = true ∧
    "testuser".length = 8 ∧ "Test123456!".length = 11 ∧
    (ServeHTTP [(NewAuthHandler none).Register refBinding] 1
        (requestWithObject [("email", FieldValue.string "test@example.com"),
                            ("full_name", FieldValue.other),
                            ("password", FieldValue.string "Test123456!"),
                            ("username", FieldValue.string "testuser")])).Writer =
      { status := 400, written := true,
        body := [[("error",
          Value.str (refBinding.ErrorText (BindError.UnmarshalType "full_name")))]] } ∧
    (ServeHTTP [(NewAuthHandler none).Register refBinding] 1
        (requestWithObject [("email", FieldValue.string "test@example.com"),
                            ("password", FieldValue.string "Test123456!"),
                            ("username", FieldValue.string "testuser")])).Writer.status
      = StatusCreated := by
  refine ⟨by decide, by decide, by decide, by decide, by decide⟩


/-! ## Lemmas: `bcrypt` -/

/-- A slot of `n` bytes holds `n` bytes as they are. -/
theorem fit_of_length (n : Nat) (l : List Char) (h : l.length = n) : fit n l = l := by
  unfold fit
  rw [List.take_append_of_le_length (by omega)]
  exact List.take_of_length_le (by omega)

/-- The key schedule reads a key of 72 bytes or more up to its 72nd byte. -/
theorem keyStream_of_long (key : Bytes) (h : 72 ≤ key.length) :
    keyStream key = key.take 72 := by
  unfold keyStream
  apply List.ext_getElem
  · simp only [List.length_map, List.length_range, List.length_take]
    omega
  · intro i h1 h2
    have hi : i < 72 := by simpa using h1
    have hmod : i % key.length = i := Nat.mod_eq_of_lt (by omega)
    simp only [List.getElem_map, List.getElem_range, hmod, List.getElem_take]
    rw [List.getD_eq_getElem _ _ (by omega)]

/-- Bytes after the 72nd of the key are not read: two passwords that agree
on their first 72 bytes have the same key stream. -/
theorem keyStream_long_password (p q : Bytes) (hp : 72 ≤ p.length) (hq : 72 ≤ q.length)
    (h : p.take 72 = q.take 72) :
    keyStream (p ++ [0]) = keyStream (q ++ [0]) := by
  rw [keyStream_of_long _ (by simp; omega), keyStream_of_long _ (by simp; omega),
    List.take_append_of_le_length hp, List.take_append_of_le_length hq, h]

/-- The function `bcrypt` on the salt of a generated hash. -/
theorem bcrypt_generated (lib : BcryptLib) (hl : lib.Lawful) (password s : Bytes) (cost : Int)
    (hs : s.length = 16) :
    bcrypt lib password cost (lib.base64Encode s) =
      Except.ok (lib.base64Encode
        ((lib.Eksblowfish cost.toNat s (keyStream (password ++ [0]))).take 23)) := by
  unfold bcrypt
  rw [hl.salt_decode s hs]
  rfl

/-- The encoded hash has 31 characters. -/
theorem encoded_hash_length (lib : BcryptLib) (hl : lib.Lawful) (cost : Nat)
    (s stream : Bytes) :
    (lib.base64Encode ((lib.Eksblowfish cost s stream).take 23)).length = 31 := by
  apply hl.hash_length
  simp only [List.length_take, hl.cipher_length, maxCryptedHashSize]
  rfl

/-- The characters of a generated hash. -/
theorem generatedHash_eq (lib : BcryptLib) (hl : lib.Lawful) (password s : Bytes)
    (hs : s.length = 16) :
    generatedHash lib password s =
      '$' :: '2' :: 'a' :: '$' :: '1' :: '0' :: '$' ::
        (lib.base64Encode s ++
          lib.base64Encode ((lib.Eksblowfish 10 s (keyStream (password ++ [0]))).take 23)) := by
  unfold generatedHash hashed.Hash
  simp only [maxCryptedHashSize, encodedSaltSize, encodedHashSize]
  rw [fit_of_length 22 _ (hl.salt_length s hs),
    fit_of_length 31 _ (encoded_hash_length lib hl 10 s _)]
  rfl

/-- What `GenerateFromPassword` returns at `DefaultCost` when the salt is
read and the password passes the length check, if there is one. -/
theorem generateFromPassword_eq (lib : BcryptLib) (hl : lib.Lawful) (password s : Bytes)
    (hs : s.length = 16) (hlen : lib.LimitsPassword = true → password.length ≤ 72) :
    GenerateFromPassword lib password DefaultCost (some s) =
      Except.ok (generatedHash lib password s) := by
  have hlim : ¬ (lib.LimitsPassword = true ∧ 72 < password.length) := by
    rintro ⟨h1, h2⟩
    have := hlen h1
    omega
  have hc : ¬ (DefaultCost < MinCost) := by decide
  have hcc : checkCost DefaultCost = true := by decide
  unfold GenerateFromPassword newFromPassword
  simp only [hlim, if_false, hc, hcc, Bool.true_eq_false]
  rw [bcrypt_generated lib hl password s DefaultCost hs]
  rfl

/-- Parsing a generated hash gives back its parts. -/
theorem newFromHash_generated (lib : BcryptLib) (hl : lib.Lawful) (password s : Bytes)
    (hs : s.length = 16) :
    newFromHash (generatedHash lib password s) =
      Except.ok
        { hash := lib.base64Encode
            ((lib.Eksblowfish 10 s (keyStream (password ++ [0]))).take 23),
          salt := lib.base64Encode s, cost := 10, major := '2', minor := 'a' } := by
  have hsl : (lib.base64Encode s).length = 22 := hl.salt_length s hs
  have hhl := encoded_hash_length lib hl 10 s (keyStream (password ++ [0]))
  rw [generatedHash_eq lib hl password s hs]
  unfold newFromHash
  have hlen : ¬ (('$' :: '2' :: 'a' :: '$' :: '1' :: '0' :: '$' ::
      (lib.base64Encode s ++
        lib.base64Encode ((lib.Eksblowfish 10 s (keyStream (password ++ [0]))).take 23))).length
        < minHashSize) := by
    simp only [List.length_cons, List.length_append, hsl, hhl, minHashSize]
    omega
  rw [if_neg hlen]
  have h1 : ¬ ('$' ≠ '$') := by decide
  have h2 : ¬ (majorVersion < '2') := by decide
  have h3 : ('a' ≠ '$') := by decide
  have hatoi : strconv.Atoi ['1', '0'] = (10, none) := by decide
  have hcc : checkCost 10 = true := by decide
  simp only [if_neg h1, if_neg h2, if_pos h3, List.drop_succ_cons, List.drop_zero,
    List.take_succ_cons, List.take_zero, hatoi, hcc, Bool.true_eq_false, if_false,
    encodedSaltSize]
  rw [List.take_left' hsl, List.drop_left' hsl]

/-- Verifying a password against a generated hash: the encoded ciphertext of
the password under the cost and the salt of the hash is compared with the
one in the hash. -/
theorem compare_generated (lib : BcryptLib) (hl : lib.Lawful) (password other s : Bytes)
    (hs : s.length = 16) :
    CompareHashAndPassword lib (generatedHash lib password s) other =
      if lib.base64Encode ((lib.Eksblowfish 10 s (keyStream (other ++ [0]))).take 23) =
          lib.base64Encode ((lib.Eksblowfish 10 s (keyStream (password ++ [0]))).take 23)
      then Except.ok ()
      else Except.error BcryptError.ErrMismatchedHashAndPassword := by
  have hsl : (lib.base64Encode s).length = 22 := hl.salt_length s hs
  unfold CompareHashAndPassword
  rw [newFromHash_generated lib hl password s hs]
  simp only
  rw [bcrypt_generated lib hl other s 10 hs]
  simp only [hashed.Hash, encodedSaltSize, encodedHashSize]
  rw [fit_of_length 22 _ hsl, fit_of_length 31 _ (encoded_hash_length lib hl _ s _),
    fit_of_length 31 _ (encoded_hash_length lib hl _ s _)]
  by_cases he : lib.base64Encode
        ((lib.Eksblowfish 10 s (keyStream (other ++ [0]))).take 23) =
      lib.base64Encode ((lib.Eksblowfish 10 s (keyStream (password ++ [0]))).take 23)
  · have he2 : lib.base64Encode
          ((lib.Eksblowfish (Int.toNat 10) s (keyStream (other ++ [0]))).take 23) =
        lib.base64Encode
          ((lib.Eksblowfish 10 s (keyStream (password ++ [0]))).take 23) := he
    simp [he, he2]
  · have he3 : ¬ lib.base64Encode
          ((lib.Eksblowfish 10 s (keyStream (password ++ [0]))).take 23) =
        lib.base64Encode
          ((lib.Eksblowfish (Int.toNat 10) s (keyStream (other ++ [0]))).take 23) :=
      fun e => he e.symm
    have he4 : ¬ lib.base64Encode
          ((lib.Eksblowfish 10 s (keyStream (password ++ [0]))).take 23) =
        lib.base64Encode ((lib.Eksblowfish 10 s (keyStream (other ++ [0]))).take 23) :=
      fun e => he e.symm
    simp [he, he3, he4]

/-- The outputs of `bcrypt` for two passwords under the salt of a generated
hash are equal exactly when the encoded ciphertexts are. -/
theorem bcrypt_eq_iff (lib : BcryptLib) (hl : lib.Lawful) (password other s : Bytes)
    (hs : s.length = 16) :
    bcrypt lib other DefaultCost (lib.base64Encode s) =
        bcrypt lib password DefaultCost (lib.base64Encode s) ↔
      lib.base64Encode ((lib.Eksblowfish 10 s (keyStream (other ++ [0]))).take 23) =
        lib.base64Encode ((lib.Eksblowfish 10 s (keyStream (password ++ [0]))).take 23) := by
  rw [bcrypt_generated lib hl other s DefaultCost hs,
    bcrypt_generated lib hl password s DefaultCost hs]
  constructor
  · intro h
    exact Except.ok.inj h
  · intro h
    exact congrArg Except.ok h


/-! ## Lemmas: the reference instance of `bcrypt` -/

/-- A byte written as a character and read back. -/
theorem char_of_byte (x : UInt8) : UInt8.ofNat (Char.ofNat x.toNat).toNat = x := by
  have hx : x.toNat < 256 := x.toNat_lt
  have hv : Nat.isValidChar x.toNat := Or.inl (by omega)
  have hc : (Char.ofNat x.toNat).toNat = x.toNat := by
    simp only [Char.ofNat, hv, Char.toNat, Char.ofNatAux, dite_true]
    rfl
  rw [hc]
  apply UInt8.eq_of_toBitVec_eq
  apply BitVec.eq_of_toNat_eq
  show x.toNat % 256 = x.toNat
  exact Nat.mod_eq_of_lt hx

theorem refBcryptEncode_length (b : Bytes) :
    (refBcryptEncode b).length = b.length + ((4 * b.length + 2) / 3 - b.length) := by
  simp [refBcryptEncode]

theorem refBcrypt_lawful : refBcrypt.Lawful where
  salt_decode := by
    intro b hb
    show refBcryptDecode (refBcryptEncode b) = some b
    have hl : (refBcryptEncode b).length = 22 := by
      rw [refBcryptEncode_length, hb]; rfl
    have hm : (b.map (fun x => Char.ofNat x.toNat)).length = 16 := by
      rw [List.length_map]; exact hb
    unfold refBcryptDecode
    rw [hl]
    unfold refBcryptEncode
    rw [show 22 * 3 / 4 = 16 from rfl, List.take_left' hm, List.map_map]
    congr 1
    conv_rhs => rw [← List.map_id b]
    apply List.map_congr_left
    intro x _
    exact char_of_byte x
  salt_length := by
    intro b hb
    show (refBcryptEncode b).length = 22
    rw [refBcryptEncode_length, hb]; rfl
  hash_length := by
    intro b hb
    show (refBcryptEncode b).length = 31
    rw [refBcryptEncode_length, hb]; rfl
  cipher_length := by
    intro cost csalt stream
    show (refEksblowfish cost csalt stream).length = 24
    simp [refEksblowfish]


/-! ## Theorems: the password hash of the fixtures -/

/-- Claim C17, amended. For every password of at most 72 bytes, when the 16
bytes of salt are read, `GenerateFromPassword` succeeds and verifying the
password against the hash it produced succeeds. Verifying another
plaintext against that hash succeeds when `bcrypt` gives it the same output
under the salt of the hash, and fails with `ErrMismatchedHashAndPassword`
when the outputs differ; the outputs are the same whenever the two
plaintexts have the same key stream (the plaintext, a NUL byte, repeated
up to 72 bytes), so a different plaintext can verify. When the database
takes the row, `CreateTestUserWithData` and `CreateTestUser` store this
hash as the password of the row and return the plaintext in the `User`;
the hash begins with `$2a$10$`, so it differs from every plaintext that
does not begin so. -/
theorem fixture_password_hash (lib : BcryptLib) (hl : lib.Lawful)
    (refuses : DB → UserRow → Bool) (db : DB) (username email password : String) (s : Bytes)
    (n1 n2 : Nat) (hs : s.length = 16) (hlen : (bytesOf password).length ≤ 72) :
    GenerateFromPassword lib (bytesOf password) DefaultCost (some s) =
      Except.ok (generatedHash lib (bytesOf password) s) ∧
    CompareHashAndPassword lib (generatedHash lib (bytesOf password) s) (bytesOf password) =
      Except.ok () ∧
    (∀ other : Bytes,
      (bcrypt lib other DefaultCost (lib.base64Encode s) =
          bcrypt lib (bytesOf password) DefaultCost (lib.base64Encode s) →
        CompareHashAndPassword lib (generatedHash lib (bytesOf password) s) other =
          Except.ok ()) ∧
      (bcrypt lib other DefaultCost (lib.base64Encode s) ≠
          bcrypt lib (bytesOf password) DefaultCost (lib.base64Encode s) →
        CompareHashAndPassword lib (generatedHash lib (bytesOf password) s) other =
          Except.error BcryptError.ErrMismatchedHashAndPassword)) ∧
    (∀ other : Bytes, keyStream (other ++ [0]) = keyStream (bytesOf password ++ [0]) →
      CompareHashAndPassword lib (generatedHash lib (bytesOf password) s) other =
        Except.ok ()) ∧
    (refuses db { Username := username, Email := email,
                  Password := String.mk (generatedHash lib (bytesOf password) s) } = false →
      CreateTestUserWithData lib (some s) refuses db username email password =
        ((some { Username := username, Email := email, Password := password }, none),
          db ++ [{ Username := username, Email := email,
                   Password := String.mk (generatedHash lib (bytesOf password) s) }])) ∧
    (refuses db { Username := GenerateRandomUsername n1, Email := GenerateRandomEmail n2,
                  Password := String.mk (generatedHash lib (bytesOf "Test123456!") s) }
        = false →
      CreateTestUser lib (some s) refuses db n1 n2 =
        ((some { Username := GenerateRandomUsername n1, Email := GenerateRandomEmail n2,
                 Password := "Test123456!" }, none),
          db ++ [{ Username := GenerateRandomUsername n1, Email := GenerateRandomEmail n2,
                   Password := String.mk (generatedHash lib (bytesOf "Test123456!") s) }])) ∧
    (∃ rest, generatedHash lib (bytesOf password) s =
      '$' :: '2' :: 'a' :: '$' :: '1' :: '0' :: '$' :: rest) ∧
    ((∀ rest, password.data ≠ '$' :: '2' :: 'a' :: '$' :: '1' :: '0' :: '$' :: rest) →
      String.mk (generatedHash lib (bytesOf password) s) ≠ password) := by
  have hgen := generateFromPassword_eq lib hl (bytesOf password) s hs (fun _ => hlen)
  have hcmp : ∀ other : Bytes,
      lib.base64Encode ((lib.Eksblowfish 10 s (keyStream (other ++ [0]))).take 23) =
        lib.base64Encode
          ((lib.Eksblowfish 10 s (keyStream (bytesOf password ++ [0]))).take 23) →
      CompareHashAndPassword lib (generatedHash lib (bytesOf password) s) other =
        Except.ok () := by
    intro other he
    rw [compare_generated lib hl (bytesOf password) other s hs, if_pos he]
  have hfixed : (bytesOf "Test123456!").length ≤ 72 := by decide
  refine ⟨hgen, hcmp _ rfl, ?_, ?_, ?_, ?_, ?_, ?_⟩
  · intro other
    constructor
    · intro he
      exact hcmp other ((bcrypt_eq_iff lib hl (bytesOf password) other s hs).1 he)
    · intro hne
      rw [compare_generated lib hl (bytesOf password) other s hs, if_neg]
      exact fun he => hne ((bcrypt_eq_iff lib hl (bytesOf password) other s hs).2 he)
  · intro other hk
    apply hcmp
    rw [hk]
  · intro hacc
    unfold CreateTestUserWithData
    rw [hgen]
    simp only [insertUser, hacc, Bool.false_eq_true, if_false]
  · intro hacc
    unfold CreateTestUser
    simp only
    rw [generateFromPassword_eq lib hl (bytesOf "Test123456!") s hs (fun _ => hfixed)]
    simp only [insertUser, hacc, Bool.false_eq_true, if_false]
  · exact ⟨_, generatedHash_eq lib hl (bytesOf password) s hs⟩
  · intro hno heq
    have hdata : password.data = generatedHash lib (bytesOf password) s :=
      (congrArg String.data heq).symm
    exact hno _ (hdata.trans (generatedHash_eq lib hl (bytesOf password) s hs))


/-- Witness for C17, on the reference instance with the salt bytes all 7:
the password `Test123456!` verifies against its hash, `wrong-password`
does not, and `CreateTestUserWithData` on an empty table that takes every
row stores the hash and returns the plaintext. -/
theorem fixture_password_hash_witness :
    (List.replicate 16 (7 : UInt8)).length = 16 ∧
    (bytesOf "Test123456!").length ≤ 72 ∧
    CompareHashAndPassword refBcrypt
        (generatedHash refBcrypt (bytesOf "Test123456!") (List.replicate 16 7))
        (bytesOf "Test123456!") = Except.ok () ∧
    CompareHashAndPassword refBcrypt
        (generatedHash refBcrypt (bytesOf "Test123456!") (List.replicate 16 7))
        (bytesOf "wrong-password") =
      Except.error BcryptError.ErrMismatchedHashAndPassword ∧
    CreateTestUserWithData refBcrypt (some (List.replicate 16 7)) (fun _ _ => false) []
        "testuser" "test@example.com" "Test123456!" =
      ((some { Username := "testuser", Email := "test@example.com",
               Password := "Test123456!" }, none),
        [{ Username := "testuser", Email := "test@example.com",
           Password := String.mk
             (generatedHash refBcrypt (bytesOf "Test123456!") (List.replicate 16 7)) }]) :=
  ⟨by decide, by decide,
   (fixture_password_hash refBcrypt refBcrypt_lawful (fun _ _ => false) [] "testuser"
      "test@example.com" "Test123456!" (List.replicate 16 7) 0 0 (by decide) (by decide)).2.1,
   ((fixture_password_hash refBcrypt refBcrypt_lawful (fun _ _ => false) [] "testuser"
      "test@example.com" "Test123456!" (List.replicate 16 7) 0 0 (by decide)
      (by decide)).2.2.1 (bytesOf "wrong-password")).2
      (fun h => absurd
        ((bcrypt_eq_iff refBcrypt refBcrypt_lawful (bytesOf "Test123456!")
          (bytesOf "wrong-password") (List.replicate 16 7) (by decide)).1 h)
        (by decide)),
   (fixture_password_hash refBcrypt refBcrypt_lawful (fun _ _ => false) [] "testuser"
      "test@example.com" "Test123456!" (List.replicate 16 7) 0 0 (by decide)
      (by decide)).2.2.2.2.1 rfl⟩

/-- Counterexample to C17 as stated, on the reference instance (it rests
on the key stream alone, so it holds for every instance). A password of 72
bytes `a` is hashed; the different plaintext of 73 bytes that adds a `b`
verifies against the hash. So does `a`, NUL, `a` against the hash of
`a`. -/
theorem different_password_verifies_counterexample :
    List.replicate 72 (97 : UInt8) ≠ List.replicate 72 (97 : UInt8) ++ [98] ∧
    GenerateFromPassword refBcrypt (List.replicate 72 97) DefaultCost
        (some (List.replicate 16 7)) =
      Except.ok (generatedHash refBcrypt (List.replicate 72 97) (List.replicate 16 7)) ∧
    CompareHashAndPassword refBcrypt
        (generatedHash refBcrypt (List.replicate 72 97) (List.replicate 16 7))
        (List.replicate 72 97 ++ [98]) = Except.ok () ∧
    ([97] : Bytes) ≠ [97, 0, 97] ∧
    GenerateFromPassword refBcrypt [97] DefaultCost (some (List.replicate 16 7)) =
      Except.ok (generatedHash refBcrypt [97] (List.replicate 16 7)) ∧
    CompareHashAndPassword refBcrypt (generatedHash refBcrypt [97] (List.replicate 16 7))
        [97, 0, 97] = Except.ok () := by
  have h16 : (List.replicate 16 (7 : UInt8)).length = 16 := by decide
  have hk1 : keyStream (List.replicate 72 (97 : UInt8) ++ [98] ++ [0]) =
      keyStream (List.replicate 72 (97 : UInt8) ++ [0]) :=
    keyStream_long_password _ _ (by simp) (by simp) (by decide)
  have hk2 : keyStream (([97, 0, 97] : Bytes) ++ [0]) = keyStream (([97] : Bytes) ++ [0]) := by
    decide
  refine ⟨by decide, ?_, ?_, by decide, ?_, ?_⟩
  · exact generateFromPassword_eq refBcrypt refBcrypt_lawful _ _ h16 (fun _ => by simp)
  · rw [compare_generated refBcrypt refBcrypt_lawful _ _ _ h16, hk1, if_pos rfl]
  · exact generateFromPassword_eq refBcrypt refBcrypt_lawful _ _ h16 (fun _ => by simp)
  · rw [compare_generated refBcrypt refBcrypt_lawful _ _ _ h16, hk2, if_pos rfl]


/-! ## Theorems: the token signed with another key -/

/-- What `GetTokenWithInvalidSignature` returns. -/
theorem getTokenWithInvalidSignature_eq (lib : JWTLib) (j : JWTHelper) (nowExp nowIat : Time)
    (userID : Int) (username email : String) :
    j.GetTokenWithInvalidSignature lib nowExp nowIat userID username email =
      some (wireToken lib Hash.SHA256 (bytesOf "wrong-secret")
        (generatedClaims j nowExp nowIat userID username email)) := rfl

/-- The reference MAC tells keys apart. -/
theorem refHMAC_key (hash : Hash) (k1 k2 : Bytes) (message : String)
    (h : refHMAC hash k1 message = refHMAC hash k2 message) : k1 = k2 := by
  unfold refHMAC at h
  exact List.append_cancel_right (List.cons.inj h).2

/-- The token of `GetTokenWithInvalidSignature` under the same helper's
`ValidateTestToken`, for every lawful library and every helper (user id a
Go `int`, clock readings within the `UnixNano` range): a signature mismatch
at every clock reading when the helper's secret and `"wrong-secret"` give
different MACs of the token's signing string; the token's claims, while the
token is unexpired, when they give the same MAC. -/
theorem invalid_signature_token_validation (lib : JWTLib) (hl : lib.Lawful) (j : JWTHelper)
    (nowExp nowIat : Time) (userID : Int) (username email : String)
    (hid : IsGoInt userID) (hexp : IsGoInt j.Expire)
    (h1 : nowExp.IsUnixNano) (h2 : nowIat.IsUnixNano) :
    ∃ tok, j.GetTokenWithInvalidSignature lib nowExp nowIat userID username email = some tok ∧
      (lib.HMAC Hash.SHA256 (bytesOf "wrong-secret")
          ((NewWithClaims SigningMethodHS256
            (generatedClaims j nowExp nowIat userID username email)).SigningString lib) ≠
        lib.HMAC Hash.SHA256 j.Secret
          ((NewWithClaims SigningMethodHS256
            (generatedClaims j nowExp nowIat userID username email)).SigningString lib) →
        ∀ now, j.ValidateTestToken lib now tok = Except.error TokenError.SignatureInvalid) ∧
      (lib.HMAC Hash.SHA256 (bytesOf "wrong-secret")
          ((NewWithClaims SigningMethodHS256
            (generatedClaims j nowExp nowIat userID username email)).SigningString lib) =
        lib.HMAC Hash.SHA256 j.Secret
          ((NewWithClaims SigningMethodHS256
            (generatedClaims j nowExp nowIat userID username email)).SigningString lib) →
        ∀ now, now < nowExp + j.Expire - (nowExp + j.Expire) % Second →
          j.ValidateTestToken lib now tok =
            Except.ok (generatedClaims j nowExp nowIat userID username email)) := by
  have hc := generatedClaims_exact j nowExp nowIat userID username email hid hexp h1 h2
  have hv : ∀ now, j.ValidateTestToken lib now (wireToken lib Hash.SHA256
        (bytesOf "wrong-secret") (generatedClaims j nowExp nowIat userID username email)) =
      if lib.HMAC Hash.SHA256 (bytesOf "wrong-secret")
          ((NewWithClaims SigningMethodHS256
            (generatedClaims j nowExp nowIat userID username email)).SigningString lib) =
        lib.HMAC Hash.SHA256 j.Secret
          ((NewWithClaims SigningMethodHS256
            (generatedClaims j nowExp nowIat userID username email)).SigningString lib) then
        match Validate (generatedClaims j nowExp nowIat userID username email) now with
        | [] => Except.ok (generatedClaims j nowExp nowIat userID username email)
        | e :: es => Except.error (TokenError.InvalidClaims (e :: es))
      else Except.error TokenError.SignatureInvalid :=
    fun now => validate_wireToken_key lib hl j Hash.SHA256 (bytesOf "wrong-secret") _ hc now
  refine ⟨_, getTokenWithInvalidSignature_eq lib j nowExp nowIat userID username email,
    ?_, ?_⟩
  · intro hmac now
    rw [hv, if_neg hmac]
  · intro hmac now hlt
    rw [hv, if_pos hmac, validate_generatedClaims, if_pos hlt]

/-- On the reference library the helper of the default test configuration
rejects the token it gets from `GetTokenWithInvalidSignature` for user 1 as
a signature mismatch. -/
theorem invalid_signature_token_default_helper :
    ∃ tok, (NewJWTHelper "test_jwt_secret_key_for_testing_only" 24).GetTokenWithInvalidSignature
        refLib 1700000000000000000 1700000000000000000 1 "user1" "user1@test.com" = some tok ∧
      (NewJWTHelper "test_jwt_secret_key_for_testing_only" 24).ValidateTestToken refLib
        1700000000000000000 tok = Except.error TokenError.SignatureInvalid := by
  obtain ⟨tok, h1, h2, _⟩ := invalid_signature_token_validation refLib refLib_lawful
    (NewJWTHelper "test_jwt_secret_key_for_testing_only" 24)
    1700000000000000000 1700000000000000000 1 "user1" "user1@test.com"
    (by unfold IsGoInt; norm_num) (wrapInt64_range _)
    (by unfold Time.IsUnixNano; norm_num) (by unfold Time.IsUnixNano; norm_num)
  refine ⟨tok, h1, h2 ?_ _⟩
  intro hmac
  have hk : bytesOf "wrong-secret" = bytesOf "test_jwt_secret_key_for_testing_only" :=
    refHMAC_key Hash.SHA256 _ _ _ hmac
  revert hk
  decide

/-- Claim C23, as the code has it. `GetTokenWithInvalidSignature` signs
with the fixed key `"wrong-secret"` and does not look at the helper's
secret. For every lawful library and every helper whose secret is that key
(user id a Go `int`, clock readings within the `UnixNano` range), the method
returns the very token `GenerateTestToken` returns at the same clock
readings, signed with the helper's own secret, and the same helper's
`ValidateTestToken` accepts it while it is unexpired and hands out its
claims. The comments of the method say that it generates a token with a
wrong signature, signed with the wrong key. -/
theorem invalid_signature_token_accepted (lib : JWTLib) (hl : lib.Lawful) (j : JWTHelper)
    (nowExp nowIat now : Time) (userID : Int) (username email : String)
    (hsec : j.Secret = bytesOf "wrong-secret")
    (hid : IsGoInt userID) (hexp : IsGoInt j.Expire)
    (h1 : nowExp.IsUnixNano) (h2 : nowIat.IsUnixNano)
    (hlt : now < nowExp + j.Expire - (nowExp + j.Expire) % Second) :
    ∃ tok, j.GetTokenWithInvalidSignature lib nowExp nowIat userID username email = some tok ∧
      j.GenerateTestToken lib nowExp nowIat userID username email = some tok ∧
      j.ValidateTestToken lib now tok =
        Except.ok (generatedClaims j nowExp nowIat userID username email) := by
  obtain ⟨tok, ht, _, hsame⟩ := invalid_signature_token_validation lib hl j nowExp nowIat
    userID username email hid hexp h1 h2
  refine ⟨tok, ht, ?_, hsame (by rw [hsec]) now hlt⟩
  rw [generateTestToken_eq, hsec, ← getTokenWithInvalidSignature_eq lib j, ht]

/-- Witness of C23 on the reference library, clock at 1700000000 s: the
helper built by `NewJWTHelper("wrong-secret", 24)` accepts the token it
gets from `GetTokenWithInvalidSignature` for user 1 and hands out its
claims. -/
theorem invalid_signature_token_accepted_witness :
    ∃ tok, (NewJWTHelper "wrong-secret" 24).GetTokenWithInvalidSignature refLib
        1700000000000000000 1700000000000000000 1 "user1" "user1@test.com" = some tok ∧
      (NewJWTHelper "wrong-secret" 24).GenerateTestToken refLib
        1700000000000000000 1700000000000000000 1 "user1" "user1@test.com" = some tok ∧
      (NewJWTHelper "wrong-secret" 24).ValidateTestToken refLib 1700000000000000000 tok =
        Except.ok (generatedClaims (NewJWTHelper "wrong-secret" 24)
          1700000000000000000 1700000000000000000 1 "user1" "user1@test.com") :=
  invalid_signature_token_accepted refLib refLib_lawful (NewJWTHelper "wrong-secret" 24)
    1700000000000000000 1700000000000000000 1700000000000000000 1 "user1" "user1@test.com"
    rfl (by unfold IsGoInt; norm_num) (wrapInt64_range _)
    (by unfold Time.IsUnixNano; norm_num) (by unfold Time.IsUnixNano; norm_num)
    (by
      rw [newJWTHelper_expire _ _ (by norm_num) (by norm_num)]
      unfold Hour Second
      norm_num)


/-! ## Lemmas: the pieces of a split -/

/-- A split into one piece: the input has no separator. -/
theorem splitChars_single (sep : Char) (l x : List Char) (h : splitChars sep l = [x]) :
    l = x ∧ sep ∉ x := by
  induction l generalizing x with
  | nil =>
    simp only [splitChars, List.cons.injEq, and_true] at h
    subst h
    exact ⟨rfl, List.not_mem_nil _⟩
  | cons c cs ih =>
    by_cases hc : c = sep
    · have hpos := splitChars_length_pos sep cs
      simp only [splitChars, hc, if_true, List.cons.injEq] at h
      rw [h.2] at hpos
      exact absurd hpos (by simp)
    · cases hs : splitChars sep cs with
      | nil =>
        have hpos := splitChars_length_pos sep cs
        rw [hs] at hpos
        exact absurd hpos (by simp)
      | cons p ps =>
        simp only [splitChars, hc, if_false, hs, List.cons.injEq] at h
        obtain ⟨hx, hps⟩ := h
        subst hps
        obtain ⟨h1, h2⟩ := ih p hs
        subst hx
        refine ⟨by rw [h1], ?_⟩
        intro hm
        rcases List.mem_cons.1 hm with e | e
        · exact hc e.symm
        · exact h2 e

/-- A split into two pieces: the input is the first piece, the separator and
the second piece, and neither piece has a separator. -/
theorem splitChars_pair (sep : Char) (l x y : List Char) (h : splitChars sep l = [x, y]) :
    l = x ++ sep :: y ∧ sep ∉ x ∧ sep ∉ y := by
  induction l generalizing x with
  | nil => simp [splitChars] at h
  | cons c cs ih =>
    by_cases hc : c = sep
    · simp only [splitChars, hc, if_true, List.cons.injEq] at h
      obtain ⟨hx, hy⟩ := h
      obtain ⟨h1, h2⟩ := splitChars_single sep cs y hy
      subst hx
      exact ⟨by rw [hc, h1]; rfl, List.not_mem_nil _, h2⟩
    · cases hs : splitChars sep cs with
      | nil =>
        have hpos := splitChars_length_pos sep cs
        rw [hs] at hpos
        exact absurd hpos (by simp)
      | cons p ps =>
        simp only [splitChars, hc, if_false, hs, List.cons.injEq] at h
        obtain ⟨hx, hps⟩ := h
        subst hps
        obtain ⟨h1, h2, h3⟩ := ih p hs
        subst hx
        refine ⟨by rw [h1]; rfl, ?_, h3⟩
        intro hm
        rcases List.mem_cons.1 hm with e | e
        · exact hc e.symm
        · exact h2 e

/-- The header format `Auth` asks for, on the header string: two pieces of
which the first is `Bearer`, that is `Bearer`, a space, and a token without
a space, which is the second piece. -/
theorem split_bearer_iff (h : String) :
    ((strings.Split h ' ').length = 2 ∧ (strings.Split h ' ').getD 0 "" = "Bearer") ↔
      ∃ t : String, h = "Bearer " ++ t ∧ ' ' ∉ t.data ∧ (strings.Split h ' ').getD 1 "" = t := by
  constructor
  · rintro ⟨hlen, hfirst⟩
    unfold strings.Split at hlen hfirst ⊢
    rw [List.length_map] at hlen
    obtain ⟨x, y, hxy⟩ : ∃ x y, splitChars ' ' h.data = [x, y] := by
      match hs : splitChars ' ' h.data, hlen with
      | [x, y], _ => exact ⟨x, y, rfl⟩
    rw [hxy] at hfirst ⊢
    simp only [List.map_cons, List.map_nil, List.getD_cons_zero] at hfirst
    obtain ⟨h1, _, h3⟩ := splitChars_pair ' ' h.data x y hxy
    have hx : x = "Bearer".data := congrArg String.data hfirst
    refine ⟨String.mk y, ?_, h3, ?_⟩
    · apply String.ext
      rw [h1, hx, String.data_append]
      rfl
    · simp
  · rintro ⟨t, rfl, ht, _⟩
    rw [split_bearer t ht]
    exact ⟨rfl, rfl⟩


/-! ## Theorems: the acceptance condition of `Auth` -/

/-- Claim C22. For every request, with `h` the value of its `Authorization`
header (`""` when there is none): `Auth` calls `Next` with `userID` set,
from every context of the request, exactly when `h` is `Bearer`, a space,
and a non-empty token without a space; otherwise `Auth`, first in a chain,
ends the request in a 401 rejection whatever follows it, with the message
`Authorization header required` when `h` is empty, else
`Invalid authorization header format` when `h` is not `Bearer`, a space and
a string without a space, else `Invalid token` (the header is then
`Bearer` and a space alone); these three cases are all the headers that
are not accepted. On the chain `Auth`, `f` an accepted request runs `f`
once, on the context with `userID` attached. -/
theorem auth_acceptance_condition (req : Request) (rest : List HandlerFunc) (fuel : Nat)
    (hlen : (((Auth :: rest).length : Nat) : Int) < abortIndex) (hfuel : 1 ≤ fuel) :
    (Accepts req = true ↔
      ∃ t : String, req.Header.Get "Authorization" = "Bearer " ++ t ∧ t ≠ "" ∧
        ' ' ∉ t.data) ∧
    ((∃ t : String, req.Header.Get "Authorization" = "Bearer " ++ t ∧ t ≠ "" ∧
        ' ' ∉ t.data) →
      ∀ (next : Context → Context) (c : Context), c.Request = req →
        Auth next c = next (c.Set "userID" (Value.int 1))) ∧
    (req.Header.Get "Authorization" = "" →
      ServeHTTP (Auth :: rest) fuel req =
        rejectedContext req "Authorization header required") ∧
    (req.Header.Get "Authorization" ≠ "" →
      (¬ ∃ t : String, req.Header.Get "Authorization" = "Bearer " ++ t ∧ ' ' ∉ t.data) →
      ServeHTTP (Auth :: rest) fuel req =
        rejectedContext req "Invalid authorization header format") ∧
    (req.Header.Get "Authorization" = "Bearer " →
      ServeHTTP (Auth :: rest) fuel req = rejectedContext req "Invalid token") ∧
    ((¬ ∃ t : String, req.Header.Get "Authorization" = "Bearer " ++ t ∧ t ≠ "" ∧
        ' ' ∉ t.data) →
      req.Header.Get "Authorization" = "" ∨
      (req.Header.Get "Authorization" ≠ "" ∧
        ¬ ∃ t : String, req.Header.Get "Authorization" = "Bearer " ++ t ∧ ' ' ∉ t.data) ∨
      req.Header.Get "Authorization" = "Bearer ") ∧
    ((∃ t : String, req.Header.Get "Authorization" = "Bearer " ++ t ∧ t ≠ "" ∧
        ' ' ∉ t.data) →
      ∀ (f : Context → Context) (fuel2 : Nat), 2 ≤ fuel2 → 1 ≤ (f (passedContext req)).index →
        ServeHTTP [Auth, fun _ => f] fuel2 req =
          { f (passedContext req) with
              index := (f (passedContext req)).index + 1 + 1,
              Writer := (f (passedContext req)).Writer.WriteHeaderNow }) := by
  have hg : Context.GetHeader { newContext req with index := 0 } "Authorization" =
      req.Header.Get "Authorization" := rfl
  have hiff : Accepts req = true ↔
      ∃ t : String, req.Header.Get "Authorization" = "Bearer " ++ t ∧ t ≠ "" ∧
        ' ' ∉ t.data := by
    rw [accepts_iff]
    constructor
    · rintro ⟨_, h2, h3, h4⟩
      obtain ⟨t, ht, hsp, h1⟩ := (split_bearer_iff _).1 ⟨h2, h3⟩
      exact ⟨t, ht, fun e => h4 (h1.trans e), hsp⟩
    · rintro ⟨t, ht, hne, hsp⟩
      have hs := split_bearer t hsp
      rw [ht, hs]
      refine ⟨?_, rfl, rfl, hne⟩
      intro h
      have hl := congrArg String.length h
      rw [String.length_append] at hl
      have h7 : "Bearer ".length = 7 := by decide
      have h0 : "".length = 0 := by decide
      omega
  have hbearer : "Bearer " = "Bearer " ++ "" := by decide
  refine ⟨hiff, ?_, ?_, ?_, ?_, ?_, ?_⟩
  · intro hex next c hc
    exact auth_pass_of_accepts req (hiff.2 hex) next c hc
  · intro h0
    exact serve_rejected req rest fuel _ hlen hfuel
      (fun next => Auth_missing next _ (hg.trans h0))
  · intro hne hno
    apply serve_rejected req rest fuel _ hlen hfuel
    intro next
    apply Auth_malformed next _ (by rw [hg]; exact hne)
    rw [hg]
    intro hs
    obtain ⟨t, ht, hsp, _⟩ := (split_bearer_iff _).1 hs
    exact hno ⟨t, ht, hsp⟩
  · intro hb
    have hs : strings.Split (req.Header.Get "Authorization") ' ' = ["Bearer", ""] := by
      rw [hb, hbearer]
      exact split_bearer "" (by simp)
    apply serve_rejected req rest fuel _ hlen hfuel
    intro next
    apply Auth_empty_token next _
    · rw [hg, hb]; decide
    · rw [hg, hs]; exact ⟨rfl, rfl⟩
    · rw [hg, hs]; rfl
  · intro hno
    by_cases h0 : req.Header.Get "Authorization" = ""
    · exact Or.inl h0
    · by_cases hf : ∃ t : String, req.Header.Get "Authorization" = "Bearer " ++ t ∧
          ' ' ∉ t.data
      · obtain ⟨t, ht, hsp⟩ := hf
        by_cases hte : t = ""
        · right; right
          rw [ht, hte]
          decide
        · exact absurd ⟨t, ht, hte, hsp⟩ hno
      · exact Or.inr (Or.inl ⟨h0, hf⟩)
  · intro hex f fuel2 hfuel2 hidx
    exact serve_accepted req (hiff.2 hex) f fuel2 hfuel2 hidx

/-- Witness of C22 behind a handler that would answer 200: `Bearer a b` gets
the format message, `Bearer ` alone gets `Invalid token`, no header gets
the first message, and `Bearer abc` is accepted. -/
theorem auth_acceptance_condition_witness :
    ServeHTTP [Auth, fun _ c => c.JSON StatusOK [("message", Value.str "success")]] 2
        (requestWithAuthorization "Bearer a b") =
      rejectedContext (requestWithAuthorization "Bearer a b")
        "Invalid authorization header format" ∧
    ServeHTTP [Auth, fun _ c => c.JSON StatusOK [("message", Value.str "success")]] 2
        (requestWithAuthorization "Bearer ") =
      rejectedContext (requestWithAuthorization "Bearer ") "Invalid token" ∧
    ServeHTTP [Auth, fun _ c => c.JSON StatusOK [("message", Value.str "success")]] 2
        { Header := [] } =
      rejectedContext { Header := [] } "Authorization header required" ∧
    Accepts (requestWithAuthorization "Bearer abc") = true :=
  ⟨(auth_acceptance_condition (requestWithAuthorization "Bearer a b")
      [fun _ c => c.JSON StatusOK [("message", Value.str "success")]] 2
      (by decide) (by decide)).2.2.2.1 (by decide)
      (by
        rintro ⟨t, ht, hsp⟩
        have hd : "Bearer a b".data = "Bearer ".data ++ t.data := by
          have := congrArg String.data ht
          rwa [String.data_append] at this
        have ht2 : t.data = ['a', ' ', 'b'] := by
          have h7 : "Bearer a b".data = "Bearer ".data ++ ['a', ' ', 'b'] := by decide
          rw [h7] at hd
          exact (List.append_cancel_left hd).symm
        rw [ht2] at hsp
        exact hsp (by decide)),
   (auth_acceptance_condition (requestWithAuthorization "Bearer ")
      [fun _ c => c.JSON StatusOK [("message", Value.str "success")]] 2
      (by decide) (by decide)).2.2.2.2.1 (by decide),
   (auth_acceptance_condition { Header := [] }
      [fun _ c => c.JSON StatusOK [("message", Value.str "success")]] 2
      (by decide) (by decide)).2.2.1 (by decide),
   (auth_acceptance_condition (requestWithAuthorization "Bearer abc")
      [fun _ c => c.JSON StatusOK [("message", Value.str "success")]] 2
      (by decide) (by decide)).1.2 ⟨"abc", by decide, by decide, by decide⟩⟩


/-! ## Theorems: what a `Register` response shows -/

/-- Claim C21. Every 201 response of `Register` is the one document whose
`user` object has the fields `email` and `username` of the decoded request
and no others, so no `password` field; and two requests that are both
answered 201 and whose decoded email and username agree get the same
response, whatever their passwords and full names (and whatever handler
and database serve them). -/
theorem register_response_hides_password (lib : BindingLib) (h1 h2 : AuthHandler)
    (fuel1 fuel2 : Nat) (req1 req2 : Request) (hf1 : 1 ≤ fuel1) (hf2 : 1 ≤ fuel2) :
    ((ServeHTTP [h1.Register lib] fuel1 req1).Writer.status = StatusCreated →
      ∃ r, decodeRegisterRequest lib req1.Body = Except.ok r ∧
        (ServeHTTP [h1.Register lib] fuel1 req1).Writer =
          { status := 201, written := true,
            body := [[("message", Value.str "User registered successfully"),
                      ("user", Value.obj [("email", Value.str r.Email),
                                          ("username", Value.str r.Username)])]] }) ∧
    ((ServeHTTP [h1.Register lib] fuel1 req1).Writer.status = StatusCreated →
      ∀ doc ∈ (ServeHTTP [h1.Register lib] fuel1 req1).Writer.body,
        ∀ fields, doc.lookup "user" = some (Value.obj fields) →
          fields.map Prod.fst = ["email", "username"] ∧ fields.lookup "password" = none) ∧
    (∀ r1 r2, decodeRegisterRequest lib req1.Body = Except.ok r1 →
      decodeRegisterRequest lib req2.Body = Except.ok r2 →
      (ServeHTTP [h1.Register lib] fuel1 req1).Writer.status = StatusCreated →
      (ServeHTTP [h2.Register lib] fuel2 req2).Writer.status = StatusCreated →
      r1.Email = r2.Email → r1.Username = r2.Username →
      (ServeHTTP [h1.Register lib] fuel1 req1).Writer =
        (ServeHTTP [h2.Register lib] fuel2 req2).Writer) := by
  have hcreated : ∀ (h : AuthHandler) (fuel : Nat) (req : Request), 1 ≤ fuel →
      (ServeHTTP [h.Register lib] fuel req).Writer.status = StatusCreated →
      ∃ r, decodeRegisterRequest lib req.Body = Except.ok r ∧
        (ServeHTTP [h.Register lib] fuel req).Writer =
          { status := 201, written := true,
            body := [[("message", Value.str "User registered successfully"),
                      ("user", Value.obj [("email", Value.str r.Email),
                                          ("username", Value.str r.Username)])]] } := by
    intro h fuel req hf hs
    rcases register_cases lib h fuel req hf with ⟨r, hr, _, hw⟩ | ⟨_, err, hw⟩
    · exact ⟨r, hr, hw⟩
    · rw [hw] at hs
      simp [StatusCreated] at hs
  refine ⟨hcreated h1 fuel1 req1 hf1, ?_, ?_⟩
  · intro hs doc hdoc fields hfields
    obtain ⟨r, _, hw⟩ := hcreated h1 fuel1 req1 hf1 hs
    rw [hw] at hdoc
    simp only [List.mem_singleton] at hdoc
    subst hdoc
    have hu : fields = [("email", Value.str r.Email), ("username", Value.str r.Username)] := by
      have hl : List.lookup "user"
          [("message", Value.str "User registered successfully"),
            ("user", Value.obj [("email", Value.str r.Email),
              ("username", Value.str r.Username)])] =
          some (Value.obj [("email", Value.str r.Email),
            ("username", Value.str r.Username)]) := by
        simp [List.lookup]
      rw [hl] at hfields
      injection hfields with hv
      injection hv with hv2
      exact hv2.symm
    subst hu
    exact ⟨rfl, by simp [List.lookup]⟩
  · intro r1 r2 hd1 hd2 hs1 hs2 he hu
    obtain ⟨r1b, hd1b, hw1⟩ := hcreated h1 fuel1 req1 hf1 hs1
    obtain ⟨r2b, hd2b, hw2⟩ := hcreated h2 fuel2 req2 hf2 hs2
    rw [hd1] at hd1b
    rw [hd2] at hd2b
    cases hd1b
    cases hd2b
    rw [hw1, hw2, he, hu]

/-- Witness of C21: the registration of the test and the same registration
with another password and another full name get the same 201 response. -/
theorem register_response_hides_password_witness :
    (ServeHTTP [(NewAuthHandler none).Register refBinding] 1
        (requestWithObject [("email", FieldValue.string "test@example.com"),
                            ("full_name", FieldValue.string "Test User"),
                            ("password", FieldValue.string "Test123456!"),
                            ("username", FieldValue.string "testuser")])).Writer =
      (ServeHTTP [(NewAuthHandler (some [])).Register refBinding] 2
        (requestWithObject [("email", FieldValue.string "test@example.com"),
                            ("full_name", FieldValue.string "Somebody Else"),
                            ("password", FieldValue.string "another-password"),
                            ("username", FieldValue.string "testuser")])).Writer :=
  (register_response_hides_password refBinding (NewAuthHandler none) (NewAuthHandler (some []))
    1 2 _ _ (by decide) (by decide)).2.2
    ⟨"test@example.com", "testuser", "Test123456!", "Test User"⟩
    ⟨"test@example.com", "testuser", "another-password", "Somebody Else"⟩
    rfl rfl (by decide) (by decide) rfl rfl


/-! ## Lemmas: `PostHandler.Create` -/

/-- The `binding` tags of a post all pass exactly when the title has 1 to
255 characters and the content is non-empty. -/
theorem createPost_failedTags_nil (r : CreatePostRequest) :
    r.failedTags = [] ↔ (r.Title ≠ "" ∧ r.Title.length ≤ 255 ∧ r.Content ≠ "") := by
  unfold CreatePostRequest.failedTags
  constructor
  · intro h
    simp only [List.append_eq_nil] at h
    obtain ⟨h1, h2⟩ := h
    split_ifs at h1 h2
    simp_all
  · rintro ⟨ht, hl, hc⟩
    have h1 : ¬ r.Title.length < 1 := by
      intro h
      have h0 : r.Title.length = 0 := by omega
      exact ht (String.ext (List.length_eq_zero.1 h0))
    have h2 : ¬ 255 < r.Title.length := by omega
    simp [ht, hc, h1, h2]

/-- What `ShouldBindJSON` returns for a post. -/
theorem shouldBindJSONCreatePost_cases (lib : BindingLib) (c : Context) :
    (∃ r, decodeCreatePostRequest lib c.Request.Body = Except.ok r ∧
        (r.Title ≠ "" ∧ r.Title.length ≤ 255 ∧ r.Content ≠ "") ∧
        c.ShouldBindJSONCreatePost lib = Except.ok r) ∨
    ((¬ ∃ r, decodeCreatePostRequest lib c.Request.Body = Except.ok r ∧
        (r.Title ≠ "" ∧ r.Title.length ≤ 255 ∧ r.Content ≠ "")) ∧
      ∃ err, c.ShouldBindJSONCreatePost lib = Except.error err) := by
  unfold Context.ShouldBindJSONCreatePost
  cases hd : decodeCreatePostRequest lib c.Request.Body with
  | error e => exact Or.inr ⟨fun ⟨r, hr, _⟩ => (by cases hr), e, rfl⟩
  | ok r =>
    cases ht : r.failedTags with
    | nil =>
      refine Or.inl ⟨r, rfl, (createPost_failedTags_nil r).1 ht, ?_⟩
      simp only [ht]
    | cons f fs =>
      refine Or.inr ⟨fun ⟨r2, hr, hv⟩ => ?_, BindError.Validation (f :: fs), ?_⟩
      · cases hr
        rw [(createPost_failedTags_nil r).2 hv] at ht
        cases ht
      · simp only [ht]

/-- The three answers of `Create`, on any context. -/
theorem create_cases (lib : BindingLib) (h : PostHandler) (next : Context → Context)
    (c : Context) :
    ((¬ ∃ r, decodeCreatePostRequest lib c.Request.Body = Except.ok r ∧
        (r.Title ≠ "" ∧ r.Title.length ≤ 255 ∧ r.Content ≠ "")) ∧
      ∃ err, h.Create lib next c =
        c.JSON StatusBadRequest [("error", Value.str (lib.ErrorText err))]) ∨
    (∃ r, decodeCreatePostRequest lib c.Request.Body = Except.ok r ∧
      (r.Title ≠ "" ∧ r.Title.length ≤ 255 ∧ r.Content ≠ "") ∧
      ((c.Get "userID" = none ∧
        h.Create lib next c =
          c.JSON StatusUnauthorized [("error", Value.str "User not authenticated")]) ∨
       (∃ userID, c.Get "userID" = some userID ∧
        h.Create lib next c =
          c.JSON StatusCreated
            [("data", Value.obj [("content", Value.str r.Content),
                                 ("id", Value.int 1),
                                 ("status",
                                   Value.str (if r.Status = "" then "draft" else r.Status)),
                                 ("title", Value.str r.Title),
                                 ("user_id", userID)]),
             ("message", Value.str "Post created successfully")]))) := by
  rcases shouldBindJSONCreatePost_cases lib c with ⟨r, hr, hv, hb⟩ | ⟨hno, err, hb⟩
  · refine Or.inr ⟨r, hr, hv, ?_⟩
    cases hu : c.Get "userID" with
    | none =>
      refine Or.inl ⟨rfl, ?_⟩
      simp only [PostHandler.Create, hb, hu]
    | some userID =>
      refine Or.inr ⟨userID, rfl, ?_⟩
      simp only [PostHandler.Create, hb, hu]
      by_cases hs : r.Status = ""
      · simp [hs]
      · simp [hs]
  · refine Or.inl ⟨hno, err, ?_⟩
    simp only [PostHandler.Create, hb]


/-- The writer after `Context.JSON` on a context that has written nothing. -/
theorem json_reset_writer (c : Context) (code : Int) (doc : H)
    (hw : c.Writer = ResponseWriter.reset) (hpos : 0 < code)
    (hbody : bodyAllowedForStatus code = true) :
    (c.JSON code doc).Writer = { status := code, written := true, body := [doc] } := by
  by_cases hc : (200 : Int) = code
  · subst hc
    simp [Context.JSON, hw, ResponseWriter.reset, ResponseWriter.WriteHeader,
      ResponseWriter.Write, bodyAllowedForStatus]
  · simp [Context.JSON, hw, ResponseWriter.reset, ResponseWriter.WriteHeader,
      ResponseWriter.Write, hbody, hpos, hc]

/-- The engine on the chain `Auth`, `handler` for an accepted request, when
`handler` answers the context `Auth` hands it with `Context.JSON`. -/
theorem serve_accepted_json (req : Request) (hacc : Accepts req = true) (handler : HandlerFunc)
    (fuel : Nat) (code : Int) (doc : H) (hfuel : 2 ≤ fuel) (hpos : 0 < code)
    (hbody : bodyAllowedForStatus code = true)
    (hh : ∀ next c, handler next c = handler (fun c2 => c2) c)
    (hj : handler (fun c2 => c2) (passedContext req) = (passedContext req).JSON code doc) :
    (ServeHTTP [Auth, handler] fuel req).Writer =
      { status := code, written := true, body := [doc] } := by
  have hfun : handler = fun _ => handler (fun c2 => c2) := by
    funext next c
    exact hh next c
  rw [hfun, serve_accepted req hacc _ fuel hfuel (by rw [hj, json_index]; simp [passedContext]), hj]
  simp only [json_reset_writer (passedContext req) code doc rfl hpos hbody,
    ResponseWriter.WriteHeaderNow]


/-! ## Theorems: `PostHandler.Create` -/

/-- Claim C26. `Create` checks the body, then the identity, then fills the
default. On every context, with or without a `userID`: a body that does
not decode into a post with a title of 1 to 255 characters and a non-empty
content is answered with `c.JSON(400, {"error": ...})`; this covers a
decoded post with an empty title, an empty content or a title of more than
255 characters, and an object in which no key stands for `title` or none
for `content`. A valid body on a context without `userID` is answered 401
`User not authenticated`; on a context with a `userID` it is answered 201
with `data` holding the decoded title and content, `id` 1, the context's
`userID` as `user_id`, and as `status` the decoded status when it is
non-empty and `draft` when it is empty, which it is when the object has no
key for `status`. On the route alone a valid body gets 401; behind `Auth`,
for an accepted request, it gets 201 with `user_id` 1, and an invalid body
still gets 400. -/
theorem create_post_order (lib : BindingLib) (h : PostHandler) (next : Context → Context)
    (c : Context) (req : Request) (fuel : Nat) (hfuel : 2 ≤ fuel) :
    ((¬ ∃ r, decodeCreatePostRequest lib c.Request.Body = Except.ok r ∧
        (r.Title ≠ "" ∧ r.Title.length ≤ 255 ∧ r.Content ≠ "")) →
      ∃ err, h.Create lib next c =
        c.JSON StatusBadRequest [("error", Value.str (lib.ErrorText err))]) ∧
    (∀ r, decodeCreatePostRequest lib c.Request.Body = Except.ok r →
      (r.Title = "" ∨ r.Content = "" ∨ 255 < r.Title.length) →
      ∃ err, h.Create lib next c =
        c.JSON StatusBadRequest [("error", Value.str (lib.ErrorText err))]) ∧
    (∀ fields name, c.Request.Body = Body.object fields →
      (name = "title" ∨ name = "content") →
      (∀ kv ∈ fields, fieldFor lib ["title", "content", "status"] kv.1 ≠ some name) →
      ∃ err, h.Create lib next c =
        c.JSON StatusBadRequest [("error", Value.str (lib.ErrorText err))]) ∧
    (∀ r, decodeCreatePostRequest lib c.Request.Body = Except.ok r →
      (r.Title ≠ "" ∧ r.Title.length ≤ 255 ∧ r.Content ≠ "") →
      c.Get "userID" = none →
      h.Create lib next c =
        c.JSON StatusUnauthorized [("error", Value.str "User not authenticated")]) ∧
    (∀ r userID, decodeCreatePostRequest lib c.Request.Body = Except.ok r →
      (r.Title ≠ "" ∧ r.Title.length ≤ 255 ∧ r.Content ≠ "") →
      c.Get "userID" = some userID →
      h.Create lib next c =
        c.JSON StatusCreated
          [("data", Value.obj [("content", Value.str r.Content),
                               ("id", Value.int 1),
                               ("status",
                                 Value.str (if r.Status = "" then "draft" else r.Status)),
                               ("title", Value.str r.Title),
                               ("user_id", userID)]),
           ("message", Value.str "Post created successfully")]) ∧
    (∀ fields r, c.Request.Body = Body.object fields →
      (∀ kv ∈ fields, fieldFor lib ["title", "content", "status"] kv.1 ≠ some "status") →
      decodeCreatePostRequest lib c.Request.Body = Except.ok r → r.Status = "") ∧
    ((¬ ∃ r, decodeCreatePostRequest lib req.Body = Except.ok r ∧
        (r.Title ≠ "" ∧ r.Title.length ≤ 255 ∧ r.Content ≠ "")) →
      (∃ err, (ServeHTTP [h.Create lib] fuel req).Writer =
        { status := 400, written := true,
          body := [[("error", Value.str (lib.ErrorText err))]] }) ∧
      (Accepts req = true →
        ∃ err, (ServeHTTP [Auth, h.Create lib] fuel req).Writer =
          { status := 400, written := true,
            body := [[("error", Value.str (lib.ErrorText err))]] })) ∧
    (∀ r, decodeCreatePostRequest lib req.Body = Except.ok r →
      (r.Title ≠ "" ∧ r.Title.length ≤ 255 ∧ r.Content ≠ "") →
      (ServeHTTP [h.Create lib] fuel req).Writer =
        { status := 401, written := true,
          body := [[("error", Value.str "User not authenticated")]] } ∧
      (Accepts req = true →
        (ServeHTTP [Auth, h.Create lib] fuel req).Writer =
          { status := 201, written := true,
            body := [[("data", Value.obj [("content", Value.str r.Content),
                                          ("id", Value.int 1),
                                          ("status",
                                            Value.str
                                              (if r.Status = "" then "draft" else r.Status)),
                                          ("title", Value.str r.Title),
                                          ("user_id", Value.int 1)]),
                      ("message", Value.str "Post created successfully")]] })) := by
  have hnext : ∀ (n : Context → Context) (c2 : Context),
      h.Create lib n c2 = h.Create lib (fun c3 => c3) c2 := fun _ _ => rfl
  have hbad : ∀ (c2 : Context) (n : Context → Context),
      (¬ ∃ r, decodeCreatePostRequest lib c2.Request.Body = Except.ok r ∧
        (r.Title ≠ "" ∧ r.Title.length ≤ 255 ∧ r.Content ≠ "")) →
      ∃ err, h.Create lib n c2 =
        c2.JSON StatusBadRequest [("error", Value.str (lib.ErrorText err))] := by
    intro c2 n hno
    rcases create_cases lib h n c2 with ⟨_, err, he⟩ | ⟨r, hr, hv, _⟩
    · exact ⟨err, he⟩
    · exact absurd ⟨r, hr, hv⟩ hno
  have hinvalid : ∀ r, decodeCreatePostRequest lib c.Request.Body = Except.ok r →
      (r.Title = "" ∨ r.Content = "" ∨ 255 < r.Title.length) →
      ∃ err, h.Create lib next c =
        c.JSON StatusBadRequest [("error", Value.str (lib.ErrorText err))] := by
    intro r hr hi
    apply hbad c next
    rintro ⟨r2, hr2, h1, h2, h3⟩
    rw [hr] at hr2
    cases hr2
    rcases hi with hi | hi | hi
    · exact h1 hi
    · exact h3 hi
    · omega
  have hunauth : ∀ (c2 : Context) (n : Context → Context) (r : CreatePostRequest),
      decodeCreatePostRequest lib c2.Request.Body = Except.ok r →
      (r.Title ≠ "" ∧ r.Title.length ≤ 255 ∧ r.Content ≠ "") →
      c2.Get "userID" = none →
      h.Create lib n c2 =
        c2.JSON StatusUnauthorized [("error", Value.str "User not authenticated")] := by
    intro c2 n r hr hv hu
    rcases create_cases lib h n c2 with ⟨hno, _⟩ | ⟨r2, _, _, ⟨_, he⟩ | ⟨uid, hu2, _⟩⟩
    · exact absurd ⟨r, hr, hv⟩ hno
    · exact he
    · rw [hu] at hu2
      cases hu2
  have hcreated : ∀ (c2 : Context) (n : Context → Context) (r : CreatePostRequest)
      (userID : Value),
      decodeCreatePostRequest lib c2.Request.Body = Except.ok r →
      (r.Title ≠ "" ∧ r.Title.length ≤ 255 ∧ r.Content ≠ "") →
      c2.Get "userID" = some userID →
      h.Create lib n c2 =
        c2.JSON StatusCreated
          [("data", Value.obj [("content", Value.str r.Content),
                               ("id", Value.int 1),
                               ("status",
                                 Value.str (if r.Status = "" then "draft" else r.Status)),
                               ("title", Value.str r.Title),
                               ("user_id", userID)]),
           ("message", Value.str "Post created successfully")] := by
    intro c2 n r userID hr hv hu
    rcases create_cases lib h n c2 with ⟨hno, _⟩ | ⟨r2, hr2, _, ⟨hu2, _⟩ | ⟨uid, hu2, he⟩⟩
    · exact absurd ⟨r, hr, hv⟩ hno
    · rw [hu] at hu2
      cases hu2
    · rw [hr] at hr2
      cases hr2
      rw [hu] at hu2
      cases hu2
      exact he
  refine ⟨hbad c next, hinvalid, ?_, hunauth c next, hcreated c next, ?_, ?_, ?_⟩
  · intro fields name hb hname hno
    have hl := unmarshalFields_unset lib ["title", "content", "status"] name fields hno [] none
      rfl
    cases hu : unmarshalFields lib ["title", "content", "status"] fields [] none with
    | mk stored err =>
      rw [hu] at hl
      simp only at hl
      cases err with
      | some e =>
        apply hbad c next
        rintro ⟨r, hr, _⟩
        rw [hb] at hr
        simp [decodeCreatePostRequest, decodeBody, hu] at hr
      | none =>
        apply hinvalid ⟨(stored.lookup "title").getD "", (stored.lookup "content").getD "",
          (stored.lookup "status").getD ""⟩
        · rw [hb]
          simp [decodeCreatePostRequest, decodeBody, hu]
        · rcases hname with rfl | rfl
          · left; simp [hl]
          · right; left; simp [hl]
  · intro fields r hb hno hr
    have hl := unmarshalFields_unset lib ["title", "content", "status"] "status" fields hno []
      none rfl
    rw [hb] at hr
    cases hu : unmarshalFields lib ["title", "content", "status"] fields [] none with
    | mk stored err =>
      rw [hu] at hl
      simp only at hl
      cases err with
      | some e => simp [decodeCreatePostRequest, decodeBody, hu] at hr
      | none =>
        simp only [decodeCreatePostRequest, decodeBody, hu, Except.ok.injEq] at hr
        rw [← hr]
        simp [hl]
  · intro hno
    constructor
    · obtain ⟨err, he⟩ := hbad { newContext req with index := 0 } (fun c3 => c3) hno
      refine ⟨err, ?_⟩
      apply serve_single_json _ fuel req 400 _ (by omega) (by decide) (by decide)
      intro n
      rw [hnext n]
      exact he
    · intro hacc
      obtain ⟨err, he⟩ := hbad (passedContext req) (fun c3 => c3) hno
      exact ⟨err, serve_accepted_json req hacc _ fuel 400 _ hfuel (by decide) (by decide)
        hnext he⟩
  · intro r hr hv
    constructor
    · apply serve_single_json _ fuel req 401 _ (by omega) (by decide) (by decide)
      intro n
      exact hunauth { newContext req with index := 0 } n r hr hv rfl
    · intro hacc
      exact serve_accepted_json req hacc _ fuel 201 _ hfuel (by decide) (by decide) hnext
        (hcreated (passedContext req) (fun c3 => c3) r (Value.int 1) hr hv rfl)


/-- Witness of C26 on the reference binding: the post `Hello`, `World`
without a status gets 401 on the route alone and 201 with `user_id` 1 and
status `draft` behind `Auth` with the header `Bearer test_token`; with the
status `published` it gets 201 with that status; a body without a title
gets 400 on the route alone. -/
theorem create_post_order_witness :
    (ServeHTTP [(NewPostHandler none).Create refBinding] 2
        (requestWithObject [("content", FieldValue.string "World"),
                            ("title", FieldValue.string "Hello")])).Writer =
      { status := 401, written := true,
        body := [[("error", Value.str "User not authenticated")]] } ∧
    (ServeHTTP [Auth, (NewPostHandler none).Create refBinding] 2
        { Header := [("Authorization", "Bearer test_token")],
          Body := Body.object [("content", FieldValue.string "World"),
                               ("title", FieldValue.string "Hello")] }).Writer =
      { status := 201, written := true,
        body := [[("data", Value.obj [("content", Value.str "World"),
                                      ("id", Value.int 1),
                                      ("status", Value.str "draft"),
                                      ("title", Value.str "Hello"),
                                      ("user_id", Value.int 1)]),
                  ("message", Value.str "Post created successfully")]] } ∧
    (ServeHTTP [Auth, (NewPostHandler none).Create refBinding] 2
        { Header := [("Authorization", "Bearer test_token")],
          Body := Body.object [("content", FieldValue.string "World"),
                               ("status", FieldValue.string "published"),
                               ("title", FieldValue.string "Hello")] }).Writer =
      { status := 201, written := true,
        body := [[("data", Value.obj [("content", Value.str "World"),
                                      ("id", Value.int 1),
                                      ("status", Value.str "published"),
                                      ("title", Value.str "Hello"),
                                      ("user_id", Value.int 1)]),
                  ("message", Value.str "Post created successfully")]] } ∧
    (ServeHTTP [(NewPostHandler none).Create refBinding] 2
        (requestWithObject [("content", FieldValue.string "World")])).Writer.status =
      StatusBadRequest :=
  ⟨((create_post_order refBinding (NewPostHandler none) (fun c => c)
      (newContext (requestWithObject []))
      (requestWithObject [("content", FieldValue.string "World"),
                          ("title", FieldValue.string "Hello")]) 2
      (by decide)).2.2.2.2.2.2.2
      ⟨"Hello", "World", ""⟩ rfl ⟨by decide, by decide, by decide⟩).1,
   ((create_post_order refBinding (NewPostHandler none) (fun c => c)
      (newContext (requestWithObject []))
      { Header := [("Authorization", "Bearer test_token")],
        Body := Body.object [("content", FieldValue.string "World"),
                             ("title", FieldValue.string "Hello")] } 2
      (by decide)).2.2.2.2.2.2.2
      ⟨"Hello", "World", ""⟩ rfl ⟨by decide, by decide, by decide⟩).2 (by decide),
   ((create_post_order refBinding (NewPostHandler none) (fun c => c)
      (newContext (requestWithObject []))
      { Header := [("Authorization", "Bearer test_token")],
        Body := Body.object [("content", FieldValue.string "World"),
                             ("status", FieldValue.string "published"),
                             ("title", FieldValue.string "Hello")] } 2
      (by decide)).2.2.2.2.2.2.2
      ⟨"Hello", "World", "published"⟩ rfl ⟨by decide, by decide, by decide⟩).2 (by decide),
   by
    obtain ⟨err, he⟩ := ((create_post_order refBinding (NewPostHandler none) (fun c => c)
      (newContext (requestWithObject []))
      (requestWithObject [("content", FieldValue.string "World")]) 2
      (by decide)).2.2.2.2.2.2.1
      (by
        rintro ⟨r, hr, h1, _⟩
        have hd : decodeCreatePostRequest refBinding
            (requestWithObject [("content", FieldValue.string "World")]).Body =
            Except.ok ⟨"", "World", ""⟩ := rfl
        rw [hd] at hr
        cases hr
        exact h1 rfl)).1
    rw [he]
    rfl⟩


/-! ## Lemmas: `strconv.Atoi` -/

/-- A decimal digit character has a code from 48 to 57. -/
theorem isDigit_bounds (c : Char) (h : c.isDigit = true) : 48 ≤ c.toNat ∧ c.toNat ≤ 57 := by
  simp only [Char.isDigit, Bool.and_eq_true, decide_eq_true_eq] at h
  exact ⟨h.1, h.2⟩

theorem decimalValue_cons (c : Char) (cs : List Char) (n : Nat) :
    decimalValue (c :: cs) n = decimalValue cs (n * 10 + (c.toNat - 48)) := rfl

/-- Reading more digits does not lower the value. -/
theorem decimalValue_le (ds : List Char) : ∀ n : Nat, n ≤ decimalValue ds n := by
  induction ds with
  | nil => intro n; exact Nat.le_refl n
  | cons c cs ih =>
    intro n
    rw [decimalValue_cons]
    have := ih (n * 10 + (c.toNat - 48))
    omega

/-- The value of `k` digits read after `n` is below `(n + 1) * 10 ^ k`. -/
theorem decimalValue_lt (ds : List Char) (hd : ∀ c ∈ ds, c.isDigit = true) :
    ∀ n : Nat, decimalValue ds n < (n + 1) * 10 ^ ds.length := by
  induction ds with
  | nil => intro n; simp [decimalValue]
  | cons c cs ih =>
    intro n
    have hb := isDigit_bounds c (hd c (List.mem_cons_self _ _))
    have h1 := ih (fun x hx => hd x (List.mem_cons_of_mem _ hx)) (n * 10 + (c.toNat - 48))
    rw [decimalValue_cons, List.length_cons, pow_succ]
    have h2 : (n * 10 + (c.toNat - 48) + 1) * 10 ^ cs.length ≤
        (n + 1) * 10 * 10 ^ cs.length :=
      Nat.mul_le_mul_right _ (by omega)
    calc decimalValue cs (n * 10 + (c.toNat - 48))
        < (n * 10 + (c.toNat - 48) + 1) * 10 ^ cs.length := h1
      _ ≤ (n + 1) * 10 * 10 ^ cs.length := h2
      _ = (n + 1) * (10 ^ cs.length * 10) := by ring

/-- The loop of `ParseUint` on a run of digits: their value, or the largest
`uint64` with `ErrRange` when the value is past it. -/
theorem parseUintLoop_digits (ds : List Char) (hd : ∀ c ∈ ds, c.isDigit = true) :
    ∀ n : Nat, n ≤ 18446744073709551615 →
      parseUintLoop ds n =
        if decimalValue ds n ≤ 18446744073709551615 then (decimalValue ds n, none)
        else (18446744073709551615, some strconv.NumError.ErrRange) := by
  induction ds with
  | nil =>
    intro n hn
    simp [parseUintLoop, decimalValue, hn]
  | cons c cs ih =>
    intro n hn
    have hc : c.isDigit = true := hd c (List.mem_cons_self _ _)
    have hle := decimalValue_le cs (n * 10 + (c.toNat - 48))
    rw [decimalValue_cons]
    unfold parseUintLoop
    simp only [hc, Bool.true_eq_false, if_false]
    by_cases h1 : 1844674407370955162 ≤ n
    · have hbig : ¬ decimalValue cs (n * 10 + (c.toNat - 48)) ≤ 18446744073709551615 := by
        omega
      simp only [h1, if_true, hbig, if_false]
    · by_cases h2 : 18446744073709551615 < n * 10 + (c.toNat - 48)
      · have hbig : ¬ decimalValue cs (n * 10 + (c.toNat - 48)) ≤ 18446744073709551615 := by
          omega
        simp only [h1, if_false, h2, if_true, hbig]
      · simp only [h1, if_false, h2]
        exact ih (fun x hx => hd x (List.mem_cons_of_mem _ hx)) _ (by omega)

/-- The loop of `ParseUint` on digits whose value fits, followed by a
character that is not a digit: `ErrSyntax`, whatever follows. -/
theorem parseUintLoop_nondigit (ds : List Char) (hd : ∀ c ∈ ds, c.isDigit = true)
    (c : Char) (rest : List Char) (hc : c.isDigit = false) :
    ∀ n : Nat, decimalValue ds n ≤ 18446744073709551615 →
      parseUintLoop (ds ++ c :: rest) n = (0, some strconv.NumError.ErrSyntax) := by
  induction ds with
  | nil =>
    intro n _
    simp [parseUintLoop, hc]
  | cons d cs ih =>
    intro n hv
    have hdg : d.isDigit = true := hd d (List.mem_cons_self _ _)
    have hle := decimalValue_le cs (n * 10 + (d.toNat - 48))
    rw [decimalValue_cons] at hv
    have h1 : ¬ 1844674407370955162 ≤ n := by omega
    have h2 : ¬ 18446744073709551615 < n * 10 + (d.toNat - 48) := by omega
    rw [List.cons_append]
    unfold parseUintLoop
    simp only [hdg, Bool.true_eq_false, if_false, h1, h2]
    exact ih (fun x hx => hd x (List.mem_cons_of_mem _ hx)) _ hv

/-- The loop of `ParseUint` on digits whose value is past the largest
`uint64`: `ErrRange`, whatever follows the digits. -/
theorem parseUintLoop_overflow (ds : List Char) (hd : ∀ c ∈ ds, c.isDigit = true)
    (rest : List Char) :
    ∀ n : Nat, n ≤ 18446744073709551615 → 18446744073709551615 < decimalValue ds n →
      parseUintLoop (ds ++ rest) n =
        (18446744073709551615, some strconv.NumError.ErrRange) := by
  induction ds with
  | nil =>
    intro n hn hv
    simp only [decimalValue, List.foldl_nil] at hv
    omega
  | cons d cs ih =>
    intro n hn hv
    have hdg : d.isDigit = true := hd d (List.mem_cons_self _ _)
    rw [decimalValue_cons] at hv
    rw [List.cons_append]
    unfold parseUintLoop
    simp only [hdg, Bool.true_eq_false, if_false]
    by_cases h1 : 1844674407370955162 ≤ n
    · simp only [h1, if_true]
    · by_cases h2 : 18446744073709551615 < n * 10 + (d.toNat - 48)
      · simp only [h1, if_false, h2, if_true]
      · simp only [h1, if_false, h2]
        exact ih (fun x hx => hd x (List.mem_cons_of_mem _ hx)) _ (by omega) hv


/-- The string `Atoi` hands to `ParseUint` when there is no sign. -/
theorem atoi_unsigned (s : List Char) (hne : s ≠ []) (hp : s.head? ≠ some '+')
    (hm : s.head? ≠ some '-') :
    strconv.Atoi s =
      match strconv.ParseUint s with
      | (_, some strconv.NumError.ErrSyntax) => (0, some strconv.NumError.ErrSyntax)
      | (un, _) =>
        if 9223372036854775808 ≤ un then
          (9223372036854775807, some strconv.NumError.ErrRange)
        else ((un : Int), none) := by
  unfold strconv.Atoi strconv.ParseInt
  simp only [hne, if_false, hp, hm, or_self, decide_False]
  split <;> simp

/-- The string `Atoi` hands to `ParseUint` after a minus sign. -/
theorem atoi_minus (t : List Char) :
    strconv.Atoi ('-' :: t) =
      match strconv.ParseUint t with
      | (_, some strconv.NumError.ErrSyntax) => (0, some strconv.NumError.ErrSyntax)
      | (un, _) =>
        if 9223372036854775808 < un then
          (-9223372036854775808, some strconv.NumError.ErrRange)
        else (-(un : Int), none) := by
  have h1 : ('-' :: t).head? = some '+' ∨ ('-' :: t).head? = some '-' := Or.inr rfl
  have h2 : decide (('-' :: t).head? = some '-') = true := by simp
  have h3 : ¬ ('-' :: t = []) := List.cons_ne_nil _ _
  unfold strconv.Atoi strconv.ParseInt
  simp only [if_neg h3, if_pos h1, h2, List.tail_cons, Bool.true_eq_false, false_and,
    if_false, true_and, if_true]

/-- The string `Atoi` hands to `ParseUint` after a plus sign. -/
theorem atoi_plus (t : List Char) :
    strconv.Atoi ('+' :: t) =
      match strconv.ParseUint t with
      | (_, some strconv.NumError.ErrSyntax) => (0, some strconv.NumError.ErrSyntax)
      | (un, _) =>
        if 9223372036854775808 ≤ un then
          (9223372036854775807, some strconv.NumError.ErrRange)
        else ((un : Int), none) := by
  have h1 : ('+' :: t).head? = some '+' ∨ ('+' :: t).head? = some '-' := Or.inl rfl
  have h2 : decide (('+' :: t).head? = some '-') = false := by simp
  have h3 : ¬ ('+' :: t = []) := List.cons_ne_nil _ _
  unfold strconv.Atoi strconv.ParseInt
  simp only [if_neg h3, if_pos h1, h2, List.tail_cons, Bool.false_eq_true, false_and,
    if_false, true_and, if_true]


/-- A string that begins with a digit has no sign. -/
theorem head_digit_no_sign (d : Char) (cs : List Char) (hd : d.isDigit = true) :
    (d :: cs).head? ≠ some '+' ∧ (d :: cs).head? ≠ some '-' := by
  constructor
  · intro h
    simp only [List.head?_cons, Option.some.injEq] at h
    rw [h] at hd
    exact absurd hd (by decide)
  · intro h
    simp only [List.head?_cons, Option.some.injEq] at h
    rw [h] at hd
    exact absurd hd (by decide)

/-- Go `Atoi` on a non-empty run of digits: their value, or the largest
`int64` with `ErrRange` when the value is past it. -/
theorem atoi_digits (ds : List Char) (hne : ds ≠ []) (hd : ∀ c ∈ ds, c.isDigit = true) :
    strconv.Atoi ds =
      if decimalValue ds 0 ≤ 9223372036854775807 then (((decimalValue ds 0 : Nat) : Int), none)
      else (9223372036854775807, some strconv.NumError.ErrRange) := by
  obtain ⟨d, cs, rfl⟩ : ∃ d cs, ds = d :: cs := by
    cases ds with
    | nil => exact absurd rfl hne
    | cons d cs => exact ⟨d, cs, rfl⟩
  have hs := head_digit_no_sign d cs (hd d (List.mem_cons_self _ _))
  rw [atoi_unsigned _ hne hs.1 hs.2]
  unfold strconv.ParseUint
  rw [if_neg hne, parseUintLoop_digits _ hd 0 (by omega)]
  by_cases h1 : decimalValue (d :: cs) 0 ≤ 18446744073709551615
  · rw [if_pos h1]
    by_cases h2 : decimalValue (d :: cs) 0 ≤ 9223372036854775807
    · have h3 : ¬ 9223372036854775808 ≤ decimalValue (d :: cs) 0 := by omega
      simp only [h2, h3, if_true, if_false]
    · have h3 : 9223372036854775808 ≤ decimalValue (d :: cs) 0 := by omega
      simp only [h2, h3, if_true, if_false]
  · rw [if_neg h1]
    have h2 : ¬ decimalValue (d :: cs) 0 ≤ 9223372036854775807 := by omega
    simp only [h2, if_false]
    rfl

/-- Go `Atoi` on a minus sign and a non-empty run of digits. -/
theorem atoi_minus_digits (ds : List Char) (hne : ds ≠ [])
    (hd : ∀ c ∈ ds, c.isDigit = true) :
    strconv.Atoi ('-' :: ds) =
      if decimalValue ds 0 ≤ 9223372036854775808 then
        (-((decimalValue ds 0 : Nat) : Int), none)
      else (-9223372036854775808, some strconv.NumError.ErrRange) := by
  rw [atoi_minus]
  unfold strconv.ParseUint
  rw [if_neg hne, parseUintLoop_digits _ hd 0 (by omega)]
  by_cases h1 : decimalValue ds 0 ≤ 18446744073709551615
  · rw [if_pos h1]
    by_cases h2 : decimalValue ds 0 ≤ 9223372036854775808
    · have h3 : ¬ 9223372036854775808 < decimalValue ds 0 := by omega
      simp only [h2, h3, if_true, if_false]
    · have h3 : 9223372036854775808 < decimalValue ds 0 := by omega
      simp only [h2, h3, if_true, if_false]
  · rw [if_neg h1]
    have h2 : ¬ decimalValue ds 0 ≤ 9223372036854775808 := by omega
    simp only [h2, if_false]
    rfl

/-- Go `ParseUint` on at most 19 digits followed by a character that is not
a digit: `ErrSyntax`. -/
theorem parseUint_nondigit (ds : List Char) (hd : ∀ c ∈ ds, c.isDigit = true)
    (hlen : ds.length ≤ 19) (c : Char) (rest : List Char) (hc : c.isDigit = false) :
    strconv.ParseUint (ds ++ c :: rest) = (0, some strconv.NumError.ErrSyntax) := by
  have hv := decimalValue_lt ds hd 0
  have hpow : (0 + 1) * 10 ^ ds.length ≤ 10 ^ 19 := by
    rw [Nat.zero_add, Nat.one_mul]
    exact Nat.pow_le_pow_right (by decide) hlen
  have hne : ds ++ c :: rest ≠ [] := by simp
  unfold strconv.ParseUint
  rw [if_neg hne]
  exact parseUintLoop_nondigit ds hd c rest hc 0 (by
    have h19 : (10 : Nat) ^ 19 = 10000000000000000000 := by norm_num
    omega)

/-- Go `Atoi` on a string without a sign that has a character other than a
digit among its first 20: value 0 and `ErrSyntax`. -/
theorem atoi_syntax_unsigned (ds : List Char) (hd : ∀ c ∈ ds, c.isDigit = true)
    (hlen : ds.length ≤ 19) (c : Char) (rest : List Char) (hc : c.isDigit = false)
    (hsign : ds = [] → c ≠ '+' ∧ c ≠ '-') :
    strconv.Atoi (ds ++ c :: rest) = (0, some strconv.NumError.ErrSyntax) := by
  have hne : ds ++ c :: rest ≠ [] := by simp
  have hs : (ds ++ c :: rest).head? ≠ some '+' ∧ (ds ++ c :: rest).head? ≠ some '-' := by
    cases ds with
    | nil =>
      obtain ⟨h1, h2⟩ := hsign rfl
      simp only [List.nil_append, List.head?_cons, ne_eq, Option.some.injEq]
      exact ⟨h1, h2⟩
    | cons d cs => exact head_digit_no_sign d _ (hd d (List.mem_cons_self _ _))
  rw [atoi_unsigned _ hne hs.1 hs.2, parseUint_nondigit ds hd hlen c rest hc]

/-- Go `Atoi` on a sign followed by a string that has a character other than
a digit among its first 20, or by nothing: value 0 and `ErrSyntax`. -/
theorem atoi_syntax_signed (sgn : Char) (hsgn : sgn = '+' ∨ sgn = '-') (ds : List Char)
    (hd : ∀ c ∈ ds, c.isDigit = true) (hlen : ds.length ≤ 19) (c : Char) (rest : List Char)
    (hc : c.isDigit = false) :
    strconv.Atoi (sgn :: (ds ++ c :: rest)) = (0, some strconv.NumError.ErrSyntax) ∧
    strconv.Atoi [sgn] = (0, some strconv.NumError.ErrSyntax) := by
  rcases hsgn with rfl | rfl
  · rw [atoi_plus, parseUint_nondigit ds hd hlen c rest hc]
    exact ⟨rfl, by decide⟩
  · rw [atoi_minus, parseUint_nondigit ds hd hlen c rest hc]
    exact ⟨rfl, by decide⟩

/-- Go `Atoi` on digits whose value is past the largest `uint64`, followed by
anything: the largest `int64` and `ErrRange`. -/
theorem atoi_overflow (ds : List Char) (hd : ∀ c ∈ ds, c.isDigit = true)
    (hv : 18446744073709551615 < decimalValue ds 0) (rest : List Char) :
    strconv.Atoi (ds ++ rest) = (9223372036854775807, some strconv.NumError.ErrRange) := by
  obtain ⟨d, cs, rfl⟩ : ∃ d cs, ds = d :: cs := by
    cases ds with
    | nil => simp [decimalValue] at hv
    | cons d cs => exact ⟨d, cs, rfl⟩
  have hs := head_digit_no_sign d (cs ++ rest) (hd d (List.mem_cons_self _ _))
  have hne : (d :: cs) ++ rest ≠ [] := by simp
  rw [atoi_unsigned _ hne hs.1 hs.2]
  unfold strconv.ParseUint
  rw [if_neg hne, parseUintLoop_overflow _ hd rest 0 (by omega) hv]
  rfl


/-- What `Atoi` returns with each error, and the range of its value: 0 with
`ErrSyntax`, the largest or the smallest `int64` with `ErrRange`, and an
`int64` always. -/
theorem atoi_result (s : List Char) :
    ((strconv.Atoi s).2 = some strconv.NumError.ErrSyntax → (strconv.Atoi s).1 = 0) ∧
    ((strconv.Atoi s).2 = some strconv.NumError.ErrRange →
      (strconv.Atoi s).1 = 9223372036854775807 ∨
      (strconv.Atoi s).1 = -9223372036854775808) ∧
    -9223372036854775808 ≤ (strconv.Atoi s).1 ∧ (strconv.Atoi s).1 ≤ 9223372036854775807 := by
  unfold strconv.Atoi strconv.ParseInt
  by_cases hs : s = []
  · simp [hs]
  · simp only [hs, if_false]
    generalize strconv.ParseUint
      (if s.head? = some '+' ∨ s.head? = some '-' then s.tail else s) = r
    obtain ⟨un, e⟩ := r
    generalize decide (s.head? = some '-') = neg
    cases e with
    | none =>
      simp only
      split_ifs <;> simp_all <;> omega
    | some err =>
      cases err with
      | ErrSyntax => simp
      | ErrRange =>
        simp only
        split_ifs <;> simp_all <;> omega


/-! ## Lemmas: the list handlers -/

/-- The page and the limit both list handlers report, and the product they
report as offset, for a request. -/
theorem list_writers (hp : PostHandler) (hu : UserHandler) (fuel : Nat) (req : Request)
    (hfuel : 1 ≤ fuel) :
    ∃ np nl page limit : Int,
      np = (strconv.Atoi ((req.Query.lookup "page").getD "1").data).1 ∧
      nl = (strconv.Atoi ((req.Query.lookup "limit").getD "10").data).1 ∧
      page = (if np < 1 then 1 else np) ∧
      limit = (if nl < 1 ∨ 100 < nl then 10 else nl) ∧
      (ServeHTTP [hp.List] fuel req).Writer =
        { status := 200, written := true,
          body := [postsDocument page limit (wrapInt64 ((page - 1) * limit))] } ∧
      (ServeHTTP [hu.List] fuel req).Writer =
        { status := 200, written := true,
          body := [usersDocument page limit (wrapInt64 ((page - 1) * limit))] } := by
  have hq : ∀ key d : String,
      Context.DefaultQuery { newContext req with index := 0 } key d =
        (req.Query.lookup key).getD d := by
    intro key d
    unfold Context.DefaultQuery
    cases hl : req.Query.lookup key <;> simp [newContext, hl]
  have hr := (atoi_result ((req.Query.lookup "page").getD "1").data).2.2
  have hw : wrapInt64
      ((if (strconv.Atoi ((req.Query.lookup "page").getD "1").data).1 < 1 then 1
        else (strconv.Atoi ((req.Query.lookup "page").getD "1").data).1) - 1) =
      (if (strconv.Atoi ((req.Query.lookup "page").getD "1").data).1 < 1 then 1
        else (strconv.Atoi ((req.Query.lookup "page").getD "1").data).1) - 1 := by
    apply wrapInt64_of_range
    unfold IsGoInt
    split_ifs
    · norm_num
    · norm_num
      omega
  refine ⟨_, _, _, _, rfl, rfl, rfl, rfl, ?_, ?_⟩
  · apply serve_single_json _ fuel req 200 _ hfuel (by decide) (by decide)
    intro next
    simp only [PostHandler.List, hq, hw, StatusOK]
  · apply serve_single_json _ fuel req 200 _ hfuel (by decide) (by decide)
    intro next
    simp only [UserHandler.List, hq, hw, StatusOK]


/-- Go `Atoi` on a string that begins with a minus sign: never above 0. -/
theorem atoi_minus_nonpos (t : List Char) : (strconv.Atoi ('-' :: t)).1 ≤ 0 := by
  rw [atoi_minus]
  generalize strconv.ParseUint t = r
  obtain ⟨un, e⟩ := r
  cases e with
  | none =>
    simp only
    split_ifs
    · norm_num
    · simp
  | some err =>
    cases err with
    | ErrSyntax => simp
    | ErrRange =>
      simp only
      split_ifs
      · norm_num
      · simp

/-! ## Theorems: pagination -/

/-- Claim C24, amended. For every request, `PostHandler.List` and
`UserHandler.List` answer 200 with the same page, limit and offset; the
page is at least 1 and the limit from 1 to 100; an absent page gives 1 and
an absent limit 10. A page is 1 when `Atoi` reports a syntax error for it
or gives a value below 1, and the value of `Atoi` otherwise: a run of
digits gives its value when that is from 1 to the largest `int64`, 1 when
it is 0, and the largest `int64` when it is more; a string that begins
with a minus sign, the empty string and a string with a character that is
not a digit among its first 20 (a leading sign apart) give 1. A limit is
the default 10 when `Atoi` reports an error for it or gives a value below
1 or above 100 (it is not clamped to 100), and the value of `Atoi`
otherwise. -/
theorem list_pagination_normalised (hp : PostHandler) (hu : UserHandler) (fuel : Nat)
    (req : Request) (hfuel : 1 ≤ fuel) :
    ∃ page limit : Int,
      (ServeHTTP [hp.List] fuel req).Writer =
        { status := 200, written := true,
          body := [postsDocument page limit (wrapInt64 ((page - 1) * limit))] } ∧
      (ServeHTTP [hu.List] fuel req).Writer =
        { status := 200, written := true,
          body := [usersDocument page limit (wrapInt64 ((page - 1) * limit))] } ∧
      1 ≤ page ∧ page ≤ 9223372036854775807 ∧ 1 ≤ limit ∧ limit ≤ 100 ∧
      (req.Query.lookup "page" = none → page = 1) ∧
      (req.Query.lookup "limit" = none → limit = 10) ∧
      (∀ s : String, req.Query.lookup "page" = some s →
        ((strconv.Atoi s.data).2 = some strconv.NumError.ErrSyntax → page = 1) ∧
        ((strconv.Atoi s.data).1 < 1 → page = 1) ∧
        (1 ≤ (strconv.Atoi s.data).1 → page = (strconv.Atoi s.data).1) ∧
        (s.data ≠ [] → (∀ c ∈ s.data, c.isDigit = true) →
          (decimalValue s.data 0 = 0 → page = 1) ∧
          (1 ≤ decimalValue s.data 0 → decimalValue s.data 0 ≤ 9223372036854775807 →
            page = (decimalValue s.data 0 : Nat)) ∧
          (9223372036854775807 < decimalValue s.data 0 → page = 9223372036854775807)) ∧
        (∀ t, s.data = '-' :: t → page = 1) ∧
        (s.data = [] → page = 1) ∧
        (∀ ds c rest, s.data = ds ++ c :: rest → (∀ x ∈ ds, x.isDigit = true) →
          ds.length ≤ 19 → c.isDigit = false → (ds = [] → c ≠ '+' ∧ c ≠ '-') → page = 1)) ∧
      (∀ s : String, req.Query.lookup "limit" = some s →
        ((strconv.Atoi s.data).2 ≠ none → limit = 10) ∧
        ((strconv.Atoi s.data).1 < 1 ∨ 100 < (strconv.Atoi s.data).1 → limit = 10) ∧
        (1 ≤ (strconv.Atoi s.data).1 → (strconv.Atoi s.data).1 ≤ 100 →
          limit = (strconv.Atoi s.data).1) ∧
        (s.data ≠ [] → (∀ c ∈ s.data, c.isDigit = true) →
          (1 ≤ decimalValue s.data 0 → decimalValue s.data 0 ≤ 100 →
            limit = (decimalValue s.data 0 : Nat)) ∧
          (decimalValue s.data 0 = 0 ∨ 100 < decimalValue s.data 0 → limit = 10)) ∧
        (∀ t, s.data = '-' :: t → limit = 10)) := by
  obtain ⟨np, nl, page, limit, hnp, hnl, hpage, hlimit, hw1, hw2⟩ :=
    list_writers hp hu fuel req hfuel
  have hrp := atoi_result ((req.Query.lookup "page").getD "1").data
  have hone : (strconv.Atoi "1".data).1 = 1 := by decide
  have hten : (strconv.Atoi "10".data).1 = 10 := by decide
  refine ⟨page, limit, hw1, hw2, ?_, ?_, ?_, ?_, ?_, ?_, ?_, ?_⟩
  · rw [hpage]; split_ifs <;> omega
  · rw [hpage, hnp]; split_ifs <;> omega
  · rw [hlimit]; split_ifs <;> omega
  · rw [hlimit]; split_ifs <;> omega
  · intro hl
    rw [hl, Option.getD_none, hone] at hnp
    rw [hpage, hnp]; rfl
  · intro hl
    rw [hl, Option.getD_none, hten] at hnl
    rw [hlimit, hnl]; rfl
  · intro s hl
    rw [hl, Option.getD_some] at hnp
    have hlow : (strconv.Atoi s.data).1 < 1 → page = 1 := by
      intro h
      rw [hpage, hnp, if_pos h]
    have hhigh : 1 ≤ (strconv.Atoi s.data).1 → page = (strconv.Atoi s.data).1 := by
      intro h
      rw [hpage, hnp, if_neg (by omega)]
    have hsyn : (strconv.Atoi s.data).2 = some strconv.NumError.ErrSyntax → page = 1 := by
      intro h
      exact hlow (by rw [(atoi_result s.data).1 h]; norm_num)
    refine ⟨hsyn, hlow, hhigh, ?_, ?_, ?_, ?_⟩
    · intro hne hd
      have ha := atoi_digits s.data hne hd
      refine ⟨?_, ?_, ?_⟩
      · intro h0
        apply hlow
        rw [ha, h0]
        norm_num
      · intro h1 h2
        have hv : (strconv.Atoi s.data).1 = (decimalValue s.data 0 : Nat) := by
          rw [ha, if_pos h2]
        rw [hhigh (by rw [hv]; exact_mod_cast h1), hv]
      · intro h1
        rw [hhigh (by rw [ha, if_neg (by omega)]; norm_num), ha, if_neg (by omega)]
    · intro t ht
      apply hlow
      have := atoi_minus_nonpos t
      rw [ht]
      omega
    · intro h0
      apply hsyn
      rw [h0]
      rfl
    · intro ds c rest hs hd hlen hc hsign
      apply hsyn
      rw [hs, atoi_syntax_unsigned ds hd hlen c rest hc hsign]
  · intro s hl
    rw [hl, Option.getD_some] at hnl
    have hout : (strconv.Atoi s.data).1 < 1 ∨ 100 < (strconv.Atoi s.data).1 → limit = 10 := by
      intro h
      rw [hlimit, hnl, if_pos h]
    have hin : 1 ≤ (strconv.Atoi s.data).1 → (strconv.Atoi s.data).1 ≤ 100 →
        limit = (strconv.Atoi s.data).1 := by
      intro h1 h2
      rw [hlimit, hnl, if_neg (by omega)]
    refine ⟨?_, hout, hin, ?_, ?_⟩
    · intro he
      apply hout
      cases hv : (strconv.Atoi s.data).2 with
      | none => exact absurd hv he
      | some err =>
        cases err with
        | ErrSyntax =>
          left
          rw [(atoi_result s.data).1 hv]
          norm_num
        | ErrRange =>
          rcases (atoi_result s.data).2.1 hv with h | h
          · right; rw [h]; norm_num
          · left; rw [h]; norm_num
    · intro hne hd
      have ha := atoi_digits s.data hne hd
      refine ⟨?_, ?_⟩
      · intro h1 h2
        have h3 : decimalValue s.data 0 ≤ 9223372036854775807 := by omega
        have hv : (strconv.Atoi s.data).1 = (decimalValue s.data 0 : Nat) := by
          rw [ha, if_pos h3]
        rw [hin (by rw [hv]; exact_mod_cast h1) (by rw [hv]; exact_mod_cast h2), hv]
      · intro h
        apply hout
        by_cases h3 : decimalValue s.data 0 ≤ 9223372036854775807
        · have hv : (strconv.Atoi s.data).1 = (decimalValue s.data 0 : Nat) := by
            rw [ha, if_pos h3]
          rw [hv]
          rcases h with h | h
          · left; rw [h]; norm_num
          · right; exact_mod_cast h
        · right
          rw [ha, if_neg h3]
          norm_num
    · intro t ht
      apply hout
      left
      have := atoi_minus_nonpos t
      rw [ht]
      omega


/-- Witness of C24 (amended): `page=3&limit=20` is reported as page 3, limit
20 and offset 40 by both handlers. -/
theorem list_pagination_normalised_witness :
    (ServeHTTP [(NewPostHandler none).List] 1
        (requestWithQuery [("page", "3"), ("limit", "20")])).Writer =
      { status := 200, written := true, body := [postsDocument 3 20 40] } ∧
    (ServeHTTP [(NewUserHandler none).List] 1
        (requestWithQuery [("page", "3"), ("limit", "20")])).Writer =
      { status := 200, written := true, body := [usersDocument 3 20 40] } := by
  obtain ⟨page, limit, hw1, hw2, _, _, _, _, _, _, hp, hl⟩ :=
    list_pagination_normalised (NewPostHandler none) (NewUserHandler none) 1
      (requestWithQuery [("page", "3"), ("limit", "20")]) (by decide)
  have h3 : page = 3 :=
    ((hp "3" (by decide)).2.2.2.1 (by decide) (by decide)).2.1 (by decide) (by decide)
  have h20 : limit = 20 :=
    ((hl "20" (by decide)).2.2.2.1 (by decide) (by decide)).1 (by decide) (by decide)
  rw [hw1, hw2, h3, h20]
  exact ⟨by decide, by decide⟩

/-- Counterexample to C24 as stated. The page `99999999999999999999x` is
not a number (its last character is not a digit), and both handlers report
the page 9223372036854775807, not 1: `Atoi` stops at the twentieth digit
with `ErrRange` and the largest `int64`, and the handlers drop the error.
The page `9223372036854775808`, an integer above 1, is reported as
9223372036854775807. -/
theorem list_pagination_counterexample :
    ('x' : Char).isDigit = false ∧
    strconv.Atoi "99999999999999999999x".data =
      (9223372036854775807, some strconv.NumError.ErrRange) ∧
    (ServeHTTP [(NewPostHandler none).List] 1
        (requestWithQuery [("page", "99999999999999999999x"), ("limit", "1")])).Writer =
      { status := 200, written := true,
        body := [postsDocument 9223372036854775807 1 9223372036854775806] } ∧
    (ServeHTTP [(NewUserHandler none).List] 1
        (requestWithQuery [("page", "99999999999999999999x"), ("limit", "1")])).Writer =
      { status := 200, written := true,
        body := [usersDocument 9223372036854775807 1 9223372036854775806] } ∧
    (ServeHTTP [(NewPostHandler none).List] 1
        (requestWithQuery [("page", "9223372036854775808"), ("limit", "1")])).Writer =
      { status := 200, written := true,
        body := [postsDocument 9223372036854775807 1 9223372036854775806] } := by
  refine ⟨by decide, by decide, by decide, by decide, by decide⟩

/-! ## Theorems: the offset -/

/-- Claim C25, as the code has it. Both list handlers report as offset the
product `(page - 1) * limit` of the normalised values taken in 64-bit
arithmetic: it is the product, and not negative, as long as the product is
at most the largest `int64`, and it differs from the product beyond that.
For `page=9223372036854775807` without a limit the handlers report page
9223372036854775807, limit 10 and offset -20. -/
theorem list_offset_wraps (hp : PostHandler) (hu : UserHandler) (fuel : Nat) (req : Request)
    (hfuel : 1 ≤ fuel) :
    ∃ page limit offset : Int,
      (ServeHTTP [hp.List] fuel req).Writer =
        { status := 200, written := true, body := [postsDocument page limit offset] } ∧
      (ServeHTTP [hu.List] fuel req).Writer =
        { status := 200, written := true, body := [usersDocument page limit offset] } ∧
      1 ≤ page ∧ 1 ≤ limit ∧
      offset = wrapInt64 ((page - 1) * limit) ∧
      ((page - 1) * limit ≤ 9223372036854775807 →
        offset = (page - 1) * limit ∧ 0 ≤ offset) ∧
      (9223372036854775807 < (page - 1) * limit → offset ≠ (page - 1) * limit) ∧
      (req.Query.lookup "page" = some "9223372036854775807" →
        req.Query.lookup "limit" = none →
        page = 9223372036854775807 ∧ limit = 10 ∧ offset = -20) := by
  obtain ⟨np, nl, page, limit, hnp, hnl, hpage, hlimit, hw1, hw2⟩ :=
    list_writers hp hu fuel req hfuel
  have h1 : 1 ≤ page := by rw [hpage]; split_ifs <;> omega
  have h2 : 1 ≤ limit := by rw [hlimit]; split_ifs <;> omega
  refine ⟨page, limit, wrapInt64 ((page - 1) * limit), hw1, hw2, h1, h2, rfl, ?_, ?_, ?_⟩
  · intro hle
    have hnn : 0 ≤ (page - 1) * limit := Int.mul_nonneg (by omega) (by omega)
    have hw : wrapInt64 ((page - 1) * limit) = (page - 1) * limit := by
      apply wrapInt64_of_range
      unfold IsGoInt
      constructor
      · norm_num
        omega
      · norm_num
        omega
    rw [hw]
    exact ⟨rfl, hnn⟩
  · intro hgt heq
    have hr := (wrapInt64_range ((page - 1) * limit)).2
    rw [heq] at hr
    norm_num at hr
    omega
  · intro hq1 hq2
    have hmax : (strconv.Atoi "9223372036854775807".data).1 = 9223372036854775807 := by
      decide
    have hten : (strconv.Atoi "10".data).1 = 10 := by decide
    rw [hq1, Option.getD_some, hmax] at hnp
    rw [hq2, Option.getD_none, hten] at hnl
    have hp2 : page = 9223372036854775807 := by rw [hpage, hnp]; rfl
    have hl2 : limit = 10 := by rw [hlimit, hnl]; rfl
    refine ⟨hp2, hl2, ?_⟩
    rw [hp2, hl2]
    decide

/-- Witness of C25: `GET /posts?page=9223372036854775807` and the same
query on `/users` are answered with the offset -20. -/
theorem list_offset_wraps_witness :
    (ServeHTTP [(NewPostHandler none).List] 1
        (requestWithQuery [("page", "9223372036854775807")])).Writer =
      { status := 200, written := true,
        body := [postsDocument 9223372036854775807 10 (-20)] } ∧
    (ServeHTTP [(NewUserHandler none).List] 1
        (requestWithQuery [("page", "9223372036854775807")])).Writer =
      { status := 200, written := true,
        body := [usersDocument 9223372036854775807 10 (-20)] } := by
  obtain ⟨page, limit, offset, hw1, hw2, _, _, _, _, _, hq⟩ :=
    list_offset_wraps (NewPostHandler none) (NewUserHandler none) 1
      (requestWithQuery [("page", "9223372036854775807")]) (by decide)
  obtain ⟨h1, h2, h3⟩ := hq (by decide) (by decide)
  rw [hw1, hw2, h1, h2, h3]
  exact ⟨rfl, rfl⟩

end DemoGin
